import Mathlib

/-!
RuntimeMeshBuilder: accessors over raw mesh byte streams.

A shallow embedding of `Source/RuntimeMeshComponent/Private/RuntimeMeshBuilder.cpp`.

* A stream (`TArray<uint8>`) is a list of cells; a cell is read as a `uint8`, and every
  write stores values below 256.
* `int32` arguments (indices, counts, channel numbers) are `Int`; values that are stored
  into a stream are reduced to the stored width explicitly.
* A fault (a failed `check`, a failed container range check, or an access that
  leaves the stream) is `none`.
* Positions and sizes computed from stream lengths are exact: a `TArray` holds fewer than
  `2^31` bytes, so this arithmetic does not wrap on the streams of the program.
* A count passed by the caller is any `int32`: `SetNumVertices` and `SetNumIndices` multiply
  it by the strides in `int32` (`mulInt32`), wrapping as the compiled code does.
* The slack of `EmptyVertices` and `EmptyIndices` is capacity only. The embedding has no
  capacity and takes the reservation sizes `Slack * stride` exactly, so it agrees with the
  code for every slack whose sizes are `int32` values (`SlackFits`, `SizeFits`); the
  overflow of the code's product beyond that range is not part of the embedding.
* A store through a record reference that leaves the stream is a fault. The container
  checks the first byte of the record only; a store past `Num()` is outside the array.
-/

namespace RuntimeMesh

/-! ## Bytes and machine integers -/

/-- The `n` little-endian bytes of the low `8 * n` bits of `v`. -/
def toBytesLE : Nat → Nat → List Nat
  | 0, _ => []
  | n + 1, v => (v % 256) :: toBytesLE n (v / 256)

/-- The unsigned value of a little-endian byte sequence; every cell is read as a `uint8`. -/
def fromBytesLE : List Nat → Nat
  | [] => 0
  | b :: bs => b % 256 + 256 * fromBytesLE bs

/-- Conversion of an `int32` to `uint16` (the assignment `uint16 = int32`). -/
def toUInt16 (v : Int) : Nat := (v % 65536).toNat

/-- The bit pattern of an `int32` as an unsigned 32-bit value. -/
def toUInt32 (v : Int) : Nat := (v % 4294967296).toNat

/-- The `int32` with the given 32-bit pattern (two's complement). -/
def toInt32 (u : Nat) : Int :=
  if u % 4294967296 < 2147483648 then ((u % 4294967296 : Nat) : Int)
  else ((u % 4294967296 : Nat) : Int) - 4294967296

/-- Addition of two `int32` values, wrapping to 32 bits. -/
def addInt32 (a b : Int) : Int := toInt32 (toUInt32 (a + b))

/-- Multiplication of two `int32` values, wrapping to 32 bits. -/
def mulInt32 (a b : Int) : Int := toInt32 (toUInt32 (a * b))

/-- The range of `int32`. -/
def IsInt32 (v : Int) : Prop := -2147483648 ≤ v ∧ v < 2147483648

instance (v : Int) : Decidable (IsInt32 v) := by
  unfold IsInt32
  infer_instance

/-- The `check(...)` assertion: a false condition is a fault. -/
def check (c : Bool) : Option Unit := if c then some () else none

/-! ## The engine container `TArray<uint8>` -/

/-- A byte stream. -/
abbrev TArray := List Nat

/-- `TArray::Num`. -/
def TArray.Num (Data : TArray) : Int := (Data.length : Int)

/-- `TArray::Empty(Slack)`: the array becomes empty; the slack is capacity only, and a
negative slack is a fault. -/
def TArray.Empty (_Data : TArray) (Slack : Int) : Option TArray :=
  if 0 ≤ Slack then some [] else none

/-- `TArray::AddZeroed(Count)`: appends `Count` zero bytes. -/
def TArray.AddZeroed (Data : TArray) (Count : Int) : Option TArray :=
  if 0 ≤ Count then some (Data ++ List.replicate Count.toNat 0) else none

/-- `TArray::SetNumZeroed(NewNum)`: truncates, or grows with zero bytes. -/
def TArray.SetNumZeroed (Data : TArray) (NewNum : Int) : Option TArray :=
  if 0 ≤ NewNum then
    some (Data.take NewNum.toNat ++ List.replicate (NewNum.toNat - Data.length) 0)
  else none

/-- `GetStreamAccess<TYPE>`: the start position `Index * Stride + Offset` of the overlaid
record; `(*Data)[StartPosition]` is range checked by the container. The position is exact;
it is the `int32` of line 10 for every index whose record starts inside the stream. -/
def GetStreamAccess (Data : TArray) (Index Stride Offset : Int) : Option Nat :=
  let StartPosition := Index * Stride + Offset
  if 0 ≤ StartPosition ∧ StartPosition < Data.Num then some StartPosition.toNat else none

/-- The `Size` bytes of the stream that start at byte `Start`. -/
def slice (Data : TArray) (Start Size : Nat) : List Nat := (Data.drop Start).take Size

/-- The stream with the bytes that start at `Start` replaced by `Bytes`. -/
def patch (Data : TArray) (Start : Nat) (Bytes : List Nat) : TArray :=
  Data.take Start ++ Bytes ++ Data.drop (Start + Bytes.length)

/-- Reading a field of `Size` bytes at byte `Start` of the stream; a read that leaves the
stream is a fault. -/
def readBytes (Data : TArray) (Start Size : Nat) : Option (List Nat) :=
  if Start + Size ≤ Data.length then some (slice Data Start Size) else none

/-- Assigning a field: the bytes at `Start` are replaced; a write that leaves the stream
is a fault (line 11 checks the first byte of the record only, and a store past `Num()` is
outside the array). -/
def writeBytes (Data : TArray) (Start : Nat) (Bytes : List Nat) : Option TArray :=
  if Start + Bytes.length ≤ Data.length then some (patch Data Start Bytes) else none

/-! ## FRuntimeMeshIndicesAccessor -/

/-- The index accessor: its flag fields and the stream it points to. -/
structure FRuntimeMeshIndicesAccessor where
  bIsInitialized : Bool
  IndexStream : TArray
  b32BitIndices : Bool
deriving DecidableEq, Repr

namespace FRuntimeMeshIndicesAccessor

/-- Modelled from the spec: `GetIndexStride()` is declared in the header; the index record
is 4 bytes for 32-bit indices and 2 bytes otherwise (the widths `Initialize` checks). -/
def GetIndexStride (self : FRuntimeMeshIndicesAccessor) : Int :=
  if self.b32BitIndices then 4 else 2

/-- The one-argument constructor: not yet initialized. -/
def new (IndexStreamData : TArray) : FRuntimeMeshIndicesAccessor :=
  { bIsInitialized := false, IndexStream := IndexStreamData, b32BitIndices := false }

/-- `Initialize(bIn32BitIndices)`. -/
def Initialize (self : FRuntimeMeshIndicesAccessor) (bIn32BitIndices : Bool) :
    Option FRuntimeMeshIndicesAccessor := do
  let self1 := { self with bIsInitialized := true, b32BitIndices := bIn32BitIndices }
  check (decide (self1.IndexStream.Num % (if self1.b32BitIndices then 4 else 2) = 0))
  pure self1

/-- `NumIndices()`. -/
def NumIndices (self : FRuntimeMeshIndicesAccessor) : Option Int := do
  check self.bIsInitialized
  pure (self.IndexStream.Num / self.GetIndexStride)

/-- `EmptyIndices(Slack)`: the reservation size `Slack * GetIndexStride()` is exact (it is
the `int32` of line 428 when `SizeFits`). -/
def EmptyIndices (self : FRuntimeMeshIndicesAccessor) (Slack : Int) :
    Option FRuntimeMeshIndicesAccessor := do
  check self.bIsInitialized
  let s ← self.IndexStream.Empty (Slack * self.GetIndexStride)
  pure { self with IndexStream := s }

/-- `SetNumIndices(NewNum)`: the new size is the `int32` product of line 434. -/
def SetNumIndices (self : FRuntimeMeshIndicesAccessor) (NewNum : Int) :
    Option FRuntimeMeshIndicesAccessor := do
  check self.bIsInitialized
  let s ← self.IndexStream.SetNumZeroed (mulInt32 NewNum self.GetIndexStride)
  pure { self with IndexStream := s }

/-- `GetIndex(Index)`: an `int32` or a zero-extended `uint16`. -/
def GetIndex (self : FRuntimeMeshIndicesAccessor) (Index : Int) : Option Int := do
  check self.bIsInitialized
  if self.b32BitIndices then
    let p ← GetStreamAccess self.IndexStream Index 4 0
    let bs ← readBytes self.IndexStream p 4
    pure (toInt32 (fromBytesLE bs))
  else
    let p ← GetStreamAccess self.IndexStream Index 2 0
    let bs ← readBytes self.IndexStream p 2
    pure ((fromBytesLE bs : Nat) : Int)

/-- `SetIndex(Index, Value)`: stores an `int32`, or the value converted to `uint16`. -/
def SetIndex (self : FRuntimeMeshIndicesAccessor) (Index Value : Int) :
    Option FRuntimeMeshIndicesAccessor := do
  check self.bIsInitialized
  if self.b32BitIndices then
    let p ← GetStreamAccess self.IndexStream Index 4 0
    let s ← writeBytes self.IndexStream p (toBytesLE 4 (toUInt32 Value))
    pure { self with IndexStream := s }
  else
    let p ← GetStreamAccess self.IndexStream Index 2 0
    let s ← writeBytes self.IndexStream p (toBytesLE 2 (toUInt16 Value))
    pure { self with IndexStream := s }

/-- `AddIndex(NewIndex)`: returns the position of the new record. -/
def AddIndex (self : FRuntimeMeshIndicesAccessor) (NewIndex : Int) :
    Option (Int × FRuntimeMeshIndicesAccessor) := do
  check self.bIsInitialized
  let NewPosition ← self.NumIndices
  let s ← self.IndexStream.AddZeroed self.GetIndexStride
  let self1 := { self with IndexStream := s }
  let self2 ← self1.SetIndex NewPosition NewIndex
  pure (NewPosition, self2)

/-- `AddTriangle(Index0, Index1, Index2)`: returns the position of the first new record. -/
def AddTriangle (self : FRuntimeMeshIndicesAccessor) (Index0 Index1 Index2 : Int) :
    Option (Int × FRuntimeMeshIndicesAccessor) := do
  check self.bIsInitialized
  let NewPosition ← self.NumIndices
  let s ← self.IndexStream.AddZeroed (self.GetIndexStride * 3)
  let self1 := { self with IndexStream := s }
  let self2 ← self1.SetIndex (NewPosition + 0) Index0
  let self3 ← self2.SetIndex (NewPosition + 1) Index1
  let self4 ← self3.SetIndex (NewPosition + 2) Index2
  pure (NewPosition, self4)

end FRuntimeMeshIndicesAccessor

/-! ## Logical values

A `float` is its 32-bit pattern, so "bit-for-bit" is equality of patterns. -/

/-- `FVector`: three floats. -/
structure FVector where
  X : Nat
  Y : Nat
  Z : Nat
deriving DecidableEq, Repr

/-- `FVector4`: four floats; `W` carries the handedness sign of a normal. -/
structure FVector4 where
  X : Nat
  Y : Nat
  Z : Nat
  W : Nat
deriving DecidableEq, Repr

/-- `FVector2D`: two floats. -/
structure FVector2D where
  X : Nat
  Y : Nat
deriving DecidableEq, Repr

/-- `FColor`: four 8-bit components, in memory order. -/
structure FColor where
  B : Nat
  G : Nat
  R : Nat
  A : Nat
deriving DecidableEq, Repr

/-- `FRuntimeMeshTangent`. -/
structure FRuntimeMeshTangent where
  TangentX : FVector
  bFlipTangentY : Bool
deriving DecidableEq, Repr

/-- `FRuntimeMeshAccessorVertex`: the logical vertex. -/
structure FRuntimeMeshAccessorVertex where
  Position : FVector
  Normal : FVector4
  Tangent : FVector
  Color : FColor
  UVs : List FVector2D
deriving DecidableEq, Repr

/-- The engine's numeric conversions, which are not part of this repository: the packed
normal types (`FPackedNormal`, 32 bits; `FPackedRGBA16N`, 64 bits), the half float
(`FFloat16`) and `GetBasisDeterminantSign`. They are parameters of the embedding. -/
structure EngineConversions where
  PackedNormalOfVector4 : FVector4 → Nat
  PackedNormalOfVector : FVector → Nat
  Vector4OfPackedNormal : Nat → FVector4
  VectorOfPackedNormal : Nat → FVector
  PackedRGBA16NOfVector4 : FVector4 → Nat
  PackedRGBA16NOfVector : FVector → Nat
  Vector4OfPackedRGBA16N : Nat → FVector4
  VectorOfPackedRGBA16N : Nat → FVector
  Float16OfFloat : Nat → Nat
  FloatOfFloat16 : Nat → Nat
  GetBasisDeterminantSign : FVector → FVector → FVector → Nat

/-- The float `1.0f`. -/
def floatOne : Nat := 1065353216

/-- The float `-1.0f`. -/
def floatMinusOne : Nat := 3212836864

/-- `FVector4(V, W)`. -/
def FVector4.ofVector (V : FVector) (W : Nat) : FVector4 := { X := V.X, Y := V.Y, Z := V.Z, W := W }

/-- The 12 bytes of an `FVector`. -/
def encodeFVector (v : FVector) : List Nat :=
  toBytesLE 4 v.X ++ toBytesLE 4 v.Y ++ toBytesLE 4 v.Z

/-- The `FVector` stored in 12 bytes. -/
def decodeFVector (bs : List Nat) : FVector :=
  { X := fromBytesLE (bs.take 4), Y := fromBytesLE ((bs.drop 4).take 4),
    Z := fromBytesLE ((bs.drop 8).take 4) }

/-- The 4 bytes of an `FColor`. -/
def encodeFColor (c : FColor) : List Nat := [c.B % 256, c.G % 256, c.R % 256, c.A % 256]

/-- The `FColor` stored in 4 bytes. -/
def decodeFColor (bs : List Nat) : FColor :=
  { B := bs.getD 0 0 % 256, G := bs.getD 1 0 % 256, R := bs.getD 2 0 % 256,
    A := bs.getD 3 0 % 256 }

/-- Size of a packed normal: `sizeof(FPackedRGBA16N)` or `sizeof(FPackedNormal)`. -/
def packedSize (bHigh : Bool) : Nat := if bHigh then 8 else 4

/-- Size of one UV: `sizeof(FVector2D)` or `sizeof(FVector2DHalf)`. -/
def uvSize (bHigh : Bool) : Nat := if bHigh then 8 else 4

/-- Assignment of an `FVector4` to a packed normal field: its bytes. -/
def encodeNormal (cv : EngineConversions) (bHigh : Bool) (v : FVector4) : List Nat :=
  if bHigh then toBytesLE 8 (cv.PackedRGBA16NOfVector4 v) else toBytesLE 4 (cv.PackedNormalOfVector4 v)

/-- Conversion of a packed normal field to `FVector4`. -/
def decodeNormal (cv : EngineConversions) (bHigh : Bool) (bs : List Nat) : FVector4 :=
  if bHigh then cv.Vector4OfPackedRGBA16N (fromBytesLE bs) else cv.Vector4OfPackedNormal (fromBytesLE bs)

/-- Assignment of an `FVector` to a packed normal field: its bytes. -/
def encodeTangent (cv : EngineConversions) (bHigh : Bool) (v : FVector) : List Nat :=
  if bHigh then toBytesLE 8 (cv.PackedRGBA16NOfVector v) else toBytesLE 4 (cv.PackedNormalOfVector v)

/-- Conversion of a packed normal field to `FVector`. -/
def decodeTangent (cv : EngineConversions) (bHigh : Bool) (bs : List Nat) : FVector :=
  if bHigh then cv.VectorOfPackedRGBA16N (fromBytesLE bs) else cv.VectorOfPackedNormal (fromBytesLE bs)

/-- Assignment of an `FVector2D` to a UV element (`FVector2D` or `FVector2DHalf`): its bytes. -/
def encodeUV (cv : EngineConversions) (bHigh : Bool) (v : FVector2D) : List Nat :=
  if bHigh then toBytesLE 4 v.X ++ toBytesLE 4 v.Y
  else toBytesLE 2 (cv.Float16OfFloat v.X) ++ toBytesLE 2 (cv.Float16OfFloat v.Y)

/-- Conversion of a UV element to `FVector2D`. -/
def decodeUV (cv : EngineConversions) (bHigh : Bool) (bs : List Nat) : FVector2D :=
  if bHigh then { X := fromBytesLE (bs.take 4), Y := fromBytesLE ((bs.drop 4).take 4) }
  else { X := cv.FloatOfFloat16 (fromBytesLE (bs.take 2)),
         Y := cv.FloatOfFloat16 (fromBytesLE ((bs.drop 2).take 2)) }

/-- Modelled from the spec: `PositionStride` is a constant of the header; the position
record is 12 bytes (three 4-byte floats). -/
def PositionStride : Int := 12

/-- Modelled from the spec: `ColorStride` is a constant of the header; the color record is
4 bytes. -/
def ColorStride : Int := 4

/-- Modelled from the spec: `FRuntimeMeshTangents` and `FRuntimeMeshTangentsHighPrecision`
are declared in a header; the record is the packed normal followed by the packed tangent.
This is the byte offset of `.Normal`. -/
def NormalFieldOffset (_bHigh : Bool) : Nat := 0

/-- Modelled from the spec: the byte offset of `.Tangent` in the tangent record (see
`NormalFieldOffset`). -/
def TangentFieldOffset (bHigh : Bool) : Nat := packedSize bHigh

/-- `TStaticArray<TYPE, 8>::operator[]`: the byte offset of element `Index`, which is
checked against the 8 elements. -/
def StaticArrayOffset (Index : Int) (ElemSize : Nat) : Option Nat :=
  if 0 ≤ Index ∧ Index < 8 then some (Index.toNat * ElemSize) else none

/-! ## FRuntimeMeshVerticesAccessor -/

/-- The vertex accessor: its configuration fields and the four streams it points to. -/
structure FRuntimeMeshVerticesAccessor where
  bIsInitialized : Bool
  PositionStream : TArray
  TangentStream : TArray
  bTangentHighPrecision : Bool
  TangentSize : Int
  TangentStride : Int
  UVStream : TArray
  bUVHighPrecision : Bool
  UVSize : Int
  UVStride : Int
  UVChannelCount : Int
  ColorStream : TArray
deriving DecidableEq, Repr

namespace FRuntimeMeshVerticesAccessor

/-- The four-stream constructor: not yet initialized. -/
def new (PositionStreamData TangentStreamData UVStreamData ColorStreamData : TArray) :
    FRuntimeMeshVerticesAccessor :=
  { bIsInitialized := false, PositionStream := PositionStreamData,
    TangentStream := TangentStreamData, bTangentHighPrecision := false, TangentSize := 0,
    TangentStride := 0, UVStream := UVStreamData, bUVHighPrecision := false, UVSize := 0,
    UVStride := 0, UVChannelCount := 0, ColorStream := ColorStreamData }

/-- `Initialize(bInTangentsHighPrecision, bInUVsHighPrecision, bInUVCount)`. -/
def Initialize (self : FRuntimeMeshVerticesAccessor)
    (bInTangentsHighPrecision bInUVsHighPrecision : Bool) (bInUVCount : Int) :
    FRuntimeMeshVerticesAccessor :=
  let TangentSize : Int := if bInTangentsHighPrecision then 8 else 4
  let UVSize : Int := if bInUVsHighPrecision then 8 else 4
  { self with
    bIsInitialized := true
    bTangentHighPrecision := bInTangentsHighPrecision
    TangentSize := TangentSize
    TangentStride := TangentSize * 2
    bUVHighPrecision := bInUVsHighPrecision
    UVChannelCount := bInUVCount
    UVSize := UVSize
    UVStride := UVSize * bInUVCount }

/-- `NumVertices()`. -/
def NumVertices (self : FRuntimeMeshVerticesAccessor) : Option Int := do
  check self.bIsInitialized
  pure (self.PositionStream.Num / PositionStride)

/-- `NumUVChannels()`. -/
def NumUVChannels (self : FRuntimeMeshVerticesAccessor) : Option Int := do
  check self.bIsInitialized
  pure self.UVChannelCount

/-- `EmptyVertices(Slack)`: the reservation sizes are exact (they are the `int32` products
of lines 81-84 when `SlackFits`). -/
def EmptyVertices (self : FRuntimeMeshVerticesAccessor) (Slack : Int) :
    Option FRuntimeMeshVerticesAccessor := do
  check self.bIsInitialized
  let p ← self.PositionStream.Empty (Slack * PositionStride)
  let t ← self.TangentStream.Empty (Slack * self.TangentStride)
  let u ← self.UVStream.Empty (Slack * self.UVSize)
  let c ← self.ColorStream.Empty (Slack * ColorStride)
  pure { self with PositionStream := p, TangentStream := t, UVStream := u, ColorStream := c }

/-- `SetNumVertices(NewNum)`: the new sizes are the `int32` products of lines 90-93. -/
def SetNumVertices (self : FRuntimeMeshVerticesAccessor) (NewNum : Int) :
    Option FRuntimeMeshVerticesAccessor := do
  check self.bIsInitialized
  let p ← self.PositionStream.SetNumZeroed (mulInt32 NewNum PositionStride)
  let t ← self.TangentStream.SetNumZeroed (mulInt32 NewNum self.TangentStride)
  let u ← self.UVStream.SetNumZeroed (mulInt32 NewNum self.UVStride)
  let c ← self.ColorStream.SetNumZeroed (mulInt32 NewNum ColorStride)
  pure { self with PositionStream := p, TangentStream := t, UVStream := u, ColorStream := c }

/-- `AddSingleVertex()`: one zeroed record on each stream; returns the prior count. -/
def AddSingleVertex (self : FRuntimeMeshVerticesAccessor) :
    Option (Int × FRuntimeMeshVerticesAccessor) := do
  let NewIndex ← self.NumVertices
  let p ← self.PositionStream.AddZeroed PositionStride
  let t ← self.TangentStream.AddZeroed self.TangentStride
  let u ← self.UVStream.AddZeroed self.UVStride
  let c ← self.ColorStream.AddZeroed ColorStride
  pure (NewIndex,
    { self with PositionStream := p, TangentStream := t, UVStream := u, ColorStream := c })

/-- `GetPosition(Index)`. -/
def GetPosition (self : FRuntimeMeshVerticesAccessor) (Index : Int) : Option FVector := do
  check self.bIsInitialized
  let p ← GetStreamAccess self.PositionStream Index PositionStride 0
  let bs ← readBytes self.PositionStream p 12
  pure (decodeFVector bs)

/-- `GetNormal(Index)`. -/
def GetNormal (cv : EngineConversions) (self : FRuntimeMeshVerticesAccessor) (Index : Int) :
    Option FVector4 := do
  check self.bIsInitialized
  if self.bTangentHighPrecision then
    let p ← GetStreamAccess self.TangentStream Index self.TangentStride 0
    let bs ← readBytes self.TangentStream (p + NormalFieldOffset true) (packedSize true)
    pure (decodeNormal cv true bs)
  else
    let p ← GetStreamAccess self.TangentStream Index self.TangentStride 0
    let bs ← readBytes self.TangentStream (p + NormalFieldOffset false) (packedSize false)
    pure (decodeNormal cv false bs)

/-- `GetTangent(Index)`. -/
def GetTangent (cv : EngineConversions) (self : FRuntimeMeshVerticesAccessor) (Index : Int) :
    Option FVector := do
  check self.bIsInitialized
  if self.bTangentHighPrecision then
    let p ← GetStreamAccess self.TangentStream Index self.TangentStride 0
    let bs ← readBytes self.TangentStream (p + TangentFieldOffset true) (packedSize true)
    pure (decodeTangent cv true bs)
  else
    let p ← GetStreamAccess self.TangentStream Index self.TangentStride 0
    let bs ← readBytes self.TangentStream (p + TangentFieldOffset false) (packedSize false)
    pure (decodeTangent cv false bs)

/-- `GetColor(Index)`. -/
def GetColor (self : FRuntimeMeshVerticesAccessor) (Index : Int) : Option FColor := do
  check self.bIsInitialized
  let p ← GetStreamAccess self.ColorStream Index ColorStride 0
  let bs ← readBytes self.ColorStream p 4
  pure (decodeFColor bs)

/-- `GetUV(Index, Channel)`. -/
def GetUV (cv : EngineConversions) (self : FRuntimeMeshVerticesAccessor) (Index Channel : Int) :
    Option FVector2D := do
  check self.bIsInitialized
  check (decide (Channel ≥ 0 ∧ Channel < self.UVChannelCount))
  if self.bUVHighPrecision then
    let p ← GetStreamAccess self.UVStream Index self.UVStride 0
    let off ← StaticArrayOffset Channel (uvSize true)
    let bs ← readBytes self.UVStream (p + off) (uvSize true)
    pure (decodeUV cv true bs)
  else
    let p ← GetStreamAccess self.UVStream Index self.UVStride 0
    let off ← StaticArrayOffset Channel (uvSize false)
    let bs ← readBytes self.UVStream (p + off) (uvSize false)
    pure (decodeUV cv false bs)

/-- `SetPosition(Index, Value)`. -/
def SetPosition (self : FRuntimeMeshVerticesAccessor) (Index : Int) (Value : FVector) :
    Option FRuntimeMeshVerticesAccessor := do
  check self.bIsInitialized
  let p ← GetStreamAccess self.PositionStream Index PositionStride 0
  let s ← writeBytes self.PositionStream p (encodeFVector Value)
  pure { self with PositionStream := s }

/-- `SetNormal(Index, Value)`. -/
def SetNormal (cv : EngineConversions) (self : FRuntimeMeshVerticesAccessor) (Index : Int)
    (Value : FVector4) : Option FRuntimeMeshVerticesAccessor := do
  check self.bIsInitialized
  if self.bTangentHighPrecision then
    let p ← GetStreamAccess self.TangentStream Index self.TangentStride 0
    let s ← writeBytes self.TangentStream (p + NormalFieldOffset true) (encodeNormal cv true Value)
    pure { self with TangentStream := s }
  else
    let p ← GetStreamAccess self.TangentStream Index self.TangentStride 0
    let s ← writeBytes self.TangentStream (p + NormalFieldOffset false) (encodeNormal cv false Value)
    pure { self with TangentStream := s }

/-- `SetTangent(Index, FVector Value)`. -/
def SetTangent (cv : EngineConversions) (self : FRuntimeMeshVerticesAccessor) (Index : Int)
    (Value : FVector) : Option FRuntimeMeshVerticesAccessor := do
  check self.bIsInitialized
  if self.bTangentHighPrecision then
    let p ← GetStreamAccess self.TangentStream Index self.TangentStride 0
    let s ← writeBytes self.TangentStream (p + TangentFieldOffset true) (encodeTangent cv true Value)
    pure { self with TangentStream := s }
  else
    let p ← GetStreamAccess self.TangentStream Index self.TangentStride 0
    let s ← writeBytes self.TangentStream (p + TangentFieldOffset false) (encodeTangent cv false Value)
    pure { self with TangentStream := s }

/-- The body shared by both precisions of `SetTangent(Index, FRuntimeMeshTangent Value)`:
the stored normal is read, its `W` replaced, and normal and tangent are stored. -/
def SetTangentFlipBody (cv : EngineConversions) (bHigh : Bool) (Data : TArray) (p : Nat)
    (Value : FRuntimeMeshTangent) : Option TArray := do
  let nb ← readBytes Data (p + NormalFieldOffset bHigh) (packedSize bHigh)
  let NewNormal := decodeNormal cv bHigh nb
  let NewNormal := { NewNormal with W := if Value.bFlipTangentY then floatMinusOne else floatOne }
  let s1 ← writeBytes Data (p + NormalFieldOffset bHigh) (encodeNormal cv bHigh NewNormal)
  writeBytes s1 (p + TangentFieldOffset bHigh) (encodeTangent cv bHigh Value.TangentX)

/-- `SetTangent(Index, FRuntimeMeshTangent Value)`. -/
def SetTangentFlip (cv : EngineConversions) (self : FRuntimeMeshVerticesAccessor) (Index : Int)
    (Value : FRuntimeMeshTangent) : Option FRuntimeMeshVerticesAccessor := do
  check self.bIsInitialized
  if self.bTangentHighPrecision then
    let p ← GetStreamAccess self.TangentStream Index self.TangentStride 0
    let s ← SetTangentFlipBody cv true self.TangentStream p Value
    pure { self with TangentStream := s }
  else
    let p ← GetStreamAccess self.TangentStream Index self.TangentStride 0
    let s ← SetTangentFlipBody cv false self.TangentStream p Value
    pure { self with TangentStream := s }

/-- `SetColor(Index, Value)`. -/
def SetColor (self : FRuntimeMeshVerticesAccessor) (Index : Int) (Value : FColor) :
    Option FRuntimeMeshVerticesAccessor := do
  check self.bIsInitialized
  let p ← GetStreamAccess self.ColorStream Index ColorStride 0
  let s ← writeBytes self.ColorStream p (encodeFColor Value)
  pure { self with ColorStream := s }

/-- `SetUV(Index, Channel, Value)`. -/
def SetUV (cv : EngineConversions) (self : FRuntimeMeshVerticesAccessor) (Index Channel : Int)
    (Value : FVector2D) : Option FRuntimeMeshVerticesAccessor := do
  check self.bIsInitialized
  check (decide (Channel ≥ 0 ∧ Channel < self.UVChannelCount))
  if self.bUVHighPrecision then
    let p ← GetStreamAccess self.UVStream Index self.UVStride 0
    let off ← StaticArrayOffset Channel (uvSize true)
    let s ← writeBytes self.UVStream (p + off) (encodeUV cv true Value)
    pure { self with UVStream := s }
  else
    let p ← GetStreamAccess self.UVStream Index self.UVStride 0
    let off ← StaticArrayOffset Channel (uvSize false)
    let s ← writeBytes self.UVStream (p + off) (encodeUV cv false Value)
    pure { self with UVStream := s }

/-- `SetUV(Index, Value)`: channel 0. -/
def SetUV0 (cv : EngineConversions) (self : FRuntimeMeshVerticesAccessor) (Index : Int)
    (Value : FVector2D) : Option FRuntimeMeshVerticesAccessor := do
  check self.bIsInitialized
  check (decide (self.UVChannelCount > 0))
  if self.bUVHighPrecision then
    let p ← GetStreamAccess self.UVStream Index self.UVStride 0
    let off ← StaticArrayOffset 0 (uvSize true)
    let s ← writeBytes self.UVStream (p + off) (encodeUV cv true Value)
    pure { self with UVStream := s }
  else
    let p ← GetStreamAccess self.UVStream Index self.UVStride 0
    let off ← StaticArrayOffset 0 (uvSize false)
    let s ← writeBytes self.UVStream (p + off) (encodeUV cv false Value)
    pure { self with UVStream := s }

/-- The two assignments `Tangents.Normal = N; Tangents.Tangent = T` through one record
reference, as in `SetNormalTangent`, `SetTangents` and `SetVertex`. -/
def writeTangents (cv : EngineConversions) (bHigh : Bool) (Data : TArray) (p : Nat)
    (N : FVector4) (T : FVector) : Option TArray := do
  let s1 ← writeBytes Data (p + NormalFieldOffset bHigh) (encodeNormal cv bHigh N)
  writeBytes s1 (p + TangentFieldOffset bHigh) (encodeTangent cv bHigh T)

/-- `SetNormalTangent(Index, Normal, Tangent)`. -/
def SetNormalTangent (cv : EngineConversions) (self : FRuntimeMeshVerticesAccessor) (Index : Int)
    (Normal : FVector) (Tangent : FRuntimeMeshTangent) : Option FRuntimeMeshVerticesAccessor := do
  check self.bIsInitialized
  let W := if Tangent.bFlipTangentY then floatMinusOne else floatOne
  if self.bTangentHighPrecision then
    let p ← GetStreamAccess self.TangentStream Index self.TangentStride 0
    let s ← writeTangents cv true self.TangentStream p (FVector4.ofVector Normal W) Tangent.TangentX
    pure { self with TangentStream := s }
  else
    let p ← GetStreamAccess self.TangentStream Index self.TangentStride 0
    let s ← writeTangents cv false self.TangentStream p (FVector4.ofVector Normal W) Tangent.TangentX
    pure { self with TangentStream := s }

/-- `SetTangents(Index, TangentX, TangentY, TangentZ)`. -/
def SetTangents (cv : EngineConversions) (self : FRuntimeMeshVerticesAccessor) (Index : Int)
    (TangentX TangentY TangentZ : FVector) : Option FRuntimeMeshVerticesAccessor := do
  check self.bIsInitialized
  let W := cv.GetBasisDeterminantSign TangentX TangentY TangentZ
  if self.bTangentHighPrecision then
    let p ← GetStreamAccess self.TangentStream Index self.TangentStride 0
    let s ← writeTangents cv true self.TangentStream p (FVector4.ofVector TangentZ W) TangentX
    pure { self with TangentStream := s }
  else
    let p ← GetStreamAccess self.TangentStream Index self.TangentStride 0
    let s ← writeTangents cv false self.TangentStream p (FVector4.ofVector TangentZ W) TangentX
    pure { self with TangentStream := s }

/-- The loop of `GetVertex` over `UVIndex < Vertex.UVs.Num()`: reads `UVs.UVs[UVIndex]`
for the `n` remaining channels, starting at channel `UVIndex`. -/
def GetVertexUVs (cv : EngineConversions) (bHigh : Bool) (Data : TArray) (p : Nat) :
    Nat → Nat → Option (List FVector2D)
  | _, 0 => some []
  | UVIndex, n + 1 => do
    let off ← StaticArrayOffset (UVIndex : Int) (uvSize bHigh)
    let bs ← readBytes Data (p + off) (uvSize bHigh)
    let rest ← GetVertexUVs cv bHigh Data p (UVIndex + 1) n
    pure (decodeUV cv bHigh bs :: rest)

/-- `GetVertex(Index)`. -/
def GetVertex (cv : EngineConversions) (self : FRuntimeMeshVerticesAccessor) (Index : Int) :
    Option FRuntimeMeshAccessorVertex := do
  check self.bIsInitialized
  let pp ← GetStreamAccess self.PositionStream Index PositionStride 0
  let pb ← readBytes self.PositionStream pp 12
  let hi := self.bTangentHighPrecision
  let tp ← GetStreamAccess self.TangentStream Index self.TangentStride 0
  let nb ← readBytes self.TangentStream (tp + NormalFieldOffset hi) (packedSize hi)
  let tb ← readBytes self.TangentStream (tp + TangentFieldOffset hi) (packedSize hi)
  let cp ← GetStreamAccess self.ColorStream Index ColorStride 0
  let cb ← readBytes self.ColorStream cp 4
  let n ← self.NumUVChannels
  check (decide (0 ≤ n))
  let up ← GetStreamAccess self.UVStream Index self.UVStride 0
  let UVs ← GetVertexUVs cv self.bUVHighPrecision self.UVStream up 0 n.toNat
  pure { Position := decodeFVector pb, Normal := decodeNormal cv hi nb,
         Tangent := decodeTangent cv hi tb, Color := decodeFColor cb, UVs := UVs }

/-- The loop of `SetVertex` over `UVIndex < Vertex.UVs.Num()`: stores each UV of the list
into `UVs.UVs[UVIndex]`, starting at channel `UVIndex`. -/
def SetVertexUVs (cv : EngineConversions) (bHigh : Bool) (p : Nat) :
    Nat → List FVector2D → TArray → Option TArray
  | _, [], Data => some Data
  | UVIndex, uv :: rest, Data => do
    let off ← StaticArrayOffset (UVIndex : Int) (uvSize bHigh)
    let s ← writeBytes Data (p + off) (encodeUV cv bHigh uv)
    SetVertexUVs cv bHigh p (UVIndex + 1) rest s

/-- `SetVertex(Index, Vertex)`. -/
def SetVertex (cv : EngineConversions) (self : FRuntimeMeshVerticesAccessor) (Index : Int)
    (Vertex : FRuntimeMeshAccessorVertex) : Option FRuntimeMeshVerticesAccessor := do
  check self.bIsInitialized
  let pp ← GetStreamAccess self.PositionStream Index PositionStride 0
  let ps ← writeBytes self.PositionStream pp (encodeFVector Vertex.Position)
  let hi := self.bTangentHighPrecision
  let tp ← GetStreamAccess self.TangentStream Index self.TangentStride 0
  let ts ← writeTangents cv hi self.TangentStream tp Vertex.Normal Vertex.Tangent
  let cp ← GetStreamAccess self.ColorStream Index ColorStride 0
  let cs ← writeBytes self.ColorStream cp (encodeFColor Vertex.Color)
  let up ← GetStreamAccess self.UVStream Index self.UVStride 0
  let us ← SetVertexUVs cv self.bUVHighPrecision up 0 Vertex.UVs self.UVStream
  pure { self with PositionStream := ps, TangentStream := ts, ColorStream := cs, UVStream := us }

/-- `AddVertex(FVector InPosition)`. -/
def AddVertex (self : FRuntimeMeshVerticesAccessor) (InPosition : FVector) :
    Option (Int × FRuntimeMeshVerticesAccessor) := do
  check self.bIsInitialized
  let (NewIndex, self1) ← self.AddSingleVertex
  let self2 ← self1.SetPosition NewIndex InPosition
  pure (NewIndex, self2)

/-- `AddVertex(const FRuntimeMeshAccessorVertex& Vertex)`. -/
def AddVertexFull (cv : EngineConversions) (self : FRuntimeMeshVerticesAccessor)
    (Vertex : FRuntimeMeshAccessorVertex) : Option (Int × FRuntimeMeshVerticesAccessor) := do
  check self.bIsInitialized
  let (NewIndex, self1) ← self.AddSingleVertex
  let self2 ← self1.SetVertex cv NewIndex Vertex
  pure (NewIndex, self2)

end FRuntimeMeshVerticesAccessor

/-! ## FRuntimeMeshAccessor -/

/-- The combined accessor: the vertex accessor and the index accessor it inherits from. -/
structure FRuntimeMeshAccessor where
  Vertices : FRuntimeMeshVerticesAccessor
  Indices : FRuntimeMeshIndicesAccessor
deriving DecidableEq, Repr

namespace FRuntimeMeshAccessor

/-- The five-stream constructor: not yet initialized. -/
def new (PositionStreamData TangentStreamData UVStreamData ColorStreamData
    IndexStreamData : TArray) : FRuntimeMeshAccessor :=
  { Vertices := FRuntimeMeshVerticesAccessor.new PositionStreamData TangentStreamData
      UVStreamData ColorStreamData,
    Indices := FRuntimeMeshIndicesAccessor.new IndexStreamData }

/-- `Initialize(bInTangentsHighPrecision, bInUVsHighPrecision, bInUVCount, bIn32BitIndices)`. -/
def Initialize (self : FRuntimeMeshAccessor) (bInTangentsHighPrecision bInUVsHighPrecision : Bool)
    (bInUVCount : Int) (bIn32BitIndices : Bool) : Option FRuntimeMeshAccessor := do
  let v := self.Vertices.Initialize bInTangentsHighPrecision bInUVsHighPrecision bInUVCount
  let i ← self.Indices.Initialize bIn32BitIndices
  pure { Vertices := v, Indices := i }

/-- The inner loop of `CopyTo` over `UVIndex < NumUVs`, with `n` channels remaining. -/
def CopyUVs (cv : EngineConversions) (self : FRuntimeMeshVerticesAccessor) (Index NewIndex : Int) :
    Nat → Nat → FRuntimeMeshVerticesAccessor → Option FRuntimeMeshVerticesAccessor
  | _, 0, Other => some Other
  | UVIndex, n + 1, Other => do
    let uv ← self.GetUV cv Index (UVIndex : Int)
    let Other1 ← Other.SetUV cv NewIndex (UVIndex : Int) uv
    CopyUVs cv self Index NewIndex (UVIndex + 1) n Other1

/-- The vertex loop of `CopyTo` over `Index < NumVerts`, with `n` vertices remaining. -/
def CopyVertices (cv : EngineConversions) (self : FRuntimeMeshVerticesAccessor) (NumUVs : Int) :
    Nat → Nat → FRuntimeMeshVerticesAccessor → Option FRuntimeMeshVerticesAccessor
  | _, 0, Other => some Other
  | Index, n + 1, Other => do
    let pos ← self.GetPosition (Index : Int)
    let (NewIndex, Other1) ← Other.AddVertex pos
    let nrm ← self.GetNormal cv (Index : Int)
    let Other2 ← Other1.SetNormal cv NewIndex nrm
    let tan ← self.GetTangent cv (Index : Int)
    let Other3 ← Other2.SetTangent cv NewIndex tan
    let col ← self.GetColor (Index : Int)
    let Other4 ← Other3.SetColor NewIndex col
    let Other5 ← CopyUVs cv self (Index : Int) NewIndex 0 NumUVs.toNat Other4
    CopyVertices cv self NumUVs (Index + 1) n Other5

/-- The index loop of `CopyTo` over `Index < NumInds`, with `n` indices remaining. -/
def CopyIndices (self : FRuntimeMeshIndicesAccessor) (StartVertex : Int) :
    Nat → Nat → FRuntimeMeshIndicesAccessor → Option FRuntimeMeshIndicesAccessor
  | _, 0, Other => some Other
  | Index, n + 1, Other => do
    let v ← self.GetIndex (Index : Int)
    let (_, Other1) ← Other.AddIndex (addInt32 v StartVertex)
    CopyIndices self StartVertex (Index + 1) n Other1

/-- `CopyTo(Other, bClearDestination)` for a destination distinct from the source: the
destination after the copy. -/
def CopyTo (cv : EngineConversions) (self Other : FRuntimeMeshAccessor) (bClearDestination : Bool) :
    Option FRuntimeMeshAccessor := do
  let Other0 ← if bClearDestination then do
      let nv ← self.Vertices.NumVertices
      let v ← Other.Vertices.EmptyVertices nv
      let ni ← self.Indices.NumIndices
      let i ← Other.Indices.EmptyIndices ni
      pure ({ Vertices := v, Indices := i } : FRuntimeMeshAccessor)
    else pure Other
  let StartVertex ← Other0.Vertices.NumVertices
  let NumVerts ← self.Vertices.NumVertices
  let a ← self.Vertices.NumUVChannels
  let b ← Other0.Vertices.NumUVChannels
  let NumUVs := min a b
  let v ← CopyVertices cv self.Vertices NumUVs 0 NumVerts.toNat Other0.Vertices
  let NumInds ← self.Indices.NumIndices
  let i ← CopyIndices self.Indices StartVertex 0 NumInds.toNat Other0.Indices
  pure { Vertices := v, Indices := i }

end FRuntimeMeshAccessor

/-- `FRuntimeMeshBuilder(...)`: the builder owns five empty streams and initializes the
accessor over them. -/
def FRuntimeMeshBuilder (bInTangentsHighPrecision bInUVsHighPrecision : Bool) (bInUVCount : Int)
    (bIn32BitIndices : Bool) : Option FRuntimeMeshAccessor :=
  (FRuntimeMeshAccessor.new [] [] [] [] []).Initialize bInTangentsHighPrecision
    bInUVsHighPrecision bInUVCount bIn32BitIndices

/-- The constructor `FRuntimeMeshVerticesAccessor(bInTangentsHighPrecision,
bInUVsHighPrecision, bInUVCount, streams...)`: construct, then `Initialize`. -/
def FRuntimeMeshVerticesAccessor.create (bInTangentsHighPrecision bInUVsHighPrecision : Bool)
    (bInUVCount : Int) (PositionStreamData TangentStreamData UVStreamData
    ColorStreamData : TArray) : FRuntimeMeshVerticesAccessor :=
  (FRuntimeMeshVerticesAccessor.new PositionStreamData TangentStreamData UVStreamData
    ColorStreamData).Initialize bInTangentsHighPrecision bInUVsHighPrecision bInUVCount

/-- The constructor `FRuntimeMeshIndicesAccessor(bIn32BitIndices, IndexStreamData)`:
construct, then `Initialize`. -/
def FRuntimeMeshIndicesAccessor.create (bIn32BitIndices : Bool) (IndexStreamData : TArray) :
    Option FRuntimeMeshIndicesAccessor :=
  (FRuntimeMeshIndicesAccessor.new IndexStreamData).Initialize bIn32BitIndices

/-! ## Configuration and the stream length invariant -/

/-- The vertex accessor has been initialized: its configuration fields are the ones
`Initialize` computes from its two precision flags and its channel count. -/
def FRuntimeMeshVerticesAccessor.IsInitialized (self : FRuntimeMeshVerticesAccessor) : Prop :=
  self.Initialize self.bTangentHighPrecision self.bUVHighPrecision self.UVChannelCount = self

instance (self : FRuntimeMeshVerticesAccessor) : Decidable self.IsInitialized := by
  unfold FRuntimeMeshVerticesAccessor.IsInitialized
  infer_instance

/-- A valid UV channel count: 1 to 8. -/
def FRuntimeMeshVerticesAccessor.ValidChannels (self : FRuntimeMeshVerticesAccessor) : Prop :=
  1 ≤ self.UVChannelCount ∧ self.UVChannelCount ≤ 8

instance (self : FRuntimeMeshVerticesAccessor) : Decidable self.ValidChannels := by
  unfold FRuntimeMeshVerticesAccessor.ValidChannels
  infer_instance

/-- The stream length invariant of the vertex streams: every stream holds exactly
`PositionStream.Num() / PositionStride` records of its stride. -/
def FRuntimeMeshVerticesAccessor.LengthInv (self : FRuntimeMeshVerticesAccessor) : Prop :=
  self.PositionStream.Num = self.PositionStream.Num / PositionStride * PositionStride ∧
  self.TangentStream.Num = self.PositionStream.Num / PositionStride * self.TangentStride ∧
  self.UVStream.Num = self.PositionStream.Num / PositionStride * self.UVStride ∧
  self.ColorStream.Num = self.PositionStream.Num / PositionStride * ColorStride

instance (self : FRuntimeMeshVerticesAccessor) : Decidable self.LengthInv := by
  unfold FRuntimeMeshVerticesAccessor.LengthInv
  infer_instance

/-- The stream length invariant of the index stream: it holds exactly
`IndexStream.Num() / GetIndexStride()` records. -/
def FRuntimeMeshIndicesAccessor.LengthInv (self : FRuntimeMeshIndicesAccessor) : Prop :=
  self.IndexStream.Num = self.IndexStream.Num / self.GetIndexStride * self.GetIndexStride

instance (self : FRuntimeMeshIndicesAccessor) : Decidable self.LengthInv := by
  unfold FRuntimeMeshIndicesAccessor.LengthInv
  infer_instance

/-- The byte sizes of `n` records of each of the four vertex streams, the products
`SetNumVertices(n)` computes, are `int32` values. -/
def FRuntimeMeshVerticesAccessor.SizesFit (self : FRuntimeMeshVerticesAccessor) (n : Int) :
    Prop :=
  IsInt32 (n * PositionStride) ∧ IsInt32 (n * self.TangentStride) ∧
  IsInt32 (n * self.UVStride) ∧ IsInt32 (n * ColorStride)

instance (self : FRuntimeMeshVerticesAccessor) (n : Int) : Decidable (self.SizesFit n) := by
  unfold FRuntimeMeshVerticesAccessor.SizesFit
  infer_instance

/-- The reservation sizes `EmptyVertices(n)` computes are `int32` values. -/
def FRuntimeMeshVerticesAccessor.SlackFits (self : FRuntimeMeshVerticesAccessor) (n : Int) :
    Prop :=
  IsInt32 (n * PositionStride) ∧ IsInt32 (n * self.TangentStride) ∧
  IsInt32 (n * self.UVSize) ∧ IsInt32 (n * ColorStride)

instance (self : FRuntimeMeshVerticesAccessor) (n : Int) : Decidable (self.SlackFits n) := by
  unfold FRuntimeMeshVerticesAccessor.SlackFits
  infer_instance

/-- The byte size of `n` index records, the product `SetNumIndices(n)` and
`EmptyIndices(n)` compute, is an `int32` value. -/
def FRuntimeMeshIndicesAccessor.SizeFits (self : FRuntimeMeshIndicesAccessor) (n : Int) :
    Prop :=
  IsInt32 (n * self.GetIndexStride)

instance (self : FRuntimeMeshIndicesAccessor) (n : Int) : Decidable (self.SizeFits n) := by
  unfold FRuntimeMeshIndicesAccessor.SizeFits
  infer_instance

/-- A mesh of the data model: an initialized accessor with 1 to 8 UV channels whose five
streams satisfy the stream length invariant. -/
def FRuntimeMeshAccessor.IsMesh (self : FRuntimeMeshAccessor) : Prop :=
  self.Vertices.IsInitialized ∧ self.Vertices.ValidChannels ∧ self.Vertices.LengthInv ∧
  self.Indices.bIsInitialized = true ∧ self.Indices.LengthInv

instance (self : FRuntimeMeshAccessor) : Decidable self.IsMesh := by
  unfold FRuntimeMeshAccessor.IsMesh
  infer_instance

/-- The index record width in bytes, as a natural number. -/
def indexWidth (b32 : Bool) : Nat := if b32 then 4 else 2

/-- The bytes `SetIndex` stores for a value. -/
def indexBytes (b32 : Bool) (Value : Int) : List Nat :=
  if b32 then toBytesLE 4 (toUInt32 Value) else toBytesLE 2 (toUInt16 Value)

/-- The value `GetIndex` returns for the bytes of a record. -/
def indexValue (b32 : Bool) (bs : List Nat) : Int :=
  if b32 then toInt32 (fromBytesLE bs) else ((fromBytesLE bs : Nat) : Int)

/-- The value read back after a value has been stored at the index width: the value
itself at 32 bits, the value modulo `2^16` at 16 bits. -/
def storedIndex (b32 : Bool) (Value : Int) : Int := if b32 then Value else Value % 65536

/-- The result of `SetNumZeroed(n)` on a stream: truncated, or grown with zero bytes. -/
def resized (Data : TArray) (n : Nat) : TArray :=
  Data.take n ++ List.replicate (n - Data.length) 0

/-- The four vertex streams hold exactly `N` records each, for the layout given by the
two precision flags and the channel count. -/
def HoldsRecords (hi uvhi : Bool) (ch N : Nat) (P T U C : TArray) : Prop :=
  P.length = N * 12 ∧ T.length = N * (2 * packedSize hi) ∧
  U.length = N * (uvSize uvhi * ch) ∧ C.length = N * 4

/-- The bytes the loop of `SetVertex` stores for a list of UVs: one element after another. -/
def encodeUVs (cv : EngineConversions) (bHigh : Bool) : List FVector2D → List Nat
  | [] => []
  | uv :: rest => encodeUV cv bHigh uv ++ encodeUVs cv bHigh rest

/-- The `n` UVs the loop of `GetVertex` reads from consecutive elements. -/
def decodeUVs (cv : EngineConversions) (bHigh : Bool) : Nat → List Nat → List FVector2D
  | 0, _ => []
  | n + 1, bs => decodeUV cv bHigh (bs.take (uvSize bHigh)) ::
      decodeUVs cv bHigh n (bs.drop (uvSize bHigh))

/-- A float is a 32-bit pattern. -/
def IsFloat (x : Nat) : Prop := x < 4294967296

instance (x : Nat) : Decidable (IsFloat x) := by
  unfold IsFloat
  infer_instance

/-- The position, the color and the UVs of a logical vertex are well-formed values: floats
are 32-bit patterns, color components are 8-bit. -/
def FRuntimeMeshAccessorVertex.WellFormed (v : FRuntimeMeshAccessorVertex) : Prop :=
  (IsFloat v.Position.X ∧ IsFloat v.Position.Y ∧ IsFloat v.Position.Z) ∧
  (v.Color.B < 256 ∧ v.Color.G < 256 ∧ v.Color.R < 256 ∧ v.Color.A < 256) ∧
  ∀ uv ∈ v.UVs, IsFloat uv.X ∧ IsFloat uv.Y

instance (v : FRuntimeMeshAccessorVertex) : Decidable v.WellFormed := by
  unfold FRuntimeMeshAccessorVertex.WellFormed
  infer_instance

/-- The round trip of a logical vertex `v` through an accessor with the given layout, read
back as `r`: position and color are `v`'s, the UV list has one entry per channel, full
float UVs are `v`'s, and the normal, the tangent and half float UVs are `v`'s values after
one conversion to the packed representation and back. -/
def RoundTrips (cv : EngineConversions) (hi uvhi : Bool) (ch : Int)
    (v r : FRuntimeMeshAccessorVertex) : Prop :=
  r.Position = v.Position ∧ r.Color = v.Color ∧ (r.UVs.length : Int) = ch ∧
  (uvhi = true → r.UVs = v.UVs) ∧
  (uvhi = false → r.UVs = v.UVs.map fun uv => decodeUV cv false (encodeUV cv false uv)) ∧
  r.Normal = decodeNormal cv hi (encodeNormal cv hi v.Normal) ∧
  r.Tangent = decodeTangent cv hi (encodeTangent cv hi v.Tangent)

/-- One call of `AddVertex`: the position overload or the logical-vertex overload. -/
inductive AddVertexCall where
  | position (InPosition : FVector)
  | vertex (Vertex : FRuntimeMeshAccessorVertex)
deriving DecidableEq, Repr

/-- The call `AddVertex(...)` on an accessor: the returned index and the accessor after it. -/
def AddVertexCall.run (cv : EngineConversions) (acc : FRuntimeMeshVerticesAccessor) :
    AddVertexCall → Option (Int × FRuntimeMeshVerticesAccessor)
  | .position p => acc.AddVertex p
  | .vertex v => acc.AddVertexFull cv v

/-- A sequence of calls of `AddVertex`, one after another: the returned indices in call
order and the accessor after the last call. -/
def AddVertexSeq (cv : EngineConversions) :
    FRuntimeMeshVerticesAccessor → List AddVertexCall →
      Option (List Int × FRuntimeMeshVerticesAccessor)
  | acc, [] => some ([], acc)
  | acc, call :: rest => do
    let (NewIndex, acc1) ← call.run cv acc
    let (Indices, acc2) ← AddVertexSeq cv acc1 rest
    pure (NewIndex :: Indices, acc2)

/-- Record `j` of a stream with the given stride. -/
def record (Data : TArray) (Stride j : Nat) : List Nat := slice Data (j * Stride) Stride

/-- The vertex index precondition `0 <= Index < NumVertices()`. -/
def FRuntimeMeshVerticesAccessor.InRange (acc : FRuntimeMeshVerticesAccessor) (Index : Int) :
    Prop :=
  match acc.NumVertices with
  | some n => 0 ≤ Index ∧ Index < n
  | none => False

instance (acc : FRuntimeMeshVerticesAccessor) (Index : Int) : Decidable (acc.InRange Index) := by
  unfold FRuntimeMeshVerticesAccessor.InRange
  split <;> infer_instance

/-- The index position precondition `0 <= Index < NumIndices()`. -/
def FRuntimeMeshIndicesAccessor.InRange (acc : FRuntimeMeshIndicesAccessor) (Index : Int) :
    Prop :=
  match acc.NumIndices with
  | some n => 0 ≤ Index ∧ Index < n
  | none => False

instance (acc : FRuntimeMeshIndicesAccessor) (Index : Int) : Decidable (acc.InRange Index) := by
  unfold FRuntimeMeshIndicesAccessor.InRange
  split <;> infer_instance

/-- One call of a mutating operation on a builder (for `CopyFrom`, the builder is the
destination of `Source.CopyTo`). -/
inductive BuilderCall where
  | AddVertex (InPosition : FVector)
  | AddVertexFull (Vertex : FRuntimeMeshAccessorVertex)
  | SetNumVertices (NewNum : Int)
  | EmptyVertices (Slack : Int)
  | SetPosition (Index : Int) (Value : FVector)
  | SetNormal (Index : Int) (Value : FVector4)
  | SetTangent (Index : Int) (Value : FVector)
  | SetTangentFlip (Index : Int) (Value : FRuntimeMeshTangent)
  | SetColor (Index : Int) (Value : FColor)
  | SetUV0 (Index : Int) (Value : FVector2D)
  | SetUV (Index Channel : Int) (Value : FVector2D)
  | SetNormalTangent (Index : Int) (Normal : FVector) (Tangent : FRuntimeMeshTangent)
  | SetTangents (Index : Int) (TangentX TangentY TangentZ : FVector)
  | SetVertex (Index : Int) (Vertex : FRuntimeMeshAccessorVertex)
  | AddIndex (NewIndex : Int)
  | AddTriangle (Index0 Index1 Index2 : Int)
  | SetNumIndices (NewNum : Int)
  | EmptyIndices (Slack : Int)
  | SetIndex (Index Value : Int)
  | CopyFrom (Source : FRuntimeMeshAccessor) (bClearDestination : Bool)

/-- The builder after the call; a fault is `none`. -/
def BuilderCall.run (cv : EngineConversions) (b : FRuntimeMeshAccessor) :
    BuilderCall → Option FRuntimeMeshAccessor
  | .AddVertex p => (b.Vertices.AddVertex p).map fun r => { b with Vertices := r.2 }
  | .AddVertexFull v => (b.Vertices.AddVertexFull cv v).map fun r => { b with Vertices := r.2 }
  | .SetNumVertices n => (b.Vertices.SetNumVertices n).map fun a => { b with Vertices := a }
  | .EmptyVertices s => (b.Vertices.EmptyVertices s).map fun a => { b with Vertices := a }
  | .SetPosition i v => (b.Vertices.SetPosition i v).map fun a => { b with Vertices := a }
  | .SetNormal i v => (b.Vertices.SetNormal cv i v).map fun a => { b with Vertices := a }
  | .SetTangent i v => (b.Vertices.SetTangent cv i v).map fun a => { b with Vertices := a }
  | .SetTangentFlip i v => (b.Vertices.SetTangentFlip cv i v).map fun a =>
      { b with Vertices := a }
  | .SetColor i v => (b.Vertices.SetColor i v).map fun a => { b with Vertices := a }
  | .SetUV0 i v => (b.Vertices.SetUV0 cv i v).map fun a => { b with Vertices := a }
  | .SetUV i c v => (b.Vertices.SetUV cv i c v).map fun a => { b with Vertices := a }
  | .SetNormalTangent i n t => (b.Vertices.SetNormalTangent cv i n t).map fun a =>
      { b with Vertices := a }
  | .SetTangents i x y z => (b.Vertices.SetTangents cv i x y z).map fun a =>
      { b with Vertices := a }
  | .SetVertex i v => (b.Vertices.SetVertex cv i v).map fun a => { b with Vertices := a }
  | .AddIndex v => (b.Indices.AddIndex v).map fun r => { b with Indices := r.2 }
  | .AddTriangle x y z => (b.Indices.AddTriangle x y z).map fun r => { b with Indices := r.2 }
  | .SetNumIndices n => (b.Indices.SetNumIndices n).map fun a => { b with Indices := a }
  | .EmptyIndices s => (b.Indices.EmptyIndices s).map fun a => { b with Indices := a }
  | .SetIndex i v => (b.Indices.SetIndex i v).map fun a => { b with Indices := a }
  | .CopyFrom Source bClearDestination => Source.CopyTo cv b bClearDestination

/-- The arguments of the call are valid for the builder: counts and slacks are not
negative and the byte sizes the call computes from them are `int32` values, vertex indices,
index positions and UV channels are in range, a logical vertex has at most
`NumUVChannels()` UVs, the source of a copy is a mesh and, when the copy clears the
destination, the reservations for the source's counts are `int32` values. -/
def BuilderCall.ValidArgs (b : FRuntimeMeshAccessor) : BuilderCall → Prop
  | .AddVertex _ => True
  | .AddVertexFull v => (v.UVs.length : Int) ≤ b.Vertices.UVChannelCount
  | .SetNumVertices n => 0 ≤ n ∧ b.Vertices.SizesFit n
  | .EmptyVertices s => 0 ≤ s ∧ b.Vertices.SlackFits s
  | .SetPosition i _ => b.Vertices.InRange i
  | .SetNormal i _ => b.Vertices.InRange i
  | .SetTangent i _ => b.Vertices.InRange i
  | .SetTangentFlip i _ => b.Vertices.InRange i
  | .SetColor i _ => b.Vertices.InRange i
  | .SetUV0 i _ => b.Vertices.InRange i
  | .SetUV i c _ => b.Vertices.InRange i ∧ 0 ≤ c ∧ c < b.Vertices.UVChannelCount
  | .SetNormalTangent i _ _ => b.Vertices.InRange i
  | .SetTangents i _ _ _ => b.Vertices.InRange i
  | .SetVertex i v => b.Vertices.InRange i ∧ (v.UVs.length : Int) ≤ b.Vertices.UVChannelCount
  | .AddIndex _ => True
  | .AddTriangle _ _ _ => True
  | .SetNumIndices n => 0 ≤ n ∧ b.Indices.SizeFits n
  | .EmptyIndices s => 0 ≤ s ∧ b.Indices.SizeFits s
  | .SetIndex i _ => b.Indices.InRange i
  | .CopyFrom Source bClearDestination => Source.IsMesh ∧
      (bClearDestination = true →
        b.Vertices.SlackFits (Source.Vertices.PositionStream.Num / PositionStride) ∧
        b.Indices.SizeFits (Source.Indices.IndexStream.Num / Source.Indices.GetIndexStride))

instance (b : FRuntimeMeshAccessor) : (call : BuilderCall) → Decidable (call.ValidArgs b)
  | .AddVertex _ => (inferInstance : Decidable True)
  | .AddVertexFull v =>
    (inferInstance : Decidable ((v.UVs.length : Int) ≤ b.Vertices.UVChannelCount))
  | .SetNumVertices n => (inferInstance : Decidable (0 ≤ n ∧ b.Vertices.SizesFit n))
  | .EmptyVertices s => (inferInstance : Decidable (0 ≤ s ∧ b.Vertices.SlackFits s))
  | .SetPosition i _ => (inferInstance : Decidable (b.Vertices.InRange i))
  | .SetNormal i _ => (inferInstance : Decidable (b.Vertices.InRange i))
  | .SetTangent i _ => (inferInstance : Decidable (b.Vertices.InRange i))
  | .SetTangentFlip i _ => (inferInstance : Decidable (b.Vertices.InRange i))
  | .SetColor i _ => (inferInstance : Decidable (b.Vertices.InRange i))
  | .SetUV0 i _ => (inferInstance : Decidable (b.Vertices.InRange i))
  | .SetUV i c _ =>
    (inferInstance : Decidable (b.Vertices.InRange i ∧ 0 ≤ c ∧ c < b.Vertices.UVChannelCount))
  | .SetNormalTangent i _ _ => (inferInstance : Decidable (b.Vertices.InRange i))
  | .SetTangents i _ _ _ => (inferInstance : Decidable (b.Vertices.InRange i))
  | .SetVertex i v =>
    (inferInstance : Decidable
      (b.Vertices.InRange i ∧ (v.UVs.length : Int) ≤ b.Vertices.UVChannelCount))
  | .AddIndex _ => (inferInstance : Decidable True)
  | .AddTriangle _ _ _ => (inferInstance : Decidable True)
  | .SetNumIndices n => (inferInstance : Decidable (0 ≤ n ∧ b.Indices.SizeFits n))
  | .EmptyIndices s => (inferInstance : Decidable (0 ≤ s ∧ b.Indices.SizeFits s))
  | .SetIndex i _ => (inferInstance : Decidable (b.Indices.InRange i))
  | .CopyFrom Source bClearDestination =>
    (inferInstance : Decidable (Source.IsMesh ∧
      (bClearDestination = true →
        b.Vertices.SlackFits (Source.Vertices.PositionStream.Num / PositionStride) ∧
        b.Indices.SizeFits (Source.Indices.IndexStream.Num / Source.Indices.GetIndexStride))))

/-- A sequence of calls, one after another; the first fault ends it. -/
def runCalls (cv : EngineConversions) :
    FRuntimeMeshAccessor → List BuilderCall → Option FRuntimeMeshAccessor
  | b, [] => some b
  | b, call :: rest => (call.run cv b).bind fun b1 => runCalls cv b1 rest

/-- Every call of the sequence has valid arguments for the builder state it is made on. -/
def ValidCalls (cv : EngineConversions) : FRuntimeMeshAccessor → List BuilderCall → Prop
  | _, [] => True
  | b, call :: rest => call.ValidArgs b ∧
      ∀ b1, call.run cv b = some b1 → ValidCalls cv b1 rest

/-- The stream lengths of the invariant: with `nv = NumVertices()` and `ni = NumIndices()`,
the position, tangent, UV and color streams have `nv * 12`, `nv * TangentStride`,
`nv * UVStride` and `nv * 4` bytes and the index stream has `ni * GetIndexStride()` bytes. -/
def FRuntimeMeshAccessor.StreamLengths (b : FRuntimeMeshAccessor) : Prop :=
  ∃ nv ni, b.Vertices.NumVertices = some nv ∧ b.Indices.NumIndices = some ni ∧
    (b.Vertices.PositionStream.length : Int) = nv * 12 ∧
    (b.Vertices.TangentStream.length : Int) = nv * b.Vertices.TangentStride ∧
    (b.Vertices.UVStream.length : Int) = nv * b.Vertices.UVStride ∧
    (b.Vertices.ColorStream.length : Int) = nv * 4 ∧
    (b.Indices.IndexStream.length : Int) = ni * b.Indices.GetIndexStride ∧
    (b.Indices.GetIndexStride = 2 ∨ b.Indices.GetIndexStride = 4)

/-- The four vertex streams. -/
inductive VertexStream where
  | Position
  | Tangent
  | UV
  | Color
deriving DecidableEq, Repr

/-- The record stride of one of the four streams of the accessor. -/
def FRuntimeMeshVerticesAccessor.StrideOf (acc : FRuntimeMeshVerticesAccessor) :
    VertexStream → Int
  | .Position => PositionStride
  | .Tangent => acc.TangentStride
  | .UV => acc.UVStride
  | .Color => ColorStride

/-- The sequence `AddIndex(Index0); AddIndex(Index1); AddIndex(Index2)` that `AddTriangle`
is compared with: the position the first call returns and the accessor after the third. -/
def FRuntimeMeshIndicesAccessor.AddIndexThrice (self : FRuntimeMeshIndicesAccessor)
    (Index0 Index1 Index2 : Int) : Option (Int × FRuntimeMeshIndicesAccessor) := do
  let (Position, self1) ← self.AddIndex Index0
  let (_, self2) ← self1.AddIndex Index1
  let (_, self3) ← self2.AddIndex Index2
  pure (Position, self3)

/-! ## Sample values

Concrete inputs on which the accessors are evaluated. -/

/-- A sample choice of the engine conversions: a packed normal keeps the `X` pattern, a
half float keeps the 16 high bits of the float. -/
def sampleConversions : EngineConversions where
  PackedNormalOfVector4 v := v.X
  PackedNormalOfVector v := v.X
  Vector4OfPackedNormal n := { X := n, Y := 0, Z := 0, W := 0 }
  VectorOfPackedNormal n := { X := n, Y := 0, Z := 0 }
  PackedRGBA16NOfVector4 v := v.X
  PackedRGBA16NOfVector v := v.X
  Vector4OfPackedRGBA16N n := { X := n, Y := 0, Z := 0, W := 0 }
  VectorOfPackedRGBA16N n := { X := n, Y := 0, Z := 0 }
  Float16OfFloat x := x / 65536
  FloatOfFloat16 h := h * 65536
  GetBasisDeterminantSign _ _ _ := floatOne

/-- A mesh with one vertex and the one index `0`: low precision tangents, half float UVs,
one UV channel, 16-bit indices. -/
def sampleMeshOne : FRuntimeMeshAccessor :=
  { Vertices := FRuntimeMeshVerticesAccessor.create false false 1
      [0, 0, 128, 63, 0, 0, 0, 64, 0, 0, 64, 64] [1, 2, 3, 4, 5, 6, 7, 8] [0, 60, 0, 56]
      [10, 20, 30, 255],
    Indices := { bIsInitialized := true, IndexStream := [0, 0], b32BitIndices := false } }

/-- A mesh without vertices whose index stream holds the one index `65535` (16-bit). -/
def sampleMeshTopIndex : FRuntimeMeshAccessor :=
  { Vertices := FRuntimeMeshVerticesAccessor.create false false 1 [] [] [] [],
    Indices := { bIsInitialized := true, IndexStream := [255, 255], b32BitIndices := false } }

/-- A mesh with two vertices and the two indices `1, 0`: high precision tangents, full
float UVs, two UV channels, 32-bit indices. -/
def sampleMeshTwo : FRuntimeMeshAccessor :=
  { Vertices := FRuntimeMeshVerticesAccessor.create true true 2
      (List.replicate 12 1 ++ List.replicate 12 2) (List.replicate 16 3 ++ List.replicate 16 4)
      (List.replicate 16 5 ++ List.replicate 16 6) [1, 2, 3, 4, 5, 6, 7, 8],
    Indices := { bIsInitialized := true, IndexStream := [1, 0, 0, 0, 0, 0, 0, 0],
                 b32BitIndices := true } }

/-- A vertex accessor with two vertices: low precision tangents, full float UVs, one UV
channel; the UV record of vertex 0 is all ones, that of vertex 1 all twos. -/
def sampleVerticesTwo : FRuntimeMeshVerticesAccessor :=
  FRuntimeMeshVerticesAccessor.create false true 1 (List.replicate 24 0) (List.replicate 16 0)
    (List.replicate 8 1 ++ List.replicate 8 2) (List.replicate 8 0)

/-- A logical vertex with two UVs. -/
def sampleVertexTwoUVs : FRuntimeMeshAccessorVertex :=
  { Position := { X := 1, Y := 2, Z := 3 }, Normal := { X := 0, Y := 0, Z := 0, W := floatOne },
    Tangent := { X := 0, Y := 0, Z := 0 }, Color := { B := 1, G := 2, R := 3, A := 4 },
    UVs := [{ X := 3, Y := 4 }, { X := 5, Y := 6 }] }

/-- A logical vertex with one UV. -/
def sampleVertexOneUV : FRuntimeMeshAccessorVertex :=
  { Position := { X := 1065353216, Y := 2, Z := 3 },
    Normal := { X := 7, Y := 0, Z := 0, W := floatOne },
    Tangent := { X := 9, Y := 0, Z := 0 }, Color := { B := 1, G := 2, R := 3, A := 255 },
    UVs := [{ X := 1056964608, Y := 1048576000 }] }

/-- A vertex accessor whose position stream is empty while its color stream holds four
stale bytes, as when constructed over streams that do not match. -/
def sampleVerticesStale : FRuntimeMeshVerticesAccessor :=
  FRuntimeMeshVerticesAccessor.create false false 1 [] [] [] [9, 9, 9, 9]

/-- An initialized vertex accessor over streams that do not match: the position stream
holds one stray byte (so `NumVertices()` is 0) and the color stream four stale bytes. -/
def sampleVerticesMisaligned : FRuntimeMeshVerticesAccessor :=
  FRuntimeMeshVerticesAccessor.create false false 1 [7] [] [] [9, 9, 9, 9]

/-- An initialized vertex accessor of a valid configuration (low precision tangents, full
float UVs, one UV channel) over streams that do not match: the position, tangent and color
streams hold one record, the UV stream is empty. -/
def sampleVerticesNoUVRecord : FRuntimeMeshVerticesAccessor :=
  FRuntimeMeshVerticesAccessor.create false true 1 (List.replicate 12 0) (List.replicate 8 0) []
    (List.replicate 4 0)

/-- The vertex accessor of a new builder constructed with zero UV channels. -/
def sampleVerticesNoChannels : FRuntimeMeshVerticesAccessor :=
  FRuntimeMeshVerticesAccessor.create false false 0 [] [] [] []

/-- A logical vertex without UVs. -/
def sampleVertexNoUVs : FRuntimeMeshAccessorVertex :=
  { Position := { X := 1, Y := 2, Z := 3 }, Normal := { X := 0, Y := 0, Z := 0, W := floatOne },
    Tangent := { X := 0, Y := 0, Z := 0 }, Color := { B := 1, G := 2, R := 3, A := 4 },
    UVs := [] }

/-- A vertex accessor initialized with nine UV channels (low precision tangents, half
float UVs) that holds one vertex: every stream holds one record of its stride, the UV
record has 36 bytes. -/
def sampleVerticesNineChannels : FRuntimeMeshVerticesAccessor :=
  FRuntimeMeshVerticesAccessor.create false false 9 (List.replicate 12 0) (List.replicate 8 0)
    (List.replicate 36 0) (List.replicate 4 0)

/-! ## Theorems -/

/-! ### Bytes -/

theorem length_toBytesLE (n v : Nat) : (toBytesLE n v).length = n := by
  induction n generalizing v with
  | zero => rfl
  | succ n ih => simp [toBytesLE, ih]

theorem fromBytesLE_toBytesLE (n v : Nat) : fromBytesLE (toBytesLE n v) = v % 256 ^ n := by
  induction n generalizing v with
  | zero => simp [toBytesLE, fromBytesLE, Nat.mod_one]
  | succ n ih =>
    simp only [toBytesLE, fromBytesLE, ih, Nat.mod_mod]
    rw [pow_succ, Nat.mul_comm (256 ^ n) 256, Nat.mod_mul]

theorem length_patch (Data : TArray) (Start : Nat) (Bytes : List Nat)
    (h : Start + Bytes.length ≤ Data.length) : (patch Data Start Bytes).length = Data.length := by
  simp [patch]; omega

theorem getElem?_patch (Data : TArray) (Start : Nat) (Bytes : List Nat)
    (h : Start + Bytes.length ≤ Data.length) (i : Nat) :
    (patch Data Start Bytes)[i]? =
      if Start ≤ i ∧ i < Start + Bytes.length then Bytes[i - Start]? else Data[i]? := by
  unfold patch
  by_cases h1 : i < Start
  · rw [List.append_assoc, List.getElem?_append_left (by simp; omega)]
    rw [if_neg (by omega)]
    simp [List.getElem?_take, h1]
  · by_cases h2 : i < Start + Bytes.length
    · rw [if_pos (by omega), List.append_assoc, List.getElem?_append_right (by simp; omega)]
      rw [List.getElem?_append_left (by simp; omega)]
      congr 1
      simp; omega
    · rw [if_neg (by omega), List.getElem?_append_right (by simp; omega)]
      rw [List.getElem?_drop]
      congr 1
      simp; omega

theorem getElem?_slice (Data : TArray) (Start Size i : Nat) :
    (slice Data Start Size)[i]? = if i < Size then Data[Start + i]? else none := by
  unfold slice
  rw [List.getElem?_take]
  split
  · rw [List.getElem?_drop]
  · rfl

theorem slice_patch_same (Data : TArray) (Start : Nat) (Bytes : List Nat)
    (h : Start + Bytes.length ≤ Data.length) :
    slice (patch Data Start Bytes) Start Bytes.length = Bytes := by
  apply List.ext_getElem?
  intro i
  rw [getElem?_slice, getElem?_patch _ _ _ h]
  by_cases hi : i < Bytes.length
  · rw [if_pos hi, if_pos (by omega)]
    congr 1
    omega
  · rw [if_neg hi]
    symm
    exact List.getElem?_eq_none (by omega)

theorem slice_patch_disjoint (Data : TArray) (Start : Nat) (Bytes : List Nat) (q k : Nat)
    (h : Start + Bytes.length ≤ Data.length) (hd : q + k ≤ Start ∨ Start + Bytes.length ≤ q) :
    slice (patch Data Start Bytes) q k = slice Data q k := by
  apply List.ext_getElem?
  intro i
  rw [getElem?_slice, getElem?_slice, getElem?_patch _ _ _ h]
  by_cases hi : i < k
  · rw [if_pos hi, if_pos hi, if_neg (by omega)]
  · rw [if_neg hi, if_neg hi]

theorem take_patch (Data : TArray) (Start : Nat) (Bytes : List Nat) (n : Nat)
    (h : Start + Bytes.length ≤ Data.length) (hn : n ≤ Start) :
    (patch Data Start Bytes).take n = Data.take n := by
  apply List.ext_getElem?
  intro i
  rw [List.getElem?_take, List.getElem?_take, getElem?_patch _ _ _ h]
  by_cases hi : i < n
  · rw [if_pos hi, if_pos hi, if_neg (by omega)]
  · rw [if_neg hi, if_neg hi]

theorem patch_zero (t : TArray) (Bytes : List Nat) :
    patch t 0 Bytes = Bytes ++ t.drop Bytes.length := by
  simp [patch]

theorem patch_full (t : TArray) (Bytes : List Nat) (h : Bytes.length = t.length) :
    patch t 0 Bytes = Bytes := by
  rw [patch_zero, h, List.drop_length, List.append_nil]

theorem patch_append_right (s t : TArray) (off : Nat) (Bytes : List Nat)
    (h : off + Bytes.length ≤ t.length) :
    patch (s ++ t) (s.length + off) Bytes = s ++ patch t off Bytes := by
  apply List.ext_getElem?
  intro i
  rw [getElem?_patch _ _ _ (by simp; omega), List.getElem?_append, List.getElem?_append,
    getElem?_patch _ _ _ h]
  by_cases h1 : i < s.length
  · rw [if_neg (by omega), if_pos h1, if_pos h1]
  · rw [if_neg h1, if_neg h1]
    by_cases h2 : s.length + off ≤ i ∧ i < s.length + off + Bytes.length
    · rw [if_pos h2, if_pos (by omega)]
      congr 1
      omega
    · rw [if_neg h2, if_neg (by omega)]

theorem patch_append_end (s t : TArray) (Bytes : List Nat) (h : Bytes.length = t.length) :
    patch (s ++ t) s.length Bytes = s ++ Bytes := by
  have := patch_append_right s t 0 Bytes (by omega)
  rw [Nat.add_zero, patch_full _ _ h] at this
  exact this

theorem slice_append_right (s t : TArray) (off k : Nat) :
    slice (s ++ t) (s.length + off) k = slice t off k := by
  unfold slice
  rw [List.drop_append]

theorem slice_append_left (s t : TArray) (q k : Nat) (h : q + k ≤ s.length) :
    slice (s ++ t) q k = slice s q k := by
  apply List.ext_getElem?
  intro i
  rw [getElem?_slice, getElem?_slice]
  by_cases hi : i < k
  · rw [if_pos hi, if_pos hi, List.getElem?_append_left (by omega)]
  · rw [if_neg hi, if_neg hi]

theorem slice_full (t : TArray) : slice t 0 t.length = t := by
  simp [slice]

/-! ### Index accessor -/

theorem length_indexBytes (b32 : Bool) (v : Int) : (indexBytes b32 v).length = indexWidth b32 := by
  cases b32 <;> simp [indexBytes, indexWidth, length_toBytesLE]

theorem toInt32_toUInt32 (v : Int) (h : IsInt32 v) : toInt32 (toUInt32 v) = v := by
  unfold IsInt32 at h
  unfold toInt32 toUInt32
  have h1 : (0 : Int) ≤ v % 4294967296 := Int.emod_nonneg _ (by norm_num)
  have h2 : v % 4294967296 < 4294967296 := Int.emod_lt_of_pos _ (by norm_num)
  have h3 : ((v % 4294967296).toNat % 4294967296 : Nat) = (v % 4294967296).toNat := by
    apply Nat.mod_eq_of_lt
    omega
  rw [h3]
  split <;> omega

theorem indexValue_indexBytes (b32 : Bool) (v : Int) (h : IsInt32 v) :
    indexValue b32 (indexBytes b32 v) = storedIndex b32 v := by
  cases b32
  · have h1 : (0 : Int) ≤ v % 65536 := Int.emod_nonneg _ (by norm_num)
    have h2 : v % 65536 < 65536 := Int.emod_lt_of_pos _ (by norm_num)
    simp only [indexValue, indexBytes, storedIndex, toUInt16, Bool.false_eq_true, if_false,
      fromBytesLE_toBytesLE]
    rw [Nat.mod_eq_of_lt (by norm_num; omega)]
    omega
  · simp only [indexValue, indexBytes, storedIndex, if_true, fromBytesLE_toBytesLE]
    have h3 : toUInt32 v % 256 ^ 4 = toUInt32 v := by
      apply Nat.mod_eq_of_lt
      unfold toUInt32
      have h2 : v % 4294967296 < 4294967296 := Int.emod_lt_of_pos _ (by norm_num)
      norm_num
      omega
    rw [h3]
    exact toInt32_toUInt32 v h

theorem GetStreamAccess_eq (Data : TArray) (Index : Nat) (Stride : Int) (k : Nat)
    (hk : Stride = (k : Int)) (h : Index * k < Data.length) :
    GetStreamAccess Data (Index : Int) Stride 0 = some (Index * k) := by
  subst hk
  have h1 : (Index : Int) * (k : Int) + 0 < (Data.length : Int) := by
    have : ((Index * k : Nat) : Int) < (Data.length : Int) := by exact_mod_cast h
    simpa using this
  have h0 : (0 : Int) ≤ (Index : Int) * (k : Int) + 0 := by positivity
  have h2 : ((Index : Int) * (k : Int) + 0).toNat = Index * k := by
    have : (Index : Int) * (k : Int) + 0 = ((Index * k : Nat) : Int) := by push_cast; ring
    rw [this]
    exact Int.toNat_natCast _
  unfold GetStreamAccess TArray.Num
  simp only [h2]
  rw [if_pos ⟨h0, h1⟩]

theorem readBytes_eq (Data : TArray) (Start Size : Nat) (h : Start + Size ≤ Data.length) :
    readBytes Data Start Size = some (slice Data Start Size) := by
  unfold readBytes
  rw [if_pos h]

theorem writeBytes_eq (Data : TArray) (Start : Nat) (Bytes : List Nat)
    (h : Start + Bytes.length ≤ Data.length) :
    writeBytes Data Start Bytes = some (patch Data Start Bytes) := by
  unfold writeBytes
  rw [if_pos h]

theorem StaticArrayOffset_eq (Index : Nat) (ElemSize : Nat) (h : Index < 8) :
    StaticArrayOffset (Index : Int) ElemSize = some (Index * ElemSize) := by
  unfold StaticArrayOffset
  rw [if_pos ⟨by positivity, by exact_mod_cast h⟩]
  simp

theorem AddZeroed_eq (Data : TArray) (Count : Int) (k : Nat) (hk : Count = (k : Int)) :
    TArray.AddZeroed Data Count = some (Data ++ List.replicate k 0) := by
  subst hk
  unfold TArray.AddZeroed
  rw [if_pos (by positivity)]
  simp

theorem SetNumZeroed_eq (Data : TArray) (NewNum : Int) (k : Nat) (hk : NewNum = (k : Int)) :
    TArray.SetNumZeroed Data NewNum = some (resized Data k) := by
  subst hk
  unfold TArray.SetNumZeroed resized
  rw [if_pos (by positivity)]
  simp

theorem indexWidth_true : indexWidth true = 4 := rfl

theorem indexWidth_false : indexWidth false = 2 := rfl

namespace FRuntimeMeshIndicesAccessor

theorem GetIndexStride_eq (self : FRuntimeMeshIndicesAccessor) :
    self.GetIndexStride = (indexWidth self.b32BitIndices : Int) := by
  unfold GetIndexStride indexWidth
  cases self.b32BitIndices <;> simp

theorem SetIndex_eq (self : FRuntimeMeshIndicesAccessor) (Index : Nat) (Value : Int)
    (hinit : self.bIsInitialized = true)
    (h : (Index + 1) * indexWidth self.b32BitIndices ≤ self.IndexStream.length) :
    self.SetIndex (Index : Int) Value =
      some { self with IndexStream := (patch self.IndexStream
        (Index * indexWidth self.b32BitIndices) (indexBytes self.b32BitIndices Value)) } := by
  obtain ⟨i, s, b⟩ := self
  simp only at hinit h ⊢
  subst hinit
  cases b
  · simp only [indexWidth_false] at h ⊢
    have e1 := GetStreamAccess_eq s Index 2 2 (by norm_num) (by omega)
    have e2 := writeBytes_eq s (Index * 2) (toBytesLE 2 (toUInt16 Value))
      (by rw [length_toBytesLE]; omega)
    simp [SetIndex, check, e1, e2, indexBytes]
  · simp only [indexWidth_true] at h ⊢
    have e1 := GetStreamAccess_eq s Index 4 4 (by norm_num) (by omega)
    have e2 := writeBytes_eq s (Index * 4) (toBytesLE 4 (toUInt32 Value))
      (by rw [length_toBytesLE]; omega)
    simp [SetIndex, check, e1, e2, indexBytes]

theorem GetIndex_eq (self : FRuntimeMeshIndicesAccessor) (Index : Nat)
    (hinit : self.bIsInitialized = true)
    (h : (Index + 1) * indexWidth self.b32BitIndices ≤ self.IndexStream.length) :
    self.GetIndex (Index : Int) =
      some (indexValue self.b32BitIndices (slice self.IndexStream
        (Index * indexWidth self.b32BitIndices) (indexWidth self.b32BitIndices))) := by
  obtain ⟨i, s, b⟩ := self
  simp only at hinit h ⊢
  subst hinit
  cases b
  · simp only [indexWidth_false] at h ⊢
    have e1 := GetStreamAccess_eq s Index 2 2 (by norm_num) (by omega)
    have e2 := readBytes_eq s (Index * 2) 2 (by omega)
    simp [GetIndex, check, e1, e2, indexValue]
  · simp only [indexWidth_true] at h ⊢
    have e1 := GetStreamAccess_eq s Index 4 4 (by norm_num) (by omega)
    have e2 := readBytes_eq s (Index * 4) 4 (by omega)
    simp [GetIndex, check, e1, e2, indexValue]

theorem NumIndices_eq (self : FRuntimeMeshIndicesAccessor) (hinit : self.bIsInitialized = true) :
    self.NumIndices =
      some ((self.IndexStream.length / indexWidth self.b32BitIndices : Nat) : Int) := by
  simp [NumIndices, check, hinit, GetIndexStride_eq, TArray.Num]

theorem AddTriangle_eq (self : FRuntimeMeshIndicesAccessor) (Index0 Index1 Index2 : Int)
    (hinit : self.bIsInitialized = true) :
    self.AddTriangle Index0 Index1 Index2 =
      some (((self.IndexStream.length / indexWidth self.b32BitIndices : Nat) : Int),
        { self with IndexStream :=
          (patch (patch (patch
            (self.IndexStream ++ List.replicate (indexWidth self.b32BitIndices * 3) 0)
            (self.IndexStream.length / indexWidth self.b32BitIndices
              * indexWidth self.b32BitIndices)
            (indexBytes self.b32BitIndices Index0))
            ((self.IndexStream.length / indexWidth self.b32BitIndices + 1)
              * indexWidth self.b32BitIndices)
            (indexBytes self.b32BitIndices Index1))
            ((self.IndexStream.length / indexWidth self.b32BitIndices + 2)
              * indexWidth self.b32BitIndices)
            (indexBytes self.b32BitIndices Index2)) }) := by
  obtain ⟨i, s, b⟩ := self
  simp only at hinit ⊢
  subst hinit
  have hw : 0 < indexWidth b := by cases b <;> simp [indexWidth]
  have hN : s.length / indexWidth b * indexWidth b ≤ s.length := Nat.div_mul_le_self _ _
  generalize hNdef : s.length / indexWidth b = N at hN ⊢
  have hadd : TArray.AddZeroed s ((FRuntimeMeshIndicesAccessor.mk true s b).GetIndexStride * 3) =
      some (s ++ List.replicate (indexWidth b * 3) 0) := by
    rw [GetIndexStride_eq]
    unfold TArray.AddZeroed
    have h0 : (0 : Int) ≤ ((indexWidth b : Nat) : Int) * 3 := by positivity
    have h1 : (((indexWidth b : Nat) : Int) * 3).toNat = indexWidth b * 3 := by omega
    simp only [h1]
    rw [if_pos h0]
  have c0 : ((N : Nat) : Int) + 0 = ((N : Nat) : Int) := by simp
  have c1 : ((N : Nat) : Int) + 1 = ((N + 1 : Nat) : Int) := by push_cast; rfl
  have c2 : ((N : Nat) : Int) + 2 = ((N + 2 : Nat) : Int) := by push_cast; rfl
  have l0 : (s ++ List.replicate (indexWidth b * 3) 0).length = s.length + indexWidth b * 3 := by
    simp
  have e0 := SetIndex_eq ⟨true, s ++ List.replicate (indexWidth b * 3) 0, b⟩ N Index0 rfl
    (by simp only [l0]; nlinarith)
  simp only at e0
  have l1 : (patch (s ++ List.replicate (indexWidth b * 3) 0) (N * indexWidth b)
      (indexBytes b Index0)).length = s.length + indexWidth b * 3 := by
    rw [length_patch _ _ _ (by rw [length_indexBytes, l0]; nlinarith), l0]
  have e1 := SetIndex_eq ⟨true, patch (s ++ List.replicate (indexWidth b * 3) 0)
    (N * indexWidth b) (indexBytes b Index0), b⟩ (N + 1) Index1 rfl
    (by simp only [l1]; nlinarith)
  simp only at e1
  have l2 : (patch (patch (s ++ List.replicate (indexWidth b * 3) 0) (N * indexWidth b)
      (indexBytes b Index0)) ((N + 1) * indexWidth b) (indexBytes b Index1)).length
      = s.length + indexWidth b * 3 := by
    rw [length_patch _ _ _ (by rw [length_indexBytes, l1]; nlinarith), l1]
  have e2 := SetIndex_eq ⟨true, patch (patch (s ++ List.replicate (indexWidth b * 3) 0)
    (N * indexWidth b) (indexBytes b Index0)) ((N + 1) * indexWidth b) (indexBytes b Index1), b⟩
    (N + 2) Index2 rfl (by simp only [l2]; nlinarith)
  simp only at e2
  have hnum := NumIndices_eq ⟨true, s, b⟩ rfl
  simp only [hNdef] at hnum
  simp only [AddTriangle, check, hnum, hadd, c0, c1, c2, e0, e1, e2, if_true, Option.bind_eq_bind,
    Option.some_bind, Option.pure_def, Option.bind_some]

theorem AddIndex_eq (self : FRuntimeMeshIndicesAccessor) (NewIndex : Int)
    (hinit : self.bIsInitialized = true) :
    self.AddIndex NewIndex =
      some (((self.IndexStream.length / indexWidth self.b32BitIndices : Nat) : Int),
        { self with IndexStream :=
          (patch (self.IndexStream ++ List.replicate (indexWidth self.b32BitIndices) 0)
            (self.IndexStream.length / indexWidth self.b32BitIndices
              * indexWidth self.b32BitIndices)
            (indexBytes self.b32BitIndices NewIndex)) }) := by
  obtain ⟨i, s, b⟩ := self
  simp only at hinit ⊢
  subst hinit
  have hw : 0 < indexWidth b := by cases b <;> simp [indexWidth]
  have hN : s.length / indexWidth b * indexWidth b ≤ s.length := Nat.div_mul_le_self _ _
  generalize hNdef : s.length / indexWidth b = N at hN ⊢
  have hadd : TArray.AddZeroed s ((FRuntimeMeshIndicesAccessor.mk true s b).GetIndexStride) =
      some (s ++ List.replicate (indexWidth b) 0) :=
    AddZeroed_eq _ _ _ (GetIndexStride_eq _)
  have e0 := SetIndex_eq ⟨true, s ++ List.replicate (indexWidth b) 0, b⟩ N NewIndex rfl
    (by simp only [List.length_append, List.length_replicate]; nlinarith)
  simp only at e0
  have hnum := NumIndices_eq ⟨true, s, b⟩ rfl
  simp only [hNdef] at hnum
  simp only [AddIndex, check, hnum, hadd, e0, if_true, Option.bind_eq_bind,
    Option.some_bind, Option.pure_def]

theorem AddIndex_aligned (w : Bool) (s : TArray) (M : Nat) (NewIndex : Int)
    (hs : s.length = M * indexWidth w) :
    (FRuntimeMeshIndicesAccessor.mk true s w).AddIndex NewIndex =
      some ((M : Int), ⟨true, s ++ indexBytes w NewIndex, w⟩) := by
  have hw : 0 < indexWidth w := by cases w <;> simp [indexWidth]
  have hM : s.length / indexWidth w = M := by
    rw [hs]; exact Nat.mul_div_cancel _ hw
  rw [AddIndex_eq _ _ rfl]
  simp only [hM]
  rw [← hs, patch_append_end _ _ _ (by rw [length_indexBytes, List.length_replicate])]

end FRuntimeMeshIndicesAccessor

/-! ### Vertex accessor -/

theorem length_encodeFVector (v : FVector) : (encodeFVector v).length = 12 := by
  simp [encodeFVector, length_toBytesLE]

theorem length_encodeFColor (c : FColor) : (encodeFColor c).length = 4 := rfl

theorem length_encodeNormal (cv : EngineConversions) (hi : Bool) (v : FVector4) :
    (encodeNormal cv hi v).length = packedSize hi := by
  cases hi <;> simp [encodeNormal, packedSize, length_toBytesLE]

theorem length_encodeTangent (cv : EngineConversions) (hi : Bool) (v : FVector) :
    (encodeTangent cv hi v).length = packedSize hi := by
  cases hi <;> simp [encodeTangent, packedSize, length_toBytesLE]

theorem length_encodeUV (cv : EngineConversions) (hi : Bool) (v : FVector2D) :
    (encodeUV cv hi v).length = uvSize hi := by
  cases hi <;> simp [encodeUV, uvSize, length_toBytesLE]

namespace FRuntimeMeshVerticesAccessor

theorem eq_create_of_isInitialized (self : FRuntimeMeshVerticesAccessor)
    (h : self.IsInitialized) :
    self = create self.bTangentHighPrecision self.bUVHighPrecision self.UVChannelCount
      self.PositionStream self.TangentStream self.UVStream self.ColorStream := by
  unfold IsInitialized at h
  rw [← h]
  rfl

theorem isInitialized_create (hi uvhi : Bool) (ch : Int) (P T U C : TArray) :
    (create hi uvhi ch P T U C).IsInitialized := rfl

theorem NumVertices_create (hi uvhi : Bool) (ch : Int) (P T U C : TArray) :
    (create hi uvhi ch P T U C).NumVertices = some ((P.length / 12 : Nat) : Int) := by
  simp [NumVertices, create, Initialize, new, check, TArray.Num, PositionStride]

theorem NumUVChannels_create (hi uvhi : Bool) (ch : Int) (P T U C : TArray) :
    (create hi uvhi ch P T U C).NumUVChannels = some ch := by
  simp [NumUVChannels, create, Initialize, new, check]

theorem SetPosition_create (hi uvhi : Bool) (ch : Int) (P T U C : TArray) (Index : Nat)
    (v : FVector) (h : (Index + 1) * 12 ≤ P.length) :
    (create hi uvhi ch P T U C).SetPosition (Index : Int) v =
      some (create hi uvhi ch (patch P (Index * 12) (encodeFVector v)) T U C) := by
  have e1 := GetStreamAccess_eq P Index 12 12 (by norm_num) (by omega)
  have e2 := writeBytes_eq P (Index * 12) (encodeFVector v)
    (by rw [length_encodeFVector]; omega)
  simp [SetPosition, create, Initialize, new, check, PositionStride, e1, e2]

theorem GetPosition_create (hi uvhi : Bool) (ch : Int) (P T U C : TArray) (Index : Nat)
    (h : (Index + 1) * 12 ≤ P.length) :
    (create hi uvhi ch P T U C).GetPosition (Index : Int) =
      some (decodeFVector (slice P (Index * 12) 12)) := by
  have e1 := GetStreamAccess_eq P Index 12 12 (by norm_num) (by omega)
  have e2 := readBytes_eq P (Index * 12) 12 (by omega)
  simp [GetPosition, create, Initialize, new, check, PositionStride, e1, e2]

theorem SetColor_create (hi uvhi : Bool) (ch : Int) (P T U C : TArray) (Index : Nat)
    (v : FColor) (h : (Index + 1) * 4 ≤ C.length) :
    (create hi uvhi ch P T U C).SetColor (Index : Int) v =
      some (create hi uvhi ch P T U (patch C (Index * 4) (encodeFColor v))) := by
  have e1 := GetStreamAccess_eq C Index 4 4 (by norm_num) (by omega)
  have e2 := writeBytes_eq C (Index * 4) (encodeFColor v)
    (by rw [length_encodeFColor]; omega)
  simp [SetColor, create, Initialize, new, check, ColorStride, e1, e2]

theorem GetColor_create (hi uvhi : Bool) (ch : Int) (P T U C : TArray) (Index : Nat)
    (h : (Index + 1) * 4 ≤ C.length) :
    (create hi uvhi ch P T U C).GetColor (Index : Int) =
      some (decodeFColor (slice C (Index * 4) 4)) := by
  have e1 := GetStreamAccess_eq C Index 4 4 (by norm_num) (by omega)
  have e2 := readBytes_eq C (Index * 4) 4 (by omega)
  simp [GetColor, create, Initialize, new, check, ColorStride, e1, e2]

theorem SetNormal_create (cv : EngineConversions) (hi uvhi : Bool) (ch : Int)
    (P T U C : TArray) (Index : Nat) (v : FVector4)
    (h : (Index + 1) * (2 * packedSize hi) ≤ T.length) :
    (create hi uvhi ch P T U C).SetNormal cv (Index : Int) v =
      some (create hi uvhi ch P
        (patch T (Index * (2 * packedSize hi)) (encodeNormal cv hi v)) U C) := by
  cases hi
  · simp only [packedSize, Bool.false_eq_true, if_false] at h ⊢
    have e1 := GetStreamAccess_eq T Index 8 8 (by norm_num) (by omega)
    have e2 := writeBytes_eq T (Index * 8) (encodeNormal cv false v)
      (by rw [length_encodeNormal]; simp only [packedSize, Bool.false_eq_true, if_false]; omega)
    simp [SetNormal, create, Initialize, new, check, NormalFieldOffset, e1, e2]
  · simp only [packedSize, if_true] at h ⊢
    have e1 := GetStreamAccess_eq T Index 16 16 (by norm_num) (by omega)
    have e2 := writeBytes_eq T (Index * 16) (encodeNormal cv true v)
      (by rw [length_encodeNormal]; simp only [packedSize, if_true]; omega)
    simp [SetNormal, create, Initialize, new, check, NormalFieldOffset, e1, e2]

theorem GetNormal_create (cv : EngineConversions) (hi uvhi : Bool) (ch : Int)
    (P T U C : TArray) (Index : Nat)
    (h : (Index + 1) * (2 * packedSize hi) ≤ T.length) :
    (create hi uvhi ch P T U C).GetNormal cv (Index : Int) =
      some (decodeNormal cv hi (slice T (Index * (2 * packedSize hi)) (packedSize hi))) := by
  cases hi
  · simp only [packedSize, Bool.false_eq_true, if_false] at h ⊢
    have e1 := GetStreamAccess_eq T Index 8 8 (by norm_num) (by omega)
    have e2 := readBytes_eq T (Index * 8) 4 (by omega)
    simp [GetNormal, create, Initialize, new, check, NormalFieldOffset, packedSize, e1, e2]
  · simp only [packedSize, if_true] at h ⊢
    have e1 := GetStreamAccess_eq T Index 16 16 (by norm_num) (by omega)
    have e2 := readBytes_eq T (Index * 16) 8 (by omega)
    simp [GetNormal, create, Initialize, new, check, NormalFieldOffset, packedSize, e1, e2]

theorem SetTangent_create (cv : EngineConversions) (hi uvhi : Bool) (ch : Int)
    (P T U C : TArray) (Index : Nat) (v : FVector)
    (h : (Index + 1) * (2 * packedSize hi) ≤ T.length) :
    (create hi uvhi ch P T U C).SetTangent cv (Index : Int) v =
      some (create hi uvhi ch P
        (patch T (Index * (2 * packedSize hi) + packedSize hi) (encodeTangent cv hi v)) U C) := by
  cases hi
  · simp only [packedSize, Bool.false_eq_true, if_false] at h ⊢
    have e1 := GetStreamAccess_eq T Index 8 8 (by norm_num) (by omega)
    have e2 := writeBytes_eq T (Index * 8 + 4) (encodeTangent cv false v)
      (by rw [length_encodeTangent]; simp only [packedSize, Bool.false_eq_true, if_false]; omega)
    simp [SetTangent, create, Initialize, new, check, TangentFieldOffset, packedSize, e1, e2]
  · simp only [packedSize, if_true] at h ⊢
    have e1 := GetStreamAccess_eq T Index 16 16 (by norm_num) (by omega)
    have e2 := writeBytes_eq T (Index * 16 + 8) (encodeTangent cv true v)
      (by rw [length_encodeTangent]; simp only [packedSize, if_true]; omega)
    simp [SetTangent, create, Initialize, new, check, TangentFieldOffset, packedSize, e1, e2]

theorem GetTangent_create (cv : EngineConversions) (hi uvhi : Bool) (ch : Int)
    (P T U C : TArray) (Index : Nat)
    (h : (Index + 1) * (2 * packedSize hi) ≤ T.length) :
    (create hi uvhi ch P T U C).GetTangent cv (Index : Int) =
      some (decodeTangent cv hi
        (slice T (Index * (2 * packedSize hi) + packedSize hi) (packedSize hi))) := by
  cases hi
  · simp only [packedSize, Bool.false_eq_true, if_false] at h ⊢
    have e1 := GetStreamAccess_eq T Index 8 8 (by norm_num) (by omega)
    have e2 := readBytes_eq T (Index * 8 + 4) 4 (by omega)
    simp [GetTangent, create, Initialize, new, check, TangentFieldOffset, packedSize, e1, e2]
  · simp only [packedSize, if_true] at h ⊢
    have e1 := GetStreamAccess_eq T Index 16 16 (by norm_num) (by omega)
    have e2 := readBytes_eq T (Index * 16 + 8) 8 (by omega)
    simp [GetTangent, create, Initialize, new, check, TangentFieldOffset, packedSize, e1, e2]

theorem SetUV_create (cv : EngineConversions) (hi uvhi : Bool) (ch : Nat)
    (P T U C : TArray) (Index Channel : Nat) (v : FVector2D) (hc : Channel < ch) (h8 : ch ≤ 8)
    (h : (Index + 1) * (uvSize uvhi * ch) ≤ U.length) :
    (create hi uvhi (ch : Int) P T U C).SetUV cv (Index : Int) (Channel : Int) v =
      some (create hi uvhi (ch : Int) P T
        (patch U (Index * (uvSize uvhi * ch) + Channel * uvSize uvhi) (encodeUV cv uvhi v)) C) := by
  have hc1 : (Channel : Int) < (ch : Int) := by exact_mod_cast hc
  have e0 : ∀ sz, StaticArrayOffset (Channel : Int) sz = some (Channel * sz) :=
    fun sz => StaticArrayOffset_eq Channel sz (by omega)
  rw [Nat.add_mul, Nat.one_mul] at h
  cases uvhi
  · simp only [uvSize, Bool.false_eq_true, if_false] at h ⊢
    have e1 := GetStreamAccess_eq U Index (4 * (ch : Int)) (4 * ch) (by push_cast; ring)
      (by omega)
    have e2 := writeBytes_eq U (Index * (4 * ch) + Channel * 4) (encodeUV cv false v)
      (by rw [length_encodeUV]; simp only [uvSize, Bool.false_eq_true, if_false]; omega)
    simp [SetUV, create, Initialize, new, check, uvSize, e0, e1, e2, hc1]
  · simp only [uvSize, if_true] at h ⊢
    have e1 := GetStreamAccess_eq U Index (8 * (ch : Int)) (8 * ch) (by push_cast; ring)
      (by omega)
    have e2 := writeBytes_eq U (Index * (8 * ch) + Channel * 8) (encodeUV cv true v)
      (by rw [length_encodeUV]; simp only [uvSize, if_true]; omega)
    simp [SetUV, create, Initialize, new, check, uvSize, e0, e1, e2, hc1]

theorem GetUV_create (cv : EngineConversions) (hi uvhi : Bool) (ch : Nat)
    (P T U C : TArray) (Index Channel : Nat) (hc : Channel < ch) (h8 : ch ≤ 8)
    (h : (Index + 1) * (uvSize uvhi * ch) ≤ U.length) :
    (create hi uvhi (ch : Int) P T U C).GetUV cv (Index : Int) (Channel : Int) =
      some (decodeUV cv uvhi
        (slice U (Index * (uvSize uvhi * ch) + Channel * uvSize uvhi) (uvSize uvhi))) := by
  have hc1 : (Channel : Int) < (ch : Int) := by exact_mod_cast hc
  have e0 : ∀ sz, StaticArrayOffset (Channel : Int) sz = some (Channel * sz) :=
    fun sz => StaticArrayOffset_eq Channel sz (by omega)
  rw [Nat.add_mul, Nat.one_mul] at h
  cases uvhi
  · simp only [uvSize, Bool.false_eq_true, if_false] at h ⊢
    have e1 := GetStreamAccess_eq U Index (4 * (ch : Int)) (4 * ch) (by push_cast; ring)
      (by omega)
    have e2 := readBytes_eq U (Index * (4 * ch) + Channel * 4) 4 (by omega)
    simp [GetUV, create, Initialize, new, check, uvSize, e0, e1, e2, hc1]
  · simp only [uvSize, if_true] at h ⊢
    have e1 := GetStreamAccess_eq U Index (8 * (ch : Int)) (8 * ch) (by push_cast; ring)
      (by omega)
    have e2 := readBytes_eq U (Index * (8 * ch) + Channel * 8) 8 (by omega)
    simp [GetUV, create, Initialize, new, check, uvSize, e0, e1, e2, hc1]

theorem AddSingleVertex_create (hi uvhi : Bool) (ch : Nat) (P T U C : TArray) :
    (create hi uvhi (ch : Int) P T U C).AddSingleVertex =
      some (((P.length / 12 : Nat) : Int),
        create hi uvhi (ch : Int) (P ++ List.replicate 12 0)
          (T ++ List.replicate (2 * packedSize hi) 0)
          (U ++ List.replicate (uvSize uvhi * ch) 0) (C ++ List.replicate 4 0)) := by
  have hP := AddZeroed_eq P 12 12 (by norm_num)
  have hC := AddZeroed_eq C 4 4 (by norm_num)
  have hn := NumVertices_create hi uvhi (ch : Int) P T U C
  cases hi <;> cases uvhi
  · have hT := AddZeroed_eq T 8 8 (by norm_num)
    have hU := AddZeroed_eq U (4 * (ch : Int)) (4 * ch) (by push_cast; ring)
    simp [AddSingleVertex, hn] 
    simp [create, Initialize, new, PositionStride, ColorStride, packedSize, uvSize, hP, hC, hT, hU]
  · have hT := AddZeroed_eq T 8 8 (by norm_num)
    have hU := AddZeroed_eq U (8 * (ch : Int)) (8 * ch) (by push_cast; ring)
    simp [AddSingleVertex, hn] 
    simp [create, Initialize, new, PositionStride, ColorStride, packedSize, uvSize, hP, hC, hT, hU]
  · have hT := AddZeroed_eq T 16 16 (by norm_num)
    have hU := AddZeroed_eq U (4 * (ch : Int)) (4 * ch) (by push_cast; ring)
    simp [AddSingleVertex, hn] 
    simp [create, Initialize, new, PositionStride, ColorStride, packedSize, uvSize, hP, hC, hT, hU]
  · have hT := AddZeroed_eq T 16 16 (by norm_num)
    have hU := AddZeroed_eq U (8 * (ch : Int)) (8 * ch) (by push_cast; ring)
    simp [AddSingleVertex, hn] 
    simp [create, Initialize, new, PositionStride, ColorStride, packedSize, uvSize, hP, hC, hT, hU]

theorem bIsInitialized_create (hi uvhi : Bool) (ch : Int) (P T U C : TArray) :
    (create hi uvhi ch P T U C).bIsInitialized = true := rfl

theorem AddVertex_create (hi uvhi : Bool) (ch : Nat) (P T U C : TArray) (v : FVector) :
    (create hi uvhi (ch : Int) P T U C).AddVertex v =
      some (((P.length / 12 : Nat) : Int),
        create hi uvhi (ch : Int)
          (patch (P ++ List.replicate 12 0) (P.length / 12 * 12) (encodeFVector v))
          (T ++ List.replicate (2 * packedSize hi) 0)
          (U ++ List.replicate (uvSize uvhi * ch) 0) (C ++ List.replicate 4 0)) := by
  have h1 := AddSingleVertex_create hi uvhi ch P T U C
  have h2 := SetPosition_create hi uvhi (ch : Int) (P ++ List.replicate 12 0)
    (T ++ List.replicate (2 * packedSize hi) 0) (U ++ List.replicate (uvSize uvhi * ch) 0)
    (C ++ List.replicate 4 0) (P.length / 12) v (by simp; omega)
  simp only [AddVertex, check, bIsInitialized_create, h1, h2, if_true, Option.bind_eq_bind,
    Option.some_bind, Option.pure_def]

theorem EmptyVertices_create (hi uvhi : Bool) (ch : Int) (P T U C : TArray) (Slack : Nat) :
    (create hi uvhi ch P T U C).EmptyVertices (Slack : Int) =
      some (create hi uvhi ch [] [] [] []) := by
  have h0 : (0 : Int) ≤ (Slack : Int) := by positivity
  cases hi <;> cases uvhi <;>
    simp [EmptyVertices, create, Initialize, new, check, TArray.Empty, PositionStride,
      ColorStride, h0]

end FRuntimeMeshVerticesAccessor

/-! ### Whole-vertex access -/

theorem patch_nil (Data : TArray) (Start : Nat) : patch Data Start [] = Data := by
  simp [patch]

theorem patch_patch_adjacent (Data : TArray) (Start : Nat) (B1 B2 : List Nat)
    (h : Start + B1.length + B2.length ≤ Data.length) :
    patch (patch Data Start B1) (Start + B1.length) B2 = patch Data Start (B1 ++ B2) := by
  have h1 : Start + B1.length ≤ Data.length := by omega
  apply List.ext_getElem?
  intro i
  rw [getElem?_patch _ _ _ (by rw [length_patch _ _ _ h1]; omega), getElem?_patch _ _ _ h1,
    getElem?_patch _ _ _ (by rw [List.length_append]; omega), List.getElem?_append,
    List.length_append]
  by_cases c1 : i < Start
  · rw [if_neg (by omega), if_neg (by omega), if_neg (by omega)]
  · by_cases c2 : i < Start + B1.length
    · rw [if_neg (by omega), if_pos (by omega), if_pos (by omega), if_pos (by omega)]
    · by_cases c3 : i < Start + B1.length + B2.length
      · rw [if_pos (by omega), if_pos (by omega), if_neg (by omega)]
        congr 1
        omega
      · rw [if_neg (by omega), if_neg (by omega), if_neg (by omega)]

theorem slice_take (Data : TArray) (a m k : Nat) (h : k ≤ m) :
    (slice Data a m).take k = slice Data a k := by
  unfold slice
  rw [List.take_take, Nat.min_eq_left h]

theorem slice_drop (Data : TArray) (a m k : Nat) :
    (slice Data a m).drop k = slice Data (a + k) (m - k) := by
  unfold slice
  rw [List.drop_take, List.drop_drop]

theorem length_encodeUVs (cv : EngineConversions) (hi : Bool) (uvs : List FVector2D) :
    (encodeUVs cv hi uvs).length = uvs.length * uvSize hi := by
  induction uvs with
  | nil => simp [encodeUVs]
  | cons uv rest ih =>
    simp only [encodeUVs, List.length_append, length_encodeUV, ih, List.length_cons]
    ring

theorem length_decodeUVs (cv : EngineConversions) (hi : Bool) (n : Nat) (bs : List Nat) :
    (decodeUVs cv hi n bs).length = n := by
  induction n generalizing bs with
  | zero => rfl
  | succ n ih => simp [decodeUVs, ih]

theorem decodeUVs_encodeUVs (cv : EngineConversions) (hi : Bool) (uvs : List FVector2D) :
    decodeUVs cv hi uvs.length (encodeUVs cv hi uvs) =
      uvs.map fun uv => decodeUV cv hi (encodeUV cv hi uv) := by
  induction uvs with
  | nil => rfl
  | cons uv rest ih =>
    simp only [encodeUVs, decodeUVs, List.length_cons, List.map_cons]
    rw [← length_encodeUV cv hi uv, List.take_left, List.drop_left, ih]

theorem decodeFVector_encodeFVector (v : FVector)
    (h : IsFloat v.X ∧ IsFloat v.Y ∧ IsFloat v.Z) : decodeFVector (encodeFVector v) = v := by
  obtain ⟨x, y, z⟩ := v
  obtain ⟨hx, hy, hz⟩ := h
  simp only [IsFloat] at hx hy hz
  have e1 : (toBytesLE 4 x ++ toBytesLE 4 y ++ toBytesLE 4 z).take 4 = toBytesLE 4 x := by
    rw [List.append_assoc]
    have := List.take_left (toBytesLE 4 x) (toBytesLE 4 y ++ toBytesLE 4 z)
    rwa [length_toBytesLE] at this
  have e2 : ((toBytesLE 4 x ++ toBytesLE 4 y ++ toBytesLE 4 z).drop 4).take 4
      = toBytesLE 4 y := by
    have : (toBytesLE 4 x ++ toBytesLE 4 y ++ toBytesLE 4 z).drop 4
        = toBytesLE 4 y ++ toBytesLE 4 z := by
      rw [List.append_assoc]
      have := List.drop_left (toBytesLE 4 x) (toBytesLE 4 y ++ toBytesLE 4 z)
      rwa [length_toBytesLE] at this
    rw [this]
    have := List.take_left (toBytesLE 4 y) (toBytesLE 4 z)
    rwa [length_toBytesLE] at this
  have e3 : ((toBytesLE 4 x ++ toBytesLE 4 y ++ toBytesLE 4 z).drop 8).take 4
      = toBytesLE 4 z := by
    have : (toBytesLE 4 x ++ toBytesLE 4 y ++ toBytesLE 4 z).drop 8 = toBytesLE 4 z := by
      have := List.drop_left (toBytesLE 4 x ++ toBytesLE 4 y) (toBytesLE 4 z)
      rwa [List.length_append, length_toBytesLE, length_toBytesLE] at this
    rw [this]
    have := List.take_length (toBytesLE 4 z)
    rwa [length_toBytesLE] at this
  simp only [decodeFVector, encodeFVector, e1, e2, e3, fromBytesLE_toBytesLE]
  have p : (256 : Nat) ^ 4 = 4294967296 := by norm_num
  rw [p, Nat.mod_eq_of_lt hx, Nat.mod_eq_of_lt hy, Nat.mod_eq_of_lt hz]

theorem decodeFColor_encodeFColor (c : FColor)
    (h : c.B < 256 ∧ c.G < 256 ∧ c.R < 256 ∧ c.A < 256) : decodeFColor (encodeFColor c) = c := by
  obtain ⟨b, g, r, a⟩ := c
  obtain ⟨hb, hg, hr, ha⟩ := h
  simp only at hb hg hr ha
  simp [decodeFColor, encodeFColor, Nat.mod_eq_of_lt hb, Nat.mod_eq_of_lt hg,
    Nat.mod_eq_of_lt hr, Nat.mod_eq_of_lt ha]

theorem decodeUV_encodeUV_high (cv : EngineConversions) (uv : FVector2D)
    (h : IsFloat uv.X ∧ IsFloat uv.Y) : decodeUV cv true (encodeUV cv true uv) = uv := by
  obtain ⟨x, y⟩ := uv
  obtain ⟨hx, hy⟩ := h
  simp only [IsFloat] at hx hy
  have e1 : (toBytesLE 4 x ++ toBytesLE 4 y).take 4 = toBytesLE 4 x := by
    have := List.take_left (toBytesLE 4 x) (toBytesLE 4 y)
    rwa [length_toBytesLE] at this
  have e2 : ((toBytesLE 4 x ++ toBytesLE 4 y).drop 4).take 4 = toBytesLE 4 y := by
    have : (toBytesLE 4 x ++ toBytesLE 4 y).drop 4 = toBytesLE 4 y := by
      have := List.drop_left (toBytesLE 4 x) (toBytesLE 4 y)
      rwa [length_toBytesLE] at this
    rw [this]
    have := List.take_length (toBytesLE 4 y)
    rwa [length_toBytesLE] at this
  simp only [decodeUV, encodeUV, if_true, e1, e2, fromBytesLE_toBytesLE]
  have p : (256 : Nat) ^ 4 = 4294967296 := by norm_num
  rw [p, Nat.mod_eq_of_lt hx, Nat.mod_eq_of_lt hy]

namespace FRuntimeMeshVerticesAccessor

theorem SetVertexUVs_eq (cv : EngineConversions) (hi : Bool) (p : Nat) :
    ∀ (uvs : List FVector2D) (k : Nat) (Data : TArray), k + uvs.length ≤ 8 →
      p + (k + uvs.length) * uvSize hi ≤ Data.length →
      SetVertexUVs cv hi p k uvs Data =
        some (patch Data (p + k * uvSize hi) (encodeUVs cv hi uvs)) := by
  intro uvs
  induction uvs with
  | nil =>
    intro k Data _ _
    simp only [SetVertexUVs, encodeUVs, patch_nil]
  | cons uv rest ih =>
    intro k Data h8 hlen
    simp only [List.length_cons] at h8 hlen
    have hb : p + k * uvSize hi + (encodeUV cv hi uv).length ≤ Data.length := by
      rw [length_encodeUV]
      have : (k + 1) * uvSize hi ≤ (k + (rest.length + 1)) * uvSize hi :=
        Nat.mul_le_mul_right _ (by omega)
      rw [Nat.add_mul, Nat.one_mul] at this
      omega
    have e0 := StaticArrayOffset_eq k (uvSize hi) (by omega)
    have e1 := writeBytes_eq Data (p + k * uvSize hi) (encodeUV cv hi uv) hb
    have e2 := ih (k + 1) (patch Data (p + k * uvSize hi) (encodeUV cv hi uv)) (by omega)
      (by rw [length_patch _ _ _ hb, show k + 1 + rest.length = k + (rest.length + 1) by omega]
          exact hlen)
    have hpos : p + (k + 1) * uvSize hi = p + k * uvSize hi + (encodeUV cv hi uv).length := by
      rw [length_encodeUV]; ring
    rw [hpos, patch_patch_adjacent _ _ _ _ (by
      rw [length_encodeUV, length_encodeUVs]
      have : (k + (rest.length + 1)) * uvSize hi
          = k * uvSize hi + uvSize hi + rest.length * uvSize hi := by ring
      omega)] at e2
    simp only [SetVertexUVs, encodeUVs, e0, e1, e2, Option.bind_eq_bind, Option.some_bind]

theorem GetVertexUVs_eq (cv : EngineConversions) (hi : Bool) (p : Nat) (Data : TArray) :
    ∀ (n k : Nat), k + n ≤ 8 → p + (k + n) * uvSize hi ≤ Data.length →
      GetVertexUVs cv hi Data p k n =
        some (decodeUVs cv hi n (slice Data (p + k * uvSize hi) (n * uvSize hi))) := by
  intro n
  induction n with
  | zero =>
    intro k _ _
    rfl
  | succ n ih =>
    intro k h8 hlen
    have hb : p + k * uvSize hi + uvSize hi ≤ Data.length := by
      have : (k + 1) * uvSize hi ≤ (k + (n + 1)) * uvSize hi :=
        Nat.mul_le_mul_right _ (by omega)
      rw [Nat.add_mul, Nat.one_mul] at this
      omega
    have e0 := StaticArrayOffset_eq k (uvSize hi) (by omega)
    have e1 := readBytes_eq Data (p + k * uvSize hi) (uvSize hi) hb
    have e2 := ih (k + 1) (by omega)
      (by rw [show k + 1 + n = k + (n + 1) by omega]; exact hlen)
    have hpos : p + (k + 1) * uvSize hi = p + k * uvSize hi + uvSize hi := by ring
    rw [hpos] at e2
    have t1 : (slice Data (p + k * uvSize hi) ((n + 1) * uvSize hi)).take (uvSize hi)
        = slice Data (p + k * uvSize hi) (uvSize hi) :=
      slice_take _ _ _ _ (by rw [Nat.add_mul, Nat.one_mul]; omega)
    have t2 : (slice Data (p + k * uvSize hi) ((n + 1) * uvSize hi)).drop (uvSize hi)
        = slice Data (p + k * uvSize hi + uvSize hi) (n * uvSize hi) := by
      rw [slice_drop, Nat.add_mul, Nat.one_mul, Nat.add_sub_cancel]
    simp only [GetVertexUVs, decodeUVs, e0, e1, e2, t1, t2, Option.bind_eq_bind,
      Option.some_bind, Option.pure_def]

end FRuntimeMeshVerticesAccessor

namespace FRuntimeMeshVerticesAccessor

theorem TangentStride_create (hi uvhi : Bool) (ch : Int) (P T U C : TArray) :
    (create hi uvhi ch P T U C).TangentStride = ((2 * packedSize hi : Nat) : Int) := by
  cases hi <;> rfl

theorem UVStride_create (hi uvhi : Bool) (ch : Nat) (P T U C : TArray) :
    (create hi uvhi (ch : Int) P T U C).UVStride = ((uvSize uvhi * ch : Nat) : Int) := by
  cases uvhi <;> simp [create, Initialize, new, uvSize]

theorem writeTangents_eq (cv : EngineConversions) (hi : Bool) (Data : TArray) (p : Nat)
    (N : FVector4) (T : FVector) (h : p + 2 * packedSize hi ≤ Data.length) :
    writeTangents cv hi Data p N T =
      some (patch (patch Data p (encodeNormal cv hi N)) (p + packedSize hi)
        (encodeTangent cv hi T)) := by
  have b1 : p + (encodeNormal cv hi N).length ≤ Data.length := by
    rw [length_encodeNormal]; omega
  have e1 := writeBytes_eq Data p (encodeNormal cv hi N) b1
  have e2 := writeBytes_eq (patch Data p (encodeNormal cv hi N)) (p + packedSize hi)
    (encodeTangent cv hi T) (by rw [length_encodeTangent, length_patch _ _ _ b1]; omega)
  simp only [writeTangents, NormalFieldOffset, TangentFieldOffset, Nat.add_zero, e1, e2,
    Option.bind_eq_bind, Option.some_bind]

theorem SetVertex_create_of_le (cv : EngineConversions) (hi uvhi : Bool) (ch N : Nat)
    (P T U C : TArray) (Index : Nat) (V : FRuntimeMeshAccessorVertex)
    (hrec : HoldsRecords hi uvhi ch N P T U C) (hI : Index < N) (h1 : 1 ≤ ch)
    (hUV : V.UVs.length ≤ ch) (h8 : V.UVs.length ≤ 8) :
    (create hi uvhi (ch : Int) P T U C).SetVertex cv (Index : Int) V =
      some (create hi uvhi (ch : Int) (patch P (Index * 12) (encodeFVector V.Position))
        (patch (patch T (Index * (2 * packedSize hi)) (encodeNormal cv hi V.Normal))
          (Index * (2 * packedSize hi) + packedSize hi) (encodeTangent cv hi V.Tangent))
        (patch U (Index * (uvSize uvhi * ch)) (encodeUVs cv uvhi V.UVs))
        (patch C (Index * 4) (encodeFColor V.Color))) := by
  obtain ⟨hP, hT, hU, hC⟩ := hrec
  have hps : 0 < packedSize hi := by cases hi <;> simp [packedSize]
  have hus : 0 < uvSize uvhi := by cases uvhi <;> simp [uvSize]
  have hidx : Index + 1 ≤ N := hI
  have bP : Index * 12 + 12 ≤ P.length := by
    have := Nat.mul_le_mul_right 12 hidx
    omega
  have bT : Index * (2 * packedSize hi) + 2 * packedSize hi ≤ T.length := by
    have := Nat.mul_le_mul_right (2 * packedSize hi) hidx
    rw [Nat.add_mul, Nat.one_mul] at this
    omega
  have bU : Index * (uvSize uvhi * ch) + uvSize uvhi * ch ≤ U.length := by
    have := Nat.mul_le_mul_right (uvSize uvhi * ch) hidx
    rw [Nat.add_mul, Nat.one_mul] at this
    omega
  have bC : Index * 4 + 4 ≤ C.length := by
    have := Nat.mul_le_mul_right 4 hidx
    omega
  have hus2 : 0 < uvSize uvhi * ch := Nat.mul_pos hus (by omega)
  have eP := GetStreamAccess_eq P Index PositionStride 12 rfl (by omega)
  have eT := GetStreamAccess_eq T Index (create hi uvhi (ch : Int) P T U C).TangentStride _
    (TangentStride_create _ _ _ _ _ _ _) (by omega)
  have eU := GetStreamAccess_eq U Index (create hi uvhi (ch : Int) P T U C).UVStride _
    (UVStride_create _ _ _ _ _ _ _) (by omega)
  have eC := GetStreamAccess_eq C Index ColorStride 4 rfl (by omega)
  have wP := writeBytes_eq P (Index * 12) (encodeFVector V.Position)
    (by rw [length_encodeFVector]; omega)
  have wT := writeTangents_eq cv hi T (Index * (2 * packedSize hi)) V.Normal V.Tangent bT
  have wC := writeBytes_eq C (Index * 4) (encodeFColor V.Color)
    (by rw [length_encodeFColor]; omega)
  have wU := SetVertexUVs_eq cv uvhi (Index * (uvSize uvhi * ch)) V.UVs 0 U (by omega)
    (by
      have : V.UVs.length * uvSize uvhi ≤ ch * uvSize uvhi := Nat.mul_le_mul_right _ hUV
      rw [Nat.zero_add]
      nlinarith)
  rw [Nat.zero_mul, Nat.add_zero] at wU
  unfold SetVertex
  simp only [Option.bind_eq_bind, Option.pure_def]
  rw [bIsInitialized_create]
  show (check true).bind _ = _
  rw [show check true = some () from rfl, Option.some_bind]
  show (GetStreamAccess P _ _ _).bind _ = _
  rw [eP, Option.some_bind]
  show (writeBytes P _ _).bind _ = _
  rw [wP, Option.some_bind]
  show (GetStreamAccess T _ _ _).bind _ = _
  rw [eT, Option.some_bind]
  show (writeTangents cv hi T _ _ _).bind _ = _
  rw [wT, Option.some_bind]
  show (GetStreamAccess C _ _ _).bind _ = _
  rw [eC, Option.some_bind]
  show (writeBytes C _ _).bind _ = _
  rw [wC, Option.some_bind]
  show (GetStreamAccess U _ _ _).bind _ = _
  rw [eU, Option.some_bind]
  show (SetVertexUVs cv uvhi _ 0 V.UVs U).bind _ = _
  rw [wU, Option.some_bind]
  rfl

theorem SetVertex_create (cv : EngineConversions) (hi uvhi : Bool) (ch N : Nat)
    (P T U C : TArray) (Index : Nat) (V : FRuntimeMeshAccessorVertex)
    (hrec : HoldsRecords hi uvhi ch N P T U C) (hI : Index < N) (h1 : 1 ≤ ch) (h8 : ch ≤ 8)
    (hUV : V.UVs.length ≤ ch) :
    (create hi uvhi (ch : Int) P T U C).SetVertex cv (Index : Int) V =
      some (create hi uvhi (ch : Int) (patch P (Index * 12) (encodeFVector V.Position))
        (patch (patch T (Index * (2 * packedSize hi)) (encodeNormal cv hi V.Normal))
          (Index * (2 * packedSize hi) + packedSize hi) (encodeTangent cv hi V.Tangent))
        (patch U (Index * (uvSize uvhi * ch)) (encodeUVs cv uvhi V.UVs))
        (patch C (Index * 4) (encodeFColor V.Color))) :=
  SetVertex_create_of_le cv hi uvhi ch N P T U C Index V hrec hI h1 hUV (le_trans hUV h8)

theorem GetVertex_create (cv : EngineConversions) (hi uvhi : Bool) (ch N : Nat)
    (P T U C : TArray) (Index : Nat)
    (hrec : HoldsRecords hi uvhi ch N P T U C) (hI : Index < N) (h1 : 1 ≤ ch) (h8 : ch ≤ 8) :
    (create hi uvhi (ch : Int) P T U C).GetVertex cv (Index : Int) =
      some { Position := decodeFVector (slice P (Index * 12) 12),
             Normal := decodeNormal cv hi (slice T (Index * (2 * packedSize hi)) (packedSize hi)),
             Tangent := decodeTangent cv hi
               (slice T (Index * (2 * packedSize hi) + packedSize hi) (packedSize hi)),
             Color := decodeFColor (slice C (Index * 4) 4),
             UVs := decodeUVs cv uvhi ch (slice U (Index * (uvSize uvhi * ch))
               (ch * uvSize uvhi)) } := by
  obtain ⟨hP, hT, hU, hC⟩ := hrec
  have hps : 0 < packedSize hi := by cases hi <;> simp [packedSize]
  have hus : 0 < uvSize uvhi := by cases uvhi <;> simp [uvSize]
  have hidx : Index + 1 ≤ N := hI
  have bP : Index * 12 + 12 ≤ P.length := by
    have := Nat.mul_le_mul_right 12 hidx
    omega
  have bT : Index * (2 * packedSize hi) + 2 * packedSize hi ≤ T.length := by
    have := Nat.mul_le_mul_right (2 * packedSize hi) hidx
    rw [Nat.add_mul, Nat.one_mul] at this
    omega
  have bU : Index * (uvSize uvhi * ch) + uvSize uvhi * ch ≤ U.length := by
    have := Nat.mul_le_mul_right (uvSize uvhi * ch) hidx
    rw [Nat.add_mul, Nat.one_mul] at this
    omega
  have bC : Index * 4 + 4 ≤ C.length := by
    have := Nat.mul_le_mul_right 4 hidx
    omega
  have hus2 : 0 < uvSize uvhi * ch := Nat.mul_pos hus (by omega)
  have eP := GetStreamAccess_eq P Index PositionStride 12 rfl (by omega)
  have eT := GetStreamAccess_eq T Index (create hi uvhi (ch : Int) P T U C).TangentStride _
    (TangentStride_create _ _ _ _ _ _ _) (by omega)
  have eU := GetStreamAccess_eq U Index (create hi uvhi (ch : Int) P T U C).UVStride _
    (UVStride_create _ _ _ _ _ _ _) (by omega)
  have eC := GetStreamAccess_eq C Index ColorStride 4 rfl (by omega)
  have rP := readBytes_eq P (Index * 12) 12 bP
  have rN := readBytes_eq T (Index * (2 * packedSize hi) + NormalFieldOffset hi) (packedSize hi)
    (by simp only [NormalFieldOffset]; omega)
  have rT := readBytes_eq T (Index * (2 * packedSize hi) + TangentFieldOffset hi)
    (packedSize hi) (by simp only [TangentFieldOffset]; omega)
  have rC := readBytes_eq C (Index * 4) 4 bC
  have rU := GetVertexUVs_eq cv uvhi (Index * (uvSize uvhi * ch)) U ch 0 (by omega)
    (by rw [Nat.zero_add, Nat.mul_comm ch]; exact bU)
  rw [Nat.zero_mul, Nat.add_zero] at rU
  have hn : (create hi uvhi (ch : Int) P T U C).NumUVChannels = some (ch : Int) :=
    NumUVChannels_create _ _ _ _ _ _ _
  unfold GetVertex
  simp only [Option.bind_eq_bind, Option.pure_def]
  rw [bIsInitialized_create]
  show (check true).bind _ = _
  rw [show check true = some () from rfl, Option.some_bind]
  show (GetStreamAccess P _ _ _).bind _ = _
  rw [eP, Option.some_bind]
  show (readBytes P _ _).bind _ = _
  rw [rP, Option.some_bind]
  show (GetStreamAccess T _ _ _).bind _ = _
  rw [eT, Option.some_bind]
  show (readBytes T (Index * (2 * packedSize hi) + NormalFieldOffset hi)
    (packedSize hi)).bind _ = _
  rw [rN, Option.some_bind]
  show (readBytes T (Index * (2 * packedSize hi) + TangentFieldOffset hi)
    (packedSize hi)).bind _ = _
  rw [rT, Option.some_bind]
  show (GetStreamAccess C _ _ _).bind _ = _
  rw [eC, Option.some_bind]
  show (readBytes C _ _).bind _ = _
  rw [rC, Option.some_bind, hn, Option.some_bind]
  rw [show check (decide ((0 : Int) ≤ (ch : Int))) = some () from by
    simp [check], Option.some_bind]
  show (GetStreamAccess U _ _ _).bind _ = _
  rw [eU, Option.some_bind, Int.toNat_natCast]
  show (GetVertexUVs cv uvhi U _ 0 ch).bind _ = _
  rw [rU, Option.some_bind]
  rfl

end FRuntimeMeshVerticesAccessor

/-! ### CopyTo -/

namespace FRuntimeMeshAccessor

theorem CopyIndices_spec (sw : Bool) (SS : TArray) (sv : Int) (w : Bool) :
    ∀ (n Index : Nat) (DS : TArray) (M : Nat), DS.length = M * indexWidth w →
      (Index + n) * indexWidth sw ≤ SS.length →
      ∃ tail, CopyIndices ⟨true, SS, sw⟩ sv Index n ⟨true, DS, w⟩ = some ⟨true, DS ++ tail, w⟩ ∧
        tail.length = n * indexWidth w ∧
        ∀ k, k < n → slice tail (k * indexWidth w) (indexWidth w) =
          indexBytes w (addInt32
            (indexValue sw (slice SS ((Index + k) * indexWidth sw) (indexWidth sw))) sv) := by
  intro n
  induction n with
  | zero =>
    intro Index DS M _ _
    exact ⟨[], by simp [CopyIndices], by simp, fun k hk => absurd hk (Nat.not_lt_zero k)⟩
  | succ n ih =>
    intro Index DS M hDS hSS
    have hsw : 0 < indexWidth sw := by cases sw <;> simp [indexWidth]
    have g := FRuntimeMeshIndicesAccessor.GetIndex_eq ⟨true, SS, sw⟩ Index rfl
      (by simp only; nlinarith)
    simp only at g
    generalize hv : addInt32 (indexValue sw (slice SS (Index * indexWidth sw) (indexWidth sw))) sv
      = v0 at *
    have a := FRuntimeMeshIndicesAccessor.AddIndex_aligned w DS M v0 hDS
    obtain ⟨tail, h1, h2, h3⟩ := ih (Index + 1) (DS ++ indexBytes w v0) (M + 1)
      (by rw [List.length_append, length_indexBytes, hDS]; ring)
      (by rw [show Index + 1 + n = Index + (n + 1) by omega]; exact hSS)
    refine ⟨indexBytes w v0 ++ tail, ?_, ?_, ?_⟩
    · simp only [CopyIndices, g, hv, a, h1, Option.bind_eq_bind, Option.some_bind,
        List.append_assoc]
    · rw [List.length_append, length_indexBytes, h2]; ring
    · intro k hk
      cases k with
      | zero =>
        rw [Nat.zero_mul, Nat.add_zero, hv, slice_append_left _ _ _ _
          (by rw [length_indexBytes]; omega)]
        have := slice_full (indexBytes w v0)
        rw [length_indexBytes] at this
        exact this
      | succ k =>
        have := h3 k (by omega)
        rw [show Index + 1 + k = Index + (k + 1) by omega] at this
        rw [← this]
        have e : (k + 1) * indexWidth w = (indexBytes w v0).length + k * indexWidth w := by
          rw [length_indexBytes]; ring
        rw [e, slice_append_right]

theorem CopyUVs_spec (cv : EngineConversions) (shi suvhi : Bool) (sch : Nat)
    (SP ST SU SC : TArray) (Index : Nat) (dhi duvhi : Bool) (dch : Nat) (P T U0 C : TArray)
    (N : Nat) (hs8 : sch ≤ 8) (hd8 : dch ≤ 8)
    (hSU : (Index + 1) * (uvSize suvhi * sch) ≤ SU.length)
    (hU0 : U0.length = N * (uvSize duvhi * dch)) :
    ∀ (n UVIndex : Nat) (r : TArray), UVIndex + n ≤ sch → UVIndex + n ≤ dch →
      r.length = uvSize duvhi * dch →
      ∃ r1, CopyUVs cv (FRuntimeMeshVerticesAccessor.create shi suvhi (sch : Int) SP ST SU SC)
          (Index : Int) (N : Int) UVIndex n
          (FRuntimeMeshVerticesAccessor.create dhi duvhi (dch : Int) P T (U0 ++ r) C) =
        some (FRuntimeMeshVerticesAccessor.create dhi duvhi (dch : Int) P T (U0 ++ r1) C) ∧
        r1.length = uvSize duvhi * dch := by
  intro n
  induction n with
  | zero =>
    intro UVIndex r _ _ hr
    exact ⟨r, by simp [CopyUVs], hr⟩
  | succ n ih =>
    intro UVIndex r h1 h2 hr
    have g := FRuntimeMeshVerticesAccessor.GetUV_create cv shi suvhi sch SP ST SU SC Index
      UVIndex (by omega) hs8 hSU
    generalize decodeUV cv suvhi
      (slice SU (Index * (uvSize suvhi * sch) + UVIndex * uvSize suvhi) (uvSize suvhi)) = uv at g
    have hlen : (U0 ++ r).length = (N + 1) * (uvSize duvhi * dch) := by
      rw [List.length_append, hU0, hr]; ring
    have w := FRuntimeMeshVerticesAccessor.SetUV_create cv dhi duvhi dch P T (U0 ++ r) C N
      UVIndex uv (by omega) hd8 (by rw [hlen])
    have hfit : UVIndex * uvSize duvhi + (encodeUV cv duvhi uv).length ≤ r.length := by
      have : (UVIndex + 1) * uvSize duvhi ≤ dch * uvSize duvhi :=
        Nat.mul_le_mul_right _ (by omega)
      rw [length_encodeUV, hr]
      nlinarith
    rw [← hU0, patch_append_right _ _ _ _ hfit] at w
    obtain ⟨r1, e1, e2⟩ := ih (UVIndex + 1)
      (patch r (UVIndex * uvSize duvhi) (encodeUV cv duvhi uv)) (by omega) (by omega)
      (by rw [length_patch _ _ _ hfit, hr])
    refine ⟨r1, ?_, e2⟩
    simp only [CopyUVs, g, w, e1, Option.bind_eq_bind, Option.some_bind]

theorem CopyVertices_spec (cv : EngineConversions) (shi suvhi : Bool) (sch : Nat)
    (SP ST SU SC : TArray) (Ns : Nat) (dhi duvhi : Bool) (dch : Nat)
    (hs8 : sch ≤ 8) (hd8 : dch ≤ 8) (hS : HoldsRecords shi suvhi sch Ns SP ST SU SC) :
    ∀ (n Index : Nat) (P T U C : TArray) (N : Nat), Index + n ≤ Ns →
      HoldsRecords dhi duvhi dch N P T U C →
      ∃ tp tt tu tc, CopyVertices cv
          (FRuntimeMeshVerticesAccessor.create shi suvhi (sch : Int) SP ST SU SC)
          (min (sch : Int) (dch : Int)) Index n
          (FRuntimeMeshVerticesAccessor.create dhi duvhi (dch : Int) P T U C) =
        some (FRuntimeMeshVerticesAccessor.create dhi duvhi (dch : Int)
          (P ++ tp) (T ++ tt) (U ++ tu) (C ++ tc)) ∧
        HoldsRecords dhi duvhi dch n tp tt tu tc ∧
        (∀ k, k < n → slice tp (k * 12) 12 =
          encodeFVector (decodeFVector (slice SP ((Index + k) * 12) 12))) ∧
        (∀ k, k < n → slice tc (k * 4) 4 =
          encodeFColor (decodeFColor (slice SC ((Index + k) * 4) 4))) := by
  intro n
  induction n with
  | zero =>
    intro Index P T U C N _ _
    refine ⟨[], [], [], [], by simp [CopyVertices], by simp [HoldsRecords],
      fun k hk => absurd hk (Nat.not_lt_zero k), fun k hk => absurd hk (Nat.not_lt_zero k)⟩
  | succ n ih =>
    intro Index P T U C N hI hD
    obtain ⟨hSP, hST, hSU, hSC⟩ := hS
    obtain ⟨hP, hT, hU, hC⟩ := hD
    have hps : 0 < packedSize dhi := by cases dhi <;> simp [packedSize]
    have hidx : Index + 1 ≤ Ns := by omega
    have gp := FRuntimeMeshVerticesAccessor.GetPosition_create shi suvhi (sch : Int) SP ST SU SC
      Index (by rw [hSP]; exact Nat.mul_le_mul_right _ hidx)
    have gn := FRuntimeMeshVerticesAccessor.GetNormal_create cv shi suvhi (sch : Int) SP ST SU SC
      Index (by rw [hST]; exact Nat.mul_le_mul_right _ hidx)
    have gt := FRuntimeMeshVerticesAccessor.GetTangent_create cv shi suvhi (sch : Int) SP ST SU SC
      Index (by rw [hST]; exact Nat.mul_le_mul_right _ hidx)
    have gc := FRuntimeMeshVerticesAccessor.GetColor_create shi suvhi (sch : Int) SP ST SU SC
      Index (by rw [hSC]; exact Nat.mul_le_mul_right _ hidx)
    generalize hposd : decodeFVector (slice SP (Index * 12) 12) = pos at gp
    generalize decodeNormal cv shi (slice ST (Index * (2 * packedSize shi)) (packedSize shi))
      = nrm at gn
    generalize decodeTangent cv shi
      (slice ST (Index * (2 * packedSize shi) + packedSize shi) (packedSize shi)) = tan at gt
    generalize hcold : decodeFColor (slice SC (Index * 4) 4) = col at gc
    have hN : P.length / 12 = N := by rw [hP]; exact Nat.mul_div_cancel _ (by norm_num)
    have av := FRuntimeMeshVerticesAccessor.AddVertex_create dhi duvhi dch P T U C pos
    rw [hN, ← hP, patch_append_end _ _ _ (by rw [length_encodeFVector, List.length_replicate])]
      at av
    have sn := FRuntimeMeshVerticesAccessor.SetNormal_create cv dhi duvhi (dch : Int)
      (P ++ encodeFVector pos) (T ++ List.replicate (2 * packedSize dhi) 0)
      (U ++ List.replicate (uvSize duvhi * dch) 0) (C ++ List.replicate 4 0) N nrm
      (by rw [List.length_append, List.length_replicate, hT, Nat.add_mul, Nat.one_mul])
    have hn0 : N * (2 * packedSize dhi) = T.length + 0 := by rw [hT]; rfl
    rw [hn0, patch_append_right _ _ _ _
      (by rw [length_encodeNormal, List.length_replicate]; omega)] at sn
    have l1 : (patch (List.replicate (2 * packedSize dhi) 0) 0 (encodeNormal cv dhi nrm)).length
        = 2 * packedSize dhi := by
      rw [length_patch _ _ _ (by rw [length_encodeNormal, List.length_replicate]; omega),
        List.length_replicate]
    have st := FRuntimeMeshVerticesAccessor.SetTangent_create cv dhi duvhi (dch : Int)
      (P ++ encodeFVector pos)
      (T ++ patch (List.replicate (2 * packedSize dhi) 0) 0 (encodeNormal cv dhi nrm))
      (U ++ List.replicate (uvSize duvhi * dch) 0) (C ++ List.replicate 4 0) N tan
      (by rw [List.length_append, l1, hT, Nat.add_mul, Nat.one_mul])
    rw [← hT, patch_append_right _ _ _ _ (by rw [length_encodeTangent, l1]; omega)] at st
    have l2 : (patch (patch (List.replicate (2 * packedSize dhi) 0) 0 (encodeNormal cv dhi nrm))
        (packedSize dhi) (encodeTangent cv dhi tan)).length = 2 * packedSize dhi := by
      rw [length_patch _ _ _ (by rw [length_encodeTangent, l1]; omega), l1]
    generalize patch (patch (List.replicate (2 * packedSize dhi) 0) 0 (encodeNormal cv dhi nrm))
        (packedSize dhi) (encodeTangent cv dhi tan) = trec at st l2
    have sc := FRuntimeMeshVerticesAccessor.SetColor_create dhi duvhi (dch : Int)
      (P ++ encodeFVector pos) (T ++ trec)
      (U ++ List.replicate (uvSize duvhi * dch) 0) (C ++ List.replicate 4 0) N col
      (by rw [List.length_append, List.length_replicate, hC]; omega)
    rw [← hC, patch_append_end _ _ _ (by rw [length_encodeFColor, List.length_replicate])] at sc
    have hmin : (min (sch : Int) (dch : Int)).toNat = min sch dch := by omega
    obtain ⟨urec, cu, lu⟩ := CopyUVs_spec cv shi suvhi sch SP ST SU SC Index dhi duvhi dch
      (P ++ encodeFVector pos) (T ++ trec) U (C ++ encodeFColor col) N hs8 hd8
      (by rw [hSU]; exact Nat.mul_le_mul_right _ hidx) hU (min sch dch) 0
      (List.replicate (uvSize duvhi * dch) 0) (by omega) (by omega) (List.length_replicate _ _)
    obtain ⟨tp, tt, tu, tc, e, ⟨q1, q2, q3, q4⟩, hpos, hcol⟩ := ih (Index + 1)
      (P ++ encodeFVector pos) (T ++ trec) (U ++ urec) (C ++ encodeFColor col) (N + 1)
      (by omega)
      ⟨by rw [List.length_append, length_encodeFVector, hP]; ring,
       by rw [List.length_append, l2, hT]; ring,
       by rw [List.length_append, lu, hU]; ring,
       by rw [List.length_append, length_encodeFColor, hC]; ring⟩
    refine ⟨encodeFVector pos ++ tp, trec ++ tt, urec ++ tu, encodeFColor col ++ tc, ?_,
      ⟨?_, ?_, ?_, ?_⟩, ?_, ?_⟩
    · simp only [CopyVertices, gp, av, gn, sn, gt, st, gc, sc, hmin, Nat.cast_zero, cu, e,
        Option.bind_eq_bind, Option.some_bind, List.append_assoc]
    · rw [List.length_append, length_encodeFVector, q1]; ring
    · rw [List.length_append, l2, q2]; ring
    · rw [List.length_append, lu, q3]; ring
    · rw [List.length_append, length_encodeFColor, q4]; ring
    · intro k hk
      cases k with
      | zero =>
        rw [Nat.zero_mul, Nat.add_zero, hposd, slice_append_left _ _ _ _
          (by rw [length_encodeFVector])]
        have := slice_full (encodeFVector pos)
        rw [length_encodeFVector] at this
        exact this
      | succ k =>
        have := hpos k (by omega)
        rw [show Index + 1 + k = Index + (k + 1) by omega] at this
        rw [← this]
        have e : (k + 1) * 12 = (encodeFVector pos).length + k * 12 := by
          rw [length_encodeFVector]; ring
        rw [e, slice_append_right]
    · intro k hk
      cases k with
      | zero =>
        rw [Nat.zero_mul, Nat.add_zero, hcold, slice_append_left _ _ _ _
          (by rw [length_encodeFColor])]
        have := slice_full (encodeFColor col)
        rw [length_encodeFColor] at this
        exact this
      | succ k =>
        have := hcol k (by omega)
        rw [show Index + 1 + k = Index + (k + 1) by omega] at this
        rw [← this]
        have e : (k + 1) * 4 = (encodeFColor col).length + k * 4 := by
          rw [length_encodeFColor]; ring
        rw [e, slice_append_right]

theorem CopyTo_append_spec (cv : EngineConversions) (shi suvhi : Bool) (sch : Nat)
    (SP ST SU SC SI : TArray) (sw : Bool) (Ns Ms : Nat) (dhi duvhi : Bool) (dch : Nat)
    (P T U C DI : TArray) (w : Bool) (N M : Nat)
    (hs8 : sch ≤ 8) (hd8 : dch ≤ 8) (hS : HoldsRecords shi suvhi sch Ns SP ST SU SC)
    (hSI : SI.length = Ms * indexWidth sw) (hD : HoldsRecords dhi duvhi dch N P T U C)
    (hDI : DI.length = M * indexWidth w) :
    ∃ tp tt tu tc ti,
      CopyTo cv ⟨FRuntimeMeshVerticesAccessor.create shi suvhi (sch : Int) SP ST SU SC,
          ⟨true, SI, sw⟩⟩
        ⟨FRuntimeMeshVerticesAccessor.create dhi duvhi (dch : Int) P T U C, ⟨true, DI, w⟩⟩ false =
        some ⟨FRuntimeMeshVerticesAccessor.create dhi duvhi (dch : Int)
          (P ++ tp) (T ++ tt) (U ++ tu) (C ++ tc), ⟨true, DI ++ ti, w⟩⟩ ∧
      HoldsRecords dhi duvhi dch Ns tp tt tu tc ∧
      (∀ k, k < Ns → slice tp (k * 12) 12 =
        encodeFVector (decodeFVector (slice SP (k * 12) 12))) ∧
      (∀ k, k < Ns → slice tc (k * 4) 4 =
        encodeFColor (decodeFColor (slice SC (k * 4) 4))) ∧
      ti.length = Ms * indexWidth w ∧
      ∀ k, k < Ms → slice ti (k * indexWidth w) (indexWidth w) =
        indexBytes w (addInt32
          (indexValue sw (slice SI (k * indexWidth sw) (indexWidth sw))) (N : Int)) := by
  have hsw : 0 < indexWidth sw := by cases sw <;> simp [indexWidth]
  obtain ⟨tp, tt, tu, tc, e, hrec, hpos, hcol⟩ := CopyVertices_spec cv shi suvhi sch SP ST SU SC
    Ns dhi duvhi dch hs8 hd8 hS Ns 0 P T U C N (by omega) hD
  obtain ⟨ti, ei, li, hi⟩ := CopyIndices_spec sw SI (N : Int) w Ms 0 DI M hDI
    (by rw [hSI, Nat.zero_add])
  refine ⟨tp, tt, tu, tc, ti, ?_, hrec, ?_, ?_, li, ?_⟩
  · have n1 := FRuntimeMeshVerticesAccessor.NumVertices_create dhi duvhi (dch : Int) P T U C
    have n2 := FRuntimeMeshVerticesAccessor.NumVertices_create shi suvhi (sch : Int) SP ST SU SC
    have hN : P.length / 12 = N := by rw [hD.1]; exact Nat.mul_div_cancel _ (by norm_num)
    have hNs : SP.length / 12 = Ns := by rw [hS.1]; exact Nat.mul_div_cancel _ (by norm_num)
    have n3 := FRuntimeMeshIndicesAccessor.NumIndices_eq ⟨true, SI, sw⟩ rfl
    have hMs : SI.length / indexWidth sw = Ms := by rw [hSI]; exact Nat.mul_div_cancel _ hsw
    simp only [hMs] at n3
    rw [hN] at n1
    rw [hNs] at n2
    unfold CopyTo
    simp only [Option.bind_eq_bind, Option.pure_def]
    rw [if_neg Bool.false_ne_true, Option.some_bind, n1, Option.some_bind, n2, Option.some_bind,
      FRuntimeMeshVerticesAccessor.NumUVChannels_create, Option.some_bind,
      FRuntimeMeshVerticesAccessor.NumUVChannels_create, Option.some_bind, Int.toNat_natCast, e,
      Option.some_bind, n3, Option.some_bind, Int.toNat_natCast, ei, Option.some_bind]
  · intro k hk
    have := hpos k hk
    rwa [Nat.zero_add] at this
  · intro k hk
    have := hcol k hk
    rwa [Nat.zero_add] at this
  · intro k hk
    have := hi k hk
    rwa [Nat.zero_add] at this

theorem CopyTo_clear_spec (cv : EngineConversions) (shi suvhi : Bool) (sch : Nat)
    (SP ST SU SC SI : TArray) (sw : Bool) (Ns Ms : Nat) (dhi duvhi : Bool) (dch : Nat)
    (P T U C DI : TArray) (w : Bool)
    (hs8 : sch ≤ 8) (hd8 : dch ≤ 8) (hS : HoldsRecords shi suvhi sch Ns SP ST SU SC)
    (hSI : SI.length = Ms * indexWidth sw) :
    ∃ tp tt tu tc ti,
      CopyTo cv ⟨FRuntimeMeshVerticesAccessor.create shi suvhi (sch : Int) SP ST SU SC,
          ⟨true, SI, sw⟩⟩
        ⟨FRuntimeMeshVerticesAccessor.create dhi duvhi (dch : Int) P T U C, ⟨true, DI, w⟩⟩ true =
        some ⟨FRuntimeMeshVerticesAccessor.create dhi duvhi (dch : Int) tp tt tu tc,
          ⟨true, ti, w⟩⟩ ∧
      HoldsRecords dhi duvhi dch Ns tp tt tu tc ∧
      (∀ k, k < Ns → slice tp (k * 12) 12 =
        encodeFVector (decodeFVector (slice SP (k * 12) 12))) ∧
      (∀ k, k < Ns → slice tc (k * 4) 4 =
        encodeFColor (decodeFColor (slice SC (k * 4) 4))) ∧
      ti.length = Ms * indexWidth w ∧
      ∀ k, k < Ms → slice ti (k * indexWidth w) (indexWidth w) =
        indexBytes w (addInt32
          (indexValue sw (slice SI (k * indexWidth sw) (indexWidth sw))) 0) := by
  have hsw : 0 < indexWidth sw := by cases sw <;> simp [indexWidth]
  obtain ⟨tp, tt, tu, tc, e, hrec, hpos, hcol⟩ := CopyVertices_spec cv shi suvhi sch SP ST SU SC
    Ns dhi duvhi dch hs8 hd8 hS Ns 0 [] [] [] [] 0 (by omega) (by simp [HoldsRecords])
  obtain ⟨ti, ei, li, hi⟩ := CopyIndices_spec sw SI ((0 : Nat) : Int) w Ms 0 [] 0 (by simp)
    (by rw [hSI, Nat.zero_add])
  rw [List.nil_append] at ei
  simp only [List.nil_append] at e
  refine ⟨tp, tt, tu, tc, ti, ?_, hrec, ?_, ?_, li, ?_⟩
  · have n1 := FRuntimeMeshVerticesAccessor.NumVertices_create dhi duvhi (dch : Int) [] [] [] []
    have n2 := FRuntimeMeshVerticesAccessor.NumVertices_create shi suvhi (sch : Int) SP ST SU SC
    have hNs : SP.length / 12 = Ns := by rw [hS.1]; exact Nat.mul_div_cancel _ (by norm_num)
    have n3 := FRuntimeMeshIndicesAccessor.NumIndices_eq ⟨true, SI, sw⟩ rfl
    have hMs : SI.length / indexWidth sw = Ms := by rw [hSI]; exact Nat.mul_div_cancel _ hsw
    simp only [hMs] at n3
    rw [hNs] at n2
    have hz : ([] : TArray).length / 12 = 0 := rfl
    rw [hz] at n1
    have ev := FRuntimeMeshVerticesAccessor.EmptyVertices_create dhi duvhi (dch : Int) P T U C Ns
    have ec : (FRuntimeMeshIndicesAccessor.mk true DI w).EmptyIndices (Ms : Int) =
        some ⟨true, [], w⟩ := by
      have h0 : (0 : Int) ≤ (Ms : Int) *
          (FRuntimeMeshIndicesAccessor.mk true DI w).GetIndexStride := by
        rw [FRuntimeMeshIndicesAccessor.GetIndexStride_eq]
        positivity
      simp only [FRuntimeMeshIndicesAccessor.EmptyIndices, check, TArray.Empty, h0, if_true,
        Option.bind_eq_bind, Option.some_bind, Option.pure_def]
    unfold CopyTo
    rw [if_pos rfl]
    simp only [Option.bind_eq_bind, Option.pure_def]
    rw [n2, Option.some_bind, ev, Option.some_bind, n3, Option.some_bind, ec, Option.some_bind,
      Option.some_bind, n1, Option.some_bind, Option.some_bind,
      FRuntimeMeshVerticesAccessor.NumUVChannels_create, Option.some_bind,
      FRuntimeMeshVerticesAccessor.NumUVChannels_create, Option.some_bind, Int.toNat_natCast, e,
      Option.some_bind, Option.some_bind, Int.toNat_natCast, ei, Option.some_bind]
  · intro k hk
    have := hpos k hk
    rwa [Nat.zero_add] at this
  · intro k hk
    have := hcol k hk
    rwa [Nat.zero_add] at this
  · intro k hk
    have := hi k hk
    rwa [Nat.zero_add] at this

end FRuntimeMeshAccessor

/-- C1 (as stated, refuted): on a freshly initialized accessor with 16-bit indices,
`AddTriangle(65536, 1, 2)` returns position 0 and then `GetIndex(0)` is 0, not 65536. -/
theorem AddTriangle_GetIndex_not_exact :
    (FRuntimeMeshIndicesAccessor.new []).Initialize false = some ⟨true, [], false⟩ ∧
    IsInt32 65536 ∧
    (FRuntimeMeshIndicesAccessor.mk true [] false).AddTriangle 65536 1 2
      = some (0, ⟨true, [0, 0, 1, 0, 2, 0], false⟩) ∧
    (FRuntimeMeshIndicesAccessor.mk true [0, 0, 1, 0, 2, 0] false).GetIndex 0 = some 0 ∧
    (FRuntimeMeshIndicesAccessor.mk true [0, 0, 1, 0, 2, 0] false).GetIndex 0 ≠ some 65536 := by
  decide

/-- C1 (amended): for every initialized index accessor and all `int32` values `a`, `b`, `c`,
`AddTriangle(a, b, c)` returns a position `p` such that `GetIndex(p)`, `GetIndex(p+1)` and
`GetIndex(p+2)` are `a`, `b`, `c` exactly with 32-bit indices, and `a`, `b`, `c` modulo
`2^16` with 16-bit indices. -/
theorem AddTriangle_GetIndex (self : FRuntimeMeshIndicesAccessor) (a b c : Int)
    (hinit : self.bIsInitialized = true) (ha : IsInt32 a) (hb : IsInt32 b) (hc : IsInt32 c) :
    ∃ p self1, self.AddTriangle a b c = some (p, self1) ∧
      self1.GetIndex p = some (storedIndex self.b32BitIndices a) ∧
      self1.GetIndex (p + 1) = some (storedIndex self.b32BitIndices b) ∧
      self1.GetIndex (p + 2) = some (storedIndex self.b32BitIndices c) := by
  refine ⟨_, _, FRuntimeMeshIndicesAccessor.AddTriangle_eq self a b c hinit, ?_⟩
  obtain ⟨i, s, w⟩ := self
  simp only at hinit ⊢
  subst hinit
  have hw : 0 < indexWidth w := by cases w <;> simp [indexWidth]
  have hN : s.length / indexWidth w * indexWidth w ≤ s.length := Nat.div_mul_le_self _ _
  generalize s.length / indexWidth w = N at hN ⊢
  have l0 : (s ++ List.replicate (indexWidth w * 3) 0).length = s.length + indexWidth w * 3 := by
    simp
  have b0 : N * indexWidth w + (indexBytes w a).length ≤
      (s ++ List.replicate (indexWidth w * 3) 0).length := by
    rw [length_indexBytes, l0]; nlinarith
  have l1 := length_patch _ _ _ b0
  have b1 : (N + 1) * indexWidth w + (indexBytes w b).length ≤
      (patch (s ++ List.replicate (indexWidth w * 3) 0) (N * indexWidth w)
        (indexBytes w a)).length := by
    rw [length_indexBytes, l1, l0]; nlinarith
  have l2 := length_patch _ _ _ b1
  have b2 : (N + 2) * indexWidth w + (indexBytes w c).length ≤
      (patch (patch (s ++ List.replicate (indexWidth w * 3) 0) (N * indexWidth w)
        (indexBytes w a)) ((N + 1) * indexWidth w) (indexBytes w b)).length := by
    rw [length_indexBytes, l2, l1, l0]; nlinarith
  have l3 := length_patch _ _ _ b2
  have c1 : ((N : Nat) : Int) + 1 = ((N + 1 : Nat) : Int) := by push_cast; rfl
  have c2 : ((N : Nat) : Int) + 2 = ((N + 2 : Nat) : Int) := by push_cast; rfl
  rw [c1, c2]
  have hlen : ∀ k, k < 3 → (k + 1 + N) * indexWidth w ≤
      (patch (patch (patch (s ++ List.replicate (indexWidth w * 3) 0) (N * indexWidth w)
        (indexBytes w a)) ((N + 1) * indexWidth w) (indexBytes w b)) ((N + 2) * indexWidth w)
        (indexBytes w c)).length := by
    intro k hk
    rw [l3, l2, l1, l0]
    nlinarith
  have g0 := FRuntimeMeshIndicesAccessor.GetIndex_eq ⟨true, _, w⟩ N rfl
    (by have := hlen 0 (by omega); simp only at this ⊢; rw [show N + 1 = 0 + 1 + N by omega]; exact this)
  have g1 := FRuntimeMeshIndicesAccessor.GetIndex_eq ⟨true, _, w⟩ (N + 1) rfl
    (by have := hlen 1 (by omega); simp only at this ⊢; rw [show N + 1 + 1 = 1 + 1 + N by omega]; exact this)
  have g2 := FRuntimeMeshIndicesAccessor.GetIndex_eq ⟨true, _, w⟩ (N + 2) rfl
    (by have := hlen 2 (by omega); simp only at this ⊢; rw [show N + 2 + 1 = 2 + 1 + N by omega]; exact this)
  simp only at g0 g1 g2
  have s0 := slice_patch_same _ _ _ b0
  have s1 := slice_patch_same _ _ _ b1
  have s2 := slice_patch_same _ _ _ b2
  rw [length_indexBytes] at s0 s1 s2
  refine ⟨?_, ?_, ?_⟩
  · rw [g0, slice_patch_disjoint _ _ _ _ _ b2 (Or.inl (by nlinarith)),
      slice_patch_disjoint _ _ _ _ _ b1 (Or.inl (by nlinarith)), s0,
      indexValue_indexBytes _ _ ha]
  · rw [g1, slice_patch_disjoint _ _ _ _ _ b2 (Or.inl (by nlinarith)), s1,
      indexValue_indexBytes _ _ hb]
  · rw [g2, s2, indexValue_indexBytes _ _ hc]

/-- Witness for C1 (amended): a 32-bit accessor holding one index, and the triangle
`(-1, 70000, 2)`. -/
theorem AddTriangle_GetIndex_witness :
    ∃ p self1, (FRuntimeMeshIndicesAccessor.mk true [5, 0, 0, 0] true).AddTriangle (-1) 70000 2
        = some (p, self1) ∧
      self1.GetIndex p = some (storedIndex true (-1)) ∧
      self1.GetIndex (p + 1) = some (storedIndex true 70000) ∧
      self1.GetIndex (p + 2) = some (storedIndex true 2) :=
  AddTriangle_GetIndex ⟨true, [5, 0, 0, 0], true⟩ (-1) 70000 2 rfl (by decide) (by decide)
    (by decide)

theorem addInt32_emod (a b : Int) : addInt32 a b % 65536 = (a + b) % 65536 := by
  unfold addInt32 toInt32 toUInt32
  have h1 : (0 : Int) ≤ (a + b) % 4294967296 := Int.emod_nonneg _ (by norm_num)
  have h2 : (a + b) % 4294967296 < 4294967296 := Int.emod_lt_of_pos _ (by norm_num)
  split <;> omega

theorem addInt32_eq (a b : Int) (h : IsInt32 (a + b)) : addInt32 a b = a + b :=
  toInt32_toUInt32 _ h

theorem indexValue_indexBytes_false (v : Int) :
    indexValue false (indexBytes false v) = v % 65536 := by
  have h1 : (0 : Int) ≤ v % 65536 := Int.emod_nonneg _ (by norm_num)
  have h2 : v % 65536 < 65536 := Int.emod_lt_of_pos _ (by norm_num)
  simp only [indexValue, indexBytes, toUInt16, Bool.false_eq_true, if_false,
    fromBytesLE_toBytesLE]
  rw [Nat.mod_eq_of_lt (by norm_num; omega)]
  omega

namespace FRuntimeMeshAccessor

theorem explicit_of_isMesh (A : FRuntimeMeshAccessor) (h : A.IsMesh) :
    ∃ ch N M : Nat, 1 ≤ ch ∧ ch ≤ 8 ∧
      A = ⟨FRuntimeMeshVerticesAccessor.create A.Vertices.bTangentHighPrecision
            A.Vertices.bUVHighPrecision (ch : Int) A.Vertices.PositionStream
            A.Vertices.TangentStream A.Vertices.UVStream A.Vertices.ColorStream,
          ⟨true, A.Indices.IndexStream, A.Indices.b32BitIndices⟩⟩ ∧
      HoldsRecords A.Vertices.bTangentHighPrecision A.Vertices.bUVHighPrecision ch N
        A.Vertices.PositionStream A.Vertices.TangentStream A.Vertices.UVStream
        A.Vertices.ColorStream ∧
      A.Vertices.PositionStream.length / 12 = N ∧
      A.Indices.IndexStream.length = M * indexWidth A.Indices.b32BitIndices ∧
      A.Indices.IndexStream.length / indexWidth A.Indices.b32BitIndices = M := by
  obtain ⟨hinit, ⟨hc1, hc8⟩, ⟨l1, l2, l3, l4⟩, hii, li⟩ := h
  have hcr := FRuntimeMeshVerticesAccessor.eq_create_of_isInitialized _ hinit
  obtain ⟨V, ⟨ii, IS, w⟩⟩ := A
  simp only at hinit hc1 hc8 l1 l2 l3 l4 hii li hcr ⊢
  subst hii
  have hch : V.UVChannelCount = ((V.UVChannelCount.toNat : Nat) : Int) := by omega
  have hts : V.TangentStride = ((2 * packedSize V.bTangentHighPrecision : Nat) : Int) := by
    rw [hcr]
    cases V.bTangentHighPrecision <;> rfl
  have hus : V.UVStride =
      ((uvSize V.bUVHighPrecision * V.UVChannelCount.toNat : Nat) : Int) := by
    rw [hcr]
    simp only [FRuntimeMeshVerticesAccessor.create, FRuntimeMeshVerticesAccessor.Initialize,
      FRuntimeMeshVerticesAccessor.new]
    push_cast
    rw [← hch]
    cases V.bUVHighPrecision <;> simp [uvSize]
  have hw : 0 < indexWidth w := by cases w <;> simp [indexWidth]
  refine ⟨V.UVChannelCount.toNat, V.PositionStream.length / 12, IS.length / indexWidth w,
    by omega, by omega, ?_, ⟨?_, ?_, ?_, ?_⟩, rfl, ?_, rfl⟩
  · rw [← hch, ← hcr]
  · simp only [TArray.Num, PositionStride] at l1
    omega
  · simp only [TArray.Num, PositionStride] at l2
    rw [hts] at l2
    exact_mod_cast l2
  · simp only [TArray.Num, PositionStride] at l3
    rw [hus] at l3
    exact_mod_cast l3
  · simp only [TArray.Num, PositionStride, ColorStride] at l4
    omega
  · unfold FRuntimeMeshIndicesAccessor.LengthInv at li
    rw [FRuntimeMeshIndicesAccessor.GetIndexStride_eq] at li
    simp only [TArray.Num] at li
    exact_mod_cast li


/-- C3: for meshes `B` and `A` (distinct objects), `B.CopyTo(A, false)` succeeds and each of
the five streams of `A` after the copy has the stream before the copy as a prefix; so every
vertex attribute and every index that `A` held reads back unchanged. -/
theorem CopyTo_keeps_destination (cv : EngineConversions) (B A : FRuntimeMeshAccessor)
    (hB : B.IsMesh) (hA : A.IsMesh) :
    ∃ A1, B.CopyTo cv A false = some A1 ∧
      A.Vertices.PositionStream <+: A1.Vertices.PositionStream ∧
      A.Vertices.TangentStream <+: A1.Vertices.TangentStream ∧
      A.Vertices.UVStream <+: A1.Vertices.UVStream ∧
      A.Vertices.ColorStream <+: A1.Vertices.ColorStream ∧
      A.Indices.IndexStream <+: A1.Indices.IndexStream ∧
      (∀ n, A.Vertices.NumVertices = some n → ∀ i : Nat, (i : Int) < n →
        (∃ p, A.Vertices.GetPosition i = some p ∧ A1.Vertices.GetPosition i = some p) ∧
        (∃ v, A.Vertices.GetNormal cv i = some v ∧ A1.Vertices.GetNormal cv i = some v) ∧
        (∃ t, A.Vertices.GetTangent cv i = some t ∧ A1.Vertices.GetTangent cv i = some t) ∧
        (∃ c, A.Vertices.GetColor i = some c ∧ A1.Vertices.GetColor i = some c) ∧
        (∀ ch : Nat, (ch : Int) < A.Vertices.UVChannelCount →
          ∃ uv, A.Vertices.GetUV cv i ch = some uv ∧ A1.Vertices.GetUV cv i ch = some uv)) ∧
      (∀ m, A.Indices.NumIndices = some m → ∀ j : Nat, (j : Int) < m →
        ∃ v, A.Indices.GetIndex j = some v ∧ A1.Indices.GetIndex j = some v) := by
  obtain ⟨sch, Ns, Ms, hs1, hs8, eB, hSrec, -, hSI, -⟩ := explicit_of_isMesh B hB
  obtain ⟨dch, N, M, hd1, hd8, eA, hDrec, hN, hDI, hM⟩ := explicit_of_isMesh A hA
  obtain ⟨tp, tt, tu, tc, ti, e, hrec, -, -, hti, -⟩ := CopyTo_append_spec cv
    B.Vertices.bTangentHighPrecision B.Vertices.bUVHighPrecision sch B.Vertices.PositionStream
    B.Vertices.TangentStream B.Vertices.UVStream B.Vertices.ColorStream B.Indices.IndexStream
    B.Indices.b32BitIndices Ns Ms A.Vertices.bTangentHighPrecision A.Vertices.bUVHighPrecision dch
    A.Vertices.PositionStream A.Vertices.TangentStream A.Vertices.UVStream A.Vertices.ColorStream
    A.Indices.IndexStream A.Indices.b32BitIndices N M hs8 hd8 hSrec hSI hDrec hDI
  rw [← eB, ← eA] at e
  have hAch : A.Vertices.UVChannelCount = (dch : Int) := by rw [eA]; rfl
  obtain ⟨hP, hT, hU, hC⟩ := hDrec
  refine ⟨_, e, ⟨tp, rfl⟩, ⟨tt, rfl⟩, ⟨tu, rfl⟩, ⟨tc, rfl⟩, ⟨ti, rfl⟩, ?_, ?_⟩
  · intro n hn i hi
    have hnum : A.Vertices.NumVertices = some ((N : Nat) : Int) := by
      rw [eA, FRuntimeMeshVerticesAccessor.NumVertices_create]
      simp only [hN]
    rw [hnum] at hn
    have hiN : i + 1 ≤ N := by
      have := Option.some.inj hn
      omega
    have bP : (i + 1) * 12 ≤ A.Vertices.PositionStream.length := by
      rw [hP]; exact Nat.mul_le_mul_right _ hiN
    have bT : (i + 1) * (2 * packedSize A.Vertices.bTangentHighPrecision) ≤
        A.Vertices.TangentStream.length := by
      rw [hT]; exact Nat.mul_le_mul_right _ hiN
    have bU : (i + 1) * (uvSize A.Vertices.bUVHighPrecision * dch) ≤
        A.Vertices.UVStream.length := by
      rw [hU]; exact Nat.mul_le_mul_right _ hiN
    have bC : (i + 1) * 4 ≤ A.Vertices.ColorStream.length := by
      rw [hC]; exact Nat.mul_le_mul_right _ hiN
    have hps : 0 < packedSize A.Vertices.bTangentHighPrecision := by
      cases A.Vertices.bTangentHighPrecision <;> simp [packedSize]
    refine ⟨?_, ?_, ?_, ?_, ?_⟩
    · refine ⟨_, by rw [eA]; exact FRuntimeMeshVerticesAccessor.GetPosition_create _ _ _ _ _ _ _ i bP, ?_⟩
      rw [FRuntimeMeshVerticesAccessor.GetPosition_create _ _ _ _ _ _ _ i
        (by rw [List.length_append]; omega), slice_append_left _ _ _ _ (by omega)]
    · refine ⟨_, by rw [eA]; exact FRuntimeMeshVerticesAccessor.GetNormal_create cv _ _ _ _ _ _ _ i bT, ?_⟩
      rw [FRuntimeMeshVerticesAccessor.GetNormal_create cv _ _ _ _ _ _ _ i
        (by rw [List.length_append]; omega), slice_append_left _ _ _ _ (by
          rw [Nat.add_mul, Nat.one_mul] at bT; omega)]
    · refine ⟨_, by rw [eA]; exact FRuntimeMeshVerticesAccessor.GetTangent_create cv _ _ _ _ _ _ _ i bT, ?_⟩
      rw [FRuntimeMeshVerticesAccessor.GetTangent_create cv _ _ _ _ _ _ _ i
        (by rw [List.length_append]; omega), slice_append_left _ _ _ _ (by
          rw [Nat.add_mul, Nat.one_mul] at bT; omega)]
    · refine ⟨_, by rw [eA]; exact FRuntimeMeshVerticesAccessor.GetColor_create _ _ _ _ _ _ _ i bC, ?_⟩
      rw [FRuntimeMeshVerticesAccessor.GetColor_create _ _ _ _ _ _ _ i
        (by rw [List.length_append]; omega), slice_append_left _ _ _ _ (by omega)]
    · intro ch hch
      rw [hAch] at hch
      have hch1 : ch < dch := by exact_mod_cast hch
      have hfit : ch * uvSize A.Vertices.bUVHighPrecision + uvSize A.Vertices.bUVHighPrecision ≤
          uvSize A.Vertices.bUVHighPrecision * dch := by
        have : (ch + 1) * uvSize A.Vertices.bUVHighPrecision ≤
            dch * uvSize A.Vertices.bUVHighPrecision := Nat.mul_le_mul_right _ (by omega)
        nlinarith
      refine ⟨_, by rw [eA]; exact FRuntimeMeshVerticesAccessor.GetUV_create cv _ _ _ _ _ _ _ i ch hch1 hd8 bU, ?_⟩
      rw [FRuntimeMeshVerticesAccessor.GetUV_create cv _ _ _ _ _ _ _ i ch hch1 hd8
        (by rw [List.length_append]; omega), slice_append_left _ _ _ _ (by
          rw [Nat.add_mul, Nat.one_mul] at bU; omega)]
  · intro m hm j hj
    have hnum := FRuntimeMeshIndicesAccessor.NumIndices_eq A.Indices hA.2.2.2.1
    rw [hM] at hnum
    rw [hnum] at hm
    have hjM : j + 1 ≤ M := by
      have := Option.some.inj hm
      omega
    have bI : (j + 1) * indexWidth A.Indices.b32BitIndices ≤ A.Indices.IndexStream.length := by
      rw [hDI]; exact Nat.mul_le_mul_right _ hjM
    refine ⟨_, FRuntimeMeshIndicesAccessor.GetIndex_eq A.Indices j hA.2.2.2.1 bI, ?_⟩
    rw [FRuntimeMeshIndicesAccessor.GetIndex_eq ⟨true, _, _⟩ j rfl
      (by simp only [List.length_append]; omega)]
    simp only
    rw [slice_append_left _ _ _ _ (by rw [Nat.add_mul, Nat.one_mul] at bI; omega)]

end FRuntimeMeshAccessor
namespace FRuntimeMeshAccessor

/-- C2 (as stated, refuted): the destination is the one-vertex sample mesh with 16-bit
indices (`s = 1`, `m = 1`), the source holds the index 65535. After `CopyTo(A, false)` the
destination's index at position `m + 0` is 0, not `65535 + 1`. -/
theorem CopyTo_index_offset_not_exact :
    sampleMeshTopIndex.IsMesh ∧ sampleMeshOne.IsMesh ∧
    sampleMeshOne.Vertices.NumVertices = some 1 ∧ sampleMeshOne.Indices.NumIndices = some 1 ∧
    sampleMeshTopIndex.Indices.GetIndex 0 = some 65535 ∧
    sampleMeshTopIndex.CopyTo sampleConversions sampleMeshOne false =
      some { sampleMeshOne with Indices := ⟨true, [0, 0, 0, 0], false⟩ } ∧
    (FRuntimeMeshIndicesAccessor.mk true [0, 0, 0, 0] false).GetIndex (1 + 0) = some 0 ∧
    (0 : Int) ≠ 65535 + 1 := by
  decide

/-- C2 (amended): for meshes `B` and `A` (distinct objects), with `s = A.NumVertices()` and
`m = A.NumIndices()` before the copy, `B.CopyTo(A, false)` succeeds, afterwards
`A.NumIndices() = m + B.NumIndices()`, and for every `k` below `B.NumIndices()` the index
`A.GetIndex(m + k)` is `B.GetIndex(k) + s` reduced to the destination's index width: it is
`B.GetIndex(k) + s` itself with 32-bit indices when that sum is an `int32`, and
`(B.GetIndex(k) + s) mod 2^16` with 16-bit indices. -/
theorem CopyTo_index_offset (cv : EngineConversions) (B A : FRuntimeMeshAccessor)
    (hB : B.IsMesh) (hA : A.IsMesh) :
    ∃ A1 s m nb, B.CopyTo cv A false = some A1 ∧
      A.Vertices.NumVertices = some s ∧ A.Indices.NumIndices = some m ∧
      B.Indices.NumIndices = some nb ∧ A1.Indices.NumIndices = some (m + nb) ∧
      ∀ k : Nat, (k : Int) < nb → ∃ v, B.Indices.GetIndex k = some v ∧
        (A.Indices.b32BitIndices = true → IsInt32 (v + s) →
          A1.Indices.GetIndex (m + k) = some (v + s)) ∧
        (A.Indices.b32BitIndices = false →
          A1.Indices.GetIndex (m + k) = some ((v + s) % 65536)) := by
  obtain ⟨sch, Ns, Ms, hs1, hs8, eB, hSrec, -, hSI, hMs⟩ := explicit_of_isMesh B hB
  obtain ⟨dch, N, M, hd1, hd8, eA, hDrec, hN, hDI, hM⟩ := explicit_of_isMesh A hA
  obtain ⟨tp, tt, tu, tc, ti, e, hrec, -, -, hti, hval⟩ := CopyTo_append_spec cv
    B.Vertices.bTangentHighPrecision B.Vertices.bUVHighPrecision sch B.Vertices.PositionStream
    B.Vertices.TangentStream B.Vertices.UVStream B.Vertices.ColorStream B.Indices.IndexStream
    B.Indices.b32BitIndices Ns Ms A.Vertices.bTangentHighPrecision A.Vertices.bUVHighPrecision dch
    A.Vertices.PositionStream A.Vertices.TangentStream A.Vertices.UVStream A.Vertices.ColorStream
    A.Indices.IndexStream A.Indices.b32BitIndices N M hs8 hd8 hSrec hSI hDrec hDI
  rw [← eB, ← eA] at e
  have hw : 0 < indexWidth A.Indices.b32BitIndices := by
    cases A.Indices.b32BitIndices <;> simp [indexWidth]
  refine ⟨_, (N : Int), (M : Int), (Ms : Int), e, ?_, ?_, ?_, ?_, ?_⟩
  · rw [eA, FRuntimeMeshVerticesAccessor.NumVertices_create]
    simp only [hN]
  · rw [FRuntimeMeshIndicesAccessor.NumIndices_eq _ hA.2.2.2.1, hM]
  · rw [FRuntimeMeshIndicesAccessor.NumIndices_eq _ hB.2.2.2.1, hMs]
  · rw [FRuntimeMeshIndicesAccessor.NumIndices_eq _ rfl]
    simp only
    rw [List.length_append, hDI, hti, ← Nat.add_mul, Nat.mul_div_cancel _ hw]
    push_cast
    rfl
  · intro k hk
    have hkM : k + 1 ≤ Ms := by omega
    have bS : (k + 1) * indexWidth B.Indices.b32BitIndices ≤ B.Indices.IndexStream.length := by
      rw [hSI]; exact Nat.mul_le_mul_right _ hkM
    refine ⟨_, FRuntimeMeshIndicesAccessor.GetIndex_eq B.Indices k hB.2.2.2.1 bS, ?_⟩
    have hvk := hval k (by omega)
    generalize indexValue B.Indices.b32BitIndices
      (slice B.Indices.IndexStream (k * indexWidth B.Indices.b32BitIndices)
        (indexWidth B.Indices.b32BitIndices)) = v at hvk ⊢
    have bD : (M + k + 1) * indexWidth A.Indices.b32BitIndices ≤
        (A.Indices.IndexStream ++ ti).length := by
      rw [List.length_append, hDI, hti, ← Nat.add_mul]
      exact Nat.mul_le_mul_right _ (by omega)
    have gA := FRuntimeMeshIndicesAccessor.GetIndex_eq
      ⟨true, A.Indices.IndexStream ++ ti, A.Indices.b32BitIndices⟩ (M + k) rfl bD
    simp only at gA
    have hpos : (M + k) * indexWidth A.Indices.b32BitIndices =
        A.Indices.IndexStream.length + k * indexWidth A.Indices.b32BitIndices := by
      rw [hDI, Nat.add_mul]
    rw [hpos, slice_append_right, hvk] at gA
    have hcast : ((M : Int) + (k : Int)) = ((M + k : Nat) : Int) := by push_cast; rfl
    rw [hcast, gA]
    constructor
    · intro h32 hint
      rw [h32, indexValue_indexBytes true _ (by rw [addInt32_eq _ _ hint]; exact hint),
        addInt32_eq _ _ hint]
      rfl
    · intro h16
      rw [h16, indexValue_indexBytes_false, addInt32_emod]

/-- Witness for C2 (amended): the two-vertex sample mesh (32-bit indices 1, 0) appended onto
the one-vertex sample mesh (16-bit indices). -/
theorem CopyTo_index_offset_witness :
    sampleMeshTwo.IsMesh ∧ sampleMeshOne.IsMesh ∧
    ∃ A1 s m nb, sampleMeshTwo.CopyTo sampleConversions sampleMeshOne false = some A1 ∧
      sampleMeshOne.Vertices.NumVertices = some s ∧ sampleMeshOne.Indices.NumIndices = some m ∧
      sampleMeshTwo.Indices.NumIndices = some nb ∧ A1.Indices.NumIndices = some (m + nb) ∧
      ∀ k : Nat, (k : Int) < nb → ∃ v, sampleMeshTwo.Indices.GetIndex k = some v ∧
        (sampleMeshOne.Indices.b32BitIndices = true → IsInt32 (v + s) →
          A1.Indices.GetIndex (m + k) = some (v + s)) ∧
        (sampleMeshOne.Indices.b32BitIndices = false →
          A1.Indices.GetIndex (m + k) = some ((v + s) % 65536)) :=
  ⟨by decide, by decide,
    CopyTo_index_offset sampleConversions sampleMeshTwo sampleMeshOne (by decide) (by decide)⟩

end FRuntimeMeshAccessor

namespace FRuntimeMeshAccessor

/-- Witness for C3: the two-vertex sample mesh appended onto the one-vertex sample mesh. -/
theorem CopyTo_keeps_destination_witness :
    sampleMeshTwo.IsMesh ∧ sampleMeshOne.IsMesh ∧
    ∃ A1, sampleMeshTwo.CopyTo sampleConversions sampleMeshOne false = some A1 ∧
      sampleMeshOne.Vertices.PositionStream <+: A1.Vertices.PositionStream ∧
      sampleMeshOne.Vertices.TangentStream <+: A1.Vertices.TangentStream ∧
      sampleMeshOne.Vertices.UVStream <+: A1.Vertices.UVStream ∧
      sampleMeshOne.Vertices.ColorStream <+: A1.Vertices.ColorStream ∧
      sampleMeshOne.Indices.IndexStream <+: A1.Indices.IndexStream :=
  ⟨by decide, by decide,
    (CopyTo_keeps_destination sampleConversions sampleMeshTwo sampleMeshOne (by decide)
      (by decide)).imp fun _ h => ⟨h.1, h.2.1, h.2.2.1, h.2.2.2.1, h.2.2.2.2.1, h.2.2.2.2.2.1⟩⟩

end FRuntimeMeshAccessor

namespace FRuntimeMeshAccessor

end FRuntimeMeshAccessor

namespace FRuntimeMeshVerticesAccessor

theorem explicit_of_inv (acc : FRuntimeMeshVerticesAccessor) (hinit : acc.IsInitialized)
    (hch : acc.ValidChannels) (hinv : acc.LengthInv) :
    ∃ ch N : Nat, 1 ≤ ch ∧ ch ≤ 8 ∧ acc.UVChannelCount = (ch : Int) ∧
      acc = create acc.bTangentHighPrecision acc.bUVHighPrecision (ch : Int)
        acc.PositionStream acc.TangentStream acc.UVStream acc.ColorStream ∧
      HoldsRecords acc.bTangentHighPrecision acc.bUVHighPrecision ch N
        acc.PositionStream acc.TangentStream acc.UVStream acc.ColorStream ∧
      acc.PositionStream.length / 12 = N := by
  obtain ⟨hc1, hc8⟩ := hch
  obtain ⟨l1, l2, l3, l4⟩ := hinv
  have hcr := eq_create_of_isInitialized _ hinit
  have hch : acc.UVChannelCount = ((acc.UVChannelCount.toNat : Nat) : Int) := by omega
  have hts : acc.TangentStride = ((2 * packedSize acc.bTangentHighPrecision : Nat) : Int) := by
    rw [hcr]
    cases acc.bTangentHighPrecision <;> rfl
  have hus : acc.UVStride =
      ((uvSize acc.bUVHighPrecision * acc.UVChannelCount.toNat : Nat) : Int) := by
    rw [hcr, hch]
    exact UVStride_create _ _ _ _ _ _ _
  refine ⟨acc.UVChannelCount.toNat, acc.PositionStream.length / 12, by omega, by omega, hch,
    ?_, ⟨?_, ?_, ?_, ?_⟩, rfl⟩
  · rw [← hch, ← hcr]
  · simp only [TArray.Num, PositionStride] at l1
    omega
  · simp only [TArray.Num, PositionStride] at l2
    rw [hts] at l2
    exact_mod_cast l2
  · simp only [TArray.Num, PositionStride] at l3
    rw [hus] at l3
    exact_mod_cast l3
  · simp only [TArray.Num, PositionStride, ColorStride] at l4
    omega

theorem SetVertex_GetVertex_create (cv : EngineConversions) (hi uvhi : Bool) (ch N : Nat)
    (P T U C : TArray) (Index : Nat) (v : FRuntimeMeshAccessorVertex)
    (hrec : HoldsRecords hi uvhi ch N P T U C) (hI : Index < N) (h1 : 1 ≤ ch) (h8 : ch ≤ 8)
    (hUV : v.UVs.length = ch) (hwf : v.WellFormed) :
    ∃ acc1 r, (create hi uvhi (ch : Int) P T U C).SetVertex cv (Index : Int) v = some acc1 ∧
      acc1.GetVertex cv (Index : Int) = some r ∧ RoundTrips cv hi uvhi (ch : Int) v r := by
  have hs := SetVertex_create cv hi uvhi ch N P T U C Index v hrec hI h1 h8 (by omega)
  obtain ⟨hP, hT, hU, hC⟩ := hrec
  have hps : 0 < packedSize hi := by cases hi <;> simp [packedSize]
  have hidx : Index + 1 ≤ N := hI
  have bP : Index * 12 + 12 ≤ P.length := by
    have := Nat.mul_le_mul_right 12 hidx
    omega
  have bT : Index * (2 * packedSize hi) + 2 * packedSize hi ≤ T.length := by
    have := Nat.mul_le_mul_right (2 * packedSize hi) hidx
    rw [Nat.add_mul, Nat.one_mul] at this
    omega
  have bU : Index * (uvSize uvhi * ch) + uvSize uvhi * ch ≤ U.length := by
    have := Nat.mul_le_mul_right (uvSize uvhi * ch) hidx
    rw [Nat.add_mul, Nat.one_mul] at this
    omega
  have bC : Index * 4 + 4 ≤ C.length := by
    have := Nat.mul_le_mul_right 4 hidx
    omega
  have lUV : (encodeUVs cv uvhi v.UVs).length = ch * uvSize uvhi := by
    rw [length_encodeUVs, hUV]
  have fP : Index * 12 + (encodeFVector v.Position).length ≤ P.length := by
    rw [length_encodeFVector]; exact bP
  have fN : Index * (2 * packedSize hi) + (encodeNormal cv hi v.Normal).length ≤ T.length := by
    rw [length_encodeNormal]; omega
  have fT : Index * (2 * packedSize hi) + packedSize hi + (encodeTangent cv hi v.Tangent).length
      ≤ (patch T (Index * (2 * packedSize hi)) (encodeNormal cv hi v.Normal)).length := by
    rw [length_encodeTangent, length_patch _ _ _ fN]; omega
  have fU : Index * (uvSize uvhi * ch) + (encodeUVs cv uvhi v.UVs).length ≤ U.length := by
    rw [lUV, Nat.mul_comm ch]; exact bU
  have fC : Index * 4 + (encodeFColor v.Color).length ≤ C.length := by
    rw [length_encodeFColor]; exact bC
  have hg := GetVertex_create cv hi uvhi ch N
    (patch P (Index * 12) (encodeFVector v.Position))
    (patch (patch T (Index * (2 * packedSize hi)) (encodeNormal cv hi v.Normal))
      (Index * (2 * packedSize hi) + packedSize hi) (encodeTangent cv hi v.Tangent))
    (patch U (Index * (uvSize uvhi * ch)) (encodeUVs cv uvhi v.UVs))
    (patch C (Index * 4) (encodeFColor v.Color)) Index
    ⟨by rw [length_patch _ _ _ fP, hP], by rw [length_patch _ _ _ fT, length_patch _ _ _ fN, hT],
     by rw [length_patch _ _ _ fU, hU], by rw [length_patch _ _ _ fC, hC]⟩ hI h1 h8
  have sP := slice_patch_same _ _ _ fP
  rw [length_encodeFVector] at sP
  have sN : slice (patch (patch T (Index * (2 * packedSize hi)) (encodeNormal cv hi v.Normal))
      (Index * (2 * packedSize hi) + packedSize hi) (encodeTangent cv hi v.Tangent))
      (Index * (2 * packedSize hi)) (packedSize hi) = encodeNormal cv hi v.Normal := by
    rw [slice_patch_disjoint _ _ _ _ _ fT (Or.inl (le_refl _))]
    have := slice_patch_same _ _ _ fN
    rwa [length_encodeNormal] at this
  have sT := slice_patch_same _ _ _ fT
  rw [length_encodeTangent] at sT
  have sU := slice_patch_same _ _ _ fU
  rw [lUV] at sU
  have sC := slice_patch_same _ _ _ fC
  rw [length_encodeFColor] at sC
  rw [sP, sN, sT, sU, sC] at hg
  have hdec := decodeUVs_encodeUVs cv uvhi v.UVs
  rw [hUV] at hdec
  rw [hdec] at hg
  refine ⟨_, _, hs, hg, ?_, ?_, ?_, ?_, ?_, rfl, rfl⟩
  · exact decodeFVector_encodeFVector _ hwf.1
  · exact decodeFColor_encodeFColor _ hwf.2.1
  · simp only [List.length_map, hUV]
  · intro h
    subst h
    simp only
    conv_rhs => rw [← List.map_id v.UVs]
    apply List.map_congr_left
    intro uv huv
    exact decodeUV_encodeUV_high cv uv (hwf.2.2 uv huv)
  · intro h
    subst h
    rfl

end FRuntimeMeshVerticesAccessor

/-- C8 (as stated, refuted): a valid configuration (low precision tangents, full float
UVs, one UV channel) on an accessor whose streams do not match: the position, tangent and
color streams hold one record, the UV stream none. Vertex index 0 is in range, the logical
vertex has exactly `NumUVChannels()` UVs, and `SetVertex(0, v)` faults at the range check
of the UV record, so there is no `GetVertex` after it. -/
theorem SetVertex_faults_without_UV_record :
    sampleVerticesNoUVRecord.IsInitialized ∧ sampleVerticesNoUVRecord.ValidChannels ∧
    sampleVerticesNoUVRecord.NumVertices = some 1 ∧ sampleVerticesNoUVRecord.InRange 0 ∧
    sampleVerticesNoUVRecord.NumUVChannels = some 1 ∧
    (sampleVertexOneUV.UVs.length : Int) = sampleVerticesNoUVRecord.UVChannelCount ∧
    sampleVertexOneUV.WellFormed ∧ ¬ sampleVerticesNoUVRecord.LengthInv ∧
    GetStreamAccess sampleVerticesNoUVRecord.UVStream 0 sampleVerticesNoUVRecord.UVStride 0 =
      none ∧
    sampleVerticesNoUVRecord.SetVertex sampleConversions 0 sampleVertexOneUV = none :=
  ⟨by decide, by decide, by decide, by decide, by decide, by decide, by decide, by decide,
    by decide, by decide⟩

/-- C8 (amended): for every valid configuration (any tangent precision, any UV precision, 1 to 8
channels), every accessor state satisfying the stream length invariant, every in-range
vertex index and every well-formed logical vertex `v` with exactly `NumUVChannels()` UVs:
`GetVertex(index)` after `SetVertex(index, v)`, and `GetVertex` of the index returned by
`AddVertex(v)`, succeed and return `v`'s position and color bit-for-bit, a UV list of length
`NumUVChannels()`, `v`'s UVs bit-for-bit when the UV precision is full float, and the
normal, the tangent and half float UVs after one conversion to the packed representation
and back. -/
theorem SetVertex_GetVertex_roundtrip (cv : EngineConversions)
    (acc : FRuntimeMeshVerticesAccessor) (v : FRuntimeMeshAccessorVertex)
    (hinit : acc.IsInitialized) (hch : acc.ValidChannels) (hinv : acc.LengthInv)
    (hUV : (v.UVs.length : Int) = acc.UVChannelCount) (hwf : v.WellFormed) :
    (∀ (Index : Nat) (n : Int), acc.NumVertices = some n → (Index : Int) < n →
      ∃ acc1 r, acc.SetVertex cv (Index : Int) v = some acc1 ∧
        acc1.GetVertex cv (Index : Int) = some r ∧
        RoundTrips cv acc.bTangentHighPrecision acc.bUVHighPrecision acc.UVChannelCount v r) ∧
    ∃ NewIndex acc2 r, acc.AddVertexFull cv v = some (NewIndex, acc2) ∧
      acc2.GetVertex cv NewIndex = some r ∧
      RoundTrips cv acc.bTangentHighPrecision acc.bUVHighPrecision acc.UVChannelCount v r := by
  obtain ⟨ch, N, h1, h8, hc, eacc, hrec, hN⟩ :=
    FRuntimeMeshVerticesAccessor.explicit_of_inv acc hinit hch hinv
  have hUV1 : v.UVs.length = ch := by
    rw [hc] at hUV
    exact_mod_cast hUV
  rw [hc]
  generalize acc.bTangentHighPrecision = hi at eacc hrec ⊢
  generalize acc.bUVHighPrecision = uvhi at eacc hrec ⊢
  generalize acc.PositionStream = P at eacc hrec hN
  generalize acc.TangentStream = T at eacc hrec
  generalize acc.UVStream = U at eacc hrec
  generalize acc.ColorStream = C at eacc hrec
  subst eacc
  constructor
  · intro Index n hn hI
    rw [FRuntimeMeshVerticesAccessor.NumVertices_create, hN] at hn
    have hIN : Index < N := by
      have := Option.some.inj hn
      omega
    exact FRuntimeMeshVerticesAccessor.SetVertex_GetVertex_create cv hi uvhi ch N P T U C Index
      v hrec hIN h1 h8 hUV1 hwf
  · have ha := FRuntimeMeshVerticesAccessor.AddSingleVertex_create hi uvhi ch P T U C
    rw [hN] at ha
    obtain ⟨hP, hT, hU, hC⟩ := hrec
    obtain ⟨acc1, r, e1, e2, e3⟩ := FRuntimeMeshVerticesAccessor.SetVertex_GetVertex_create cv
      hi uvhi ch (N + 1) (P ++ List.replicate 12 0)
      (T ++ List.replicate (2 * packedSize hi) 0) (U ++ List.replicate (uvSize uvhi * ch) 0)
      (C ++ List.replicate 4 0) N v
      ⟨by rw [List.length_append, List.length_replicate, hP]; ring,
       by rw [List.length_append, List.length_replicate, hT]; ring,
       by rw [List.length_append, List.length_replicate, hU]; ring,
       by rw [List.length_append, List.length_replicate, hC]; ring⟩
      (by omega) h1 h8 hUV1 hwf
    refine ⟨(N : Int), acc1, r, ?_, e2, e3⟩
    unfold FRuntimeMeshVerticesAccessor.AddVertexFull
    simp only [Option.bind_eq_bind, Option.pure_def]
    rw [FRuntimeMeshVerticesAccessor.bIsInitialized_create]
    show (check true).bind _ = _
    rw [show check true = some () from rfl, Option.some_bind, ha, Option.some_bind]
    show (FRuntimeMeshVerticesAccessor.SetVertex cv _ (N : Int) v).bind _ = _
    rw [e1, Option.some_bind]

/-- C6 (code at the failing input): the accessor has one UV channel and two vertices, the
logical vertex has two UVs. `SetVertex(0, vertex)` succeeds and stores the second UV over
the UV record of vertex 1, which read `(2,2,2,2 | 2,2,2,2)` before and is the UV
`(5, 6)` afterwards. -/
theorem SetVertex_extra_UV_overwrites_next :
    sampleVerticesTwo.IsInitialized ∧ sampleVerticesTwo.NumVertices = some 2 ∧
    sampleVerticesTwo.NumUVChannels = some 1 ∧ sampleVertexTwoUVs.UVs.length = 2 ∧
    record sampleVerticesTwo.UVStream 8 1 = [2, 2, 2, 2, 2, 2, 2, 2] ∧
    ∃ acc1, sampleVerticesTwo.SetVertex sampleConversions 0 sampleVertexTwoUVs = some acc1 ∧
      record acc1.UVStream 8 0 = [3, 0, 0, 0, 4, 0, 0, 0] ∧
      record acc1.UVStream 8 1 = [5, 0, 0, 0, 6, 0, 0, 0] ∧
      acc1.GetUV sampleConversions 1 0 = some { X := 5, Y := 6 } :=
  ⟨by decide, by decide, by decide, by decide, by decide, _, rfl, by decide, by decide,
    by decide⟩

/-- Witness for C8 (amended): the one-vertex sample accessor (half float UVs, one channel)
and a logical vertex with one UV. -/
theorem SetVertex_GetVertex_roundtrip_witness :
    sampleMeshOne.Vertices.IsInitialized ∧ sampleMeshOne.Vertices.ValidChannels ∧
    sampleMeshOne.Vertices.LengthInv ∧
    (sampleVertexOneUV.UVs.length : Int) = sampleMeshOne.Vertices.UVChannelCount ∧
    sampleVertexOneUV.WellFormed ∧
    (∀ (Index : Nat) (n : Int), sampleMeshOne.Vertices.NumVertices = some n →
      (Index : Int) < n →
      ∃ acc1 r, sampleMeshOne.Vertices.SetVertex sampleConversions (Index : Int)
          sampleVertexOneUV = some acc1 ∧
        acc1.GetVertex sampleConversions (Index : Int) = some r ∧
        RoundTrips sampleConversions sampleMeshOne.Vertices.bTangentHighPrecision
          sampleMeshOne.Vertices.bUVHighPrecision sampleMeshOne.Vertices.UVChannelCount
          sampleVertexOneUV r) ∧
    ∃ NewIndex acc2 r, sampleMeshOne.Vertices.AddVertexFull sampleConversions
        sampleVertexOneUV = some (NewIndex, acc2) ∧
      acc2.GetVertex sampleConversions NewIndex = some r ∧
      RoundTrips sampleConversions sampleMeshOne.Vertices.bTangentHighPrecision
        sampleMeshOne.Vertices.bUVHighPrecision sampleMeshOne.Vertices.UVChannelCount
        sampleVertexOneUV r :=
  ⟨by decide, by decide, by decide, by decide, by decide,
    SetVertex_GetVertex_roundtrip sampleConversions sampleMeshOne.Vertices sampleVertexOneUV
      (by decide) (by decide) (by decide) (by decide) (by decide)⟩

namespace FRuntimeMeshVerticesAccessor

theorem AddVertexCall_run_create_of_le (cv : EngineConversions) (hi uvhi : Bool) (ch N : Nat)
    (P T U C : TArray) (call : AddVertexCall)
    (hrec : HoldsRecords hi uvhi ch N P T U C)
    (hUV : ∀ v, call = AddVertexCall.vertex v →
      1 ≤ ch ∧ v.UVs.length ≤ ch ∧ v.UVs.length ≤ 8) :
    ∃ P1 T1 U1 C1, call.run cv (create hi uvhi (ch : Int) P T U C) =
        some ((N : Int), create hi uvhi (ch : Int) P1 T1 U1 C1) ∧
      HoldsRecords hi uvhi ch (N + 1) P1 T1 U1 C1 := by
  obtain ⟨hP, hT, hU, hC⟩ := hrec
  have hN : P.length / 12 = N := by rw [hP]; exact Nat.mul_div_cancel _ (by norm_num)
  have hext : HoldsRecords hi uvhi ch (N + 1) (P ++ List.replicate 12 0)
      (T ++ List.replicate (2 * packedSize hi) 0) (U ++ List.replicate (uvSize uvhi * ch) 0)
      (C ++ List.replicate 4 0) :=
    ⟨by rw [List.length_append, List.length_replicate, hP]; ring,
     by rw [List.length_append, List.length_replicate, hT]; ring,
     by rw [List.length_append, List.length_replicate, hU]; ring,
     by rw [List.length_append, List.length_replicate, hC]; ring⟩
  cases call with
  | position p =>
    have ha := AddVertex_create hi uvhi ch P T U C p
    rw [hN] at ha
    refine ⟨_, _, _, _, ha, ?_, hext.2.1, hext.2.2.1, hext.2.2.2⟩
    rw [length_patch _ _ _ (by
      rw [length_encodeFVector, List.length_append, List.length_replicate, hP]), hext.1]
  | vertex v =>
    have ha := AddSingleVertex_create hi uvhi ch P T U C
    rw [hN] at ha
    have hs := SetVertex_create_of_le cv hi uvhi ch (N + 1) _ _ _ _ N v hext (by omega)
      (hUV v rfl).1 (hUV v rfl).2.1 (hUV v rfl).2.2
    have hps : 0 < packedSize hi := by cases hi <;> simp [packedSize]
    obtain ⟨e1, e2, e3, e4⟩ := hext
    have fN : N * (2 * packedSize hi) + (encodeNormal cv hi v.Normal).length ≤
        (T ++ List.replicate (2 * packedSize hi) 0).length := by
      rw [length_encodeNormal, e2, Nat.add_mul, Nat.one_mul]; omega
    have fT : N * (2 * packedSize hi) + packedSize hi + (encodeTangent cv hi v.Tangent).length
        ≤ (patch (T ++ List.replicate (2 * packedSize hi) 0) (N * (2 * packedSize hi))
          (encodeNormal cv hi v.Normal)).length := by
      rw [length_encodeTangent, length_patch _ _ _ fN, e2, Nat.add_mul, Nat.one_mul]; omega
    have hrun : (AddVertexCall.vertex v).run cv (create hi uvhi (ch : Int) P T U C) =
        some ((N : Int), create hi uvhi (ch : Int)
          (patch (P ++ List.replicate 12 0) (N * 12) (encodeFVector v.Position))
          (patch (patch (T ++ List.replicate (2 * packedSize hi) 0) (N * (2 * packedSize hi))
            (encodeNormal cv hi v.Normal)) (N * (2 * packedSize hi) + packedSize hi)
            (encodeTangent cv hi v.Tangent))
          (patch (U ++ List.replicate (uvSize uvhi * ch) 0) (N * (uvSize uvhi * ch))
            (encodeUVs cv uvhi v.UVs))
          (patch (C ++ List.replicate 4 0) (N * 4) (encodeFColor v.Color))) := by
      show (create hi uvhi (ch : Int) P T U C).AddVertexFull cv v = _
      unfold AddVertexFull
      simp only [Option.bind_eq_bind, Option.pure_def]
      rw [bIsInitialized_create]
      show (check true).bind _ = _
      rw [show check true = some () from rfl, Option.some_bind, ha, Option.some_bind]
      show (SetVertex cv _ (N : Int) v).bind _ = _
      rw [hs, Option.some_bind]
    refine ⟨_, _, _, _, hrun, ?_, ?_, ?_, ?_⟩
    · rw [length_patch _ _ _ (by rw [length_encodeFVector, e1]; omega), e1]
    · rw [length_patch _ _ _ fT, length_patch _ _ _ fN, e2]
    · rw [length_patch _ _ _ (by
        rw [length_encodeUVs, e3, Nat.add_mul, Nat.one_mul]
        have : v.UVs.length * uvSize uvhi ≤ ch * uvSize uvhi :=
          Nat.mul_le_mul_right _ (hUV v rfl).2.1
        rw [Nat.mul_comm (uvSize uvhi) ch]
        omega), e3]
    · rw [length_patch _ _ _ (by rw [length_encodeFColor, e4]; omega), e4]

theorem AddVertexCall_run_create (cv : EngineConversions) (hi uvhi : Bool) (ch N : Nat)
    (P T U C : TArray) (call : AddVertexCall)
    (hrec : HoldsRecords hi uvhi ch N P T U C) (h1 : 1 ≤ ch) (h8 : ch ≤ 8)
    (hUV : ∀ v, call = AddVertexCall.vertex v → v.UVs.length ≤ ch) :
    ∃ P1 T1 U1 C1, call.run cv (create hi uvhi (ch : Int) P T U C) =
        some ((N : Int), create hi uvhi (ch : Int) P1 T1 U1 C1) ∧
      HoldsRecords hi uvhi ch (N + 1) P1 T1 U1 C1 :=
  AddVertexCall_run_create_of_le cv hi uvhi ch N P T U C call hrec
    (fun v hv => ⟨h1, hUV v hv, le_trans (hUV v hv) h8⟩)

theorem AddVertexSeq_create (cv : EngineConversions) (hi uvhi : Bool) (ch : Nat) :
    ∀ (calls : List AddVertexCall) (N : Nat) (P T U C : TArray),
      HoldsRecords hi uvhi ch N P T U C →
      (∀ v, AddVertexCall.vertex v ∈ calls →
        1 ≤ ch ∧ v.UVs.length ≤ ch ∧ v.UVs.length ≤ 8) →
      ∃ P1 T1 U1 C1, AddVertexSeq cv (create hi uvhi (ch : Int) P T U C) calls =
          some ((List.range calls.length).map (fun (i : Nat) => (N : Int) + (i : Int)),
            create hi uvhi (ch : Int) P1 T1 U1 C1) ∧
        HoldsRecords hi uvhi ch (N + calls.length) P1 T1 U1 C1 := by
  intro calls
  induction calls with
  | nil =>
    intro N P T U C hrec _
    exact ⟨P, T, U, C, rfl, hrec⟩
  | cons call rest ih =>
    intro N P T U C hrec hUV
    obtain ⟨P1, T1, U1, C1, e1, hrec1⟩ := AddVertexCall_run_create_of_le cv hi uvhi ch N P T U C
      call hrec (fun v hv => hUV v (by rw [hv]; exact List.mem_cons_self _ _))
    obtain ⟨P2, T2, U2, C2, e2, hrec2⟩ := ih (N + 1) P1 T1 U1 C1 hrec1
      (fun v hv => hUV v (List.mem_cons_of_mem _ hv))
    refine ⟨P2, T2, U2, C2, ?_, ?_⟩
    · unfold AddVertexSeq
      simp only [Option.bind_eq_bind, Option.pure_def]
      rw [e1, Option.some_bind]
      show (AddVertexSeq cv _ rest).bind _ = _
      rw [e2, Option.some_bind]
      simp only [List.length_cons, List.range_succ_eq_map, List.map_cons, List.map_map,
        Nat.cast_zero, Int.add_zero]
      congr 3
      apply List.map_congr_left
      intro i _
      simp only [Function.comp, Nat.cast_succ, Nat.cast_add, Nat.cast_one]
      ring
    · rw [List.length_cons, show N + (rest.length + 1) = N + 1 + rest.length by omega]
      exact hrec2

end FRuntimeMeshVerticesAccessor

theorem mulInt32_eq (a b : Int) (h : IsInt32 (a * b)) : mulInt32 a b = a * b :=
  toInt32_toUInt32 _ h

theorem length_resized (Data : TArray) (n : Nat) : (resized Data n).length = n := by
  simp [resized]; omega

theorem getElem?_resized (Data : TArray) (n i : Nat) :
    (resized Data n)[i]? =
      if i < n then (if i < Data.length then Data[i]? else some 0) else none := by
  unfold resized
  by_cases h1 : i < n
  · rw [if_pos h1]
    by_cases h2 : i < Data.length
    · rw [if_pos h2, List.getElem?_append_left (by simp; omega), List.getElem?_take, if_pos h1]
    · rw [if_neg h2, List.getElem?_append_right (by simp; omega)]
      rw [List.getElem?_replicate, if_pos (by simp; omega)]
  · rw [if_neg h1]
    exact List.getElem?_eq_none (by simp; omega)

theorem slice_resized_old (Data : TArray) (n q k : Nat) (h1 : q + k ≤ n)
    (h2 : q + k ≤ Data.length) : slice (resized Data n) q k = slice Data q k := by
  apply List.ext_getElem?
  intro i
  rw [getElem?_slice, getElem?_slice, getElem?_resized]
  by_cases hi : i < k
  · rw [if_pos hi, if_pos hi, if_pos (by omega), if_pos (by omega)]
  · rw [if_neg hi, if_neg hi]

theorem slice_resized_new (Data : TArray) (n q k : Nat) (h1 : q + k ≤ n)
    (h2 : Data.length ≤ q) : slice (resized Data n) q k = List.replicate k 0 := by
  apply List.ext_getElem?
  intro i
  rw [getElem?_slice, getElem?_resized, List.getElem?_replicate]
  by_cases hi : i < k
  · rw [if_pos hi, if_pos hi, if_pos (by omega), if_neg (by omega)]
  · rw [if_neg hi, if_neg hi]

namespace FRuntimeMeshVerticesAccessor

theorem SetNumVertices_create (hi uvhi : Bool) (ch : Nat) (P T U C : TArray) (k : Nat)
    (hfit : (create hi uvhi (ch : Int) P T U C).SizesFit (k : Int)) :
    (create hi uvhi (ch : Int) P T U C).SetNumVertices (k : Int) =
      some (create hi uvhi (ch : Int) (resized P (k * 12)) (resized T (k * (2 * packedSize hi)))
        (resized U (k * (uvSize uvhi * ch))) (resized C (k * 4))) := by
  obtain ⟨f1, f2, f3, f4⟩ := hfit
  have eP := SetNumZeroed_eq P (mulInt32 (k : Int) PositionStride) (k * 12)
    (by rw [mulInt32_eq _ _ f1]; simp only [PositionStride]; push_cast; rfl)
  have eT := SetNumZeroed_eq T
    (mulInt32 (k : Int) (create hi uvhi (ch : Int) P T U C).TangentStride)
    (k * (2 * packedSize hi)) (by rw [mulInt32_eq _ _ f2, TangentStride_create]; push_cast; rfl)
  have eU := SetNumZeroed_eq U (mulInt32 (k : Int) (create hi uvhi (ch : Int) P T U C).UVStride)
    (k * (uvSize uvhi * ch)) (by rw [mulInt32_eq _ _ f3, UVStride_create]; push_cast; rfl)
  have eC := SetNumZeroed_eq C (mulInt32 (k : Int) ColorStride) (k * 4)
    (by rw [mulInt32_eq _ _ f4]; simp only [ColorStride]; push_cast; rfl)
  unfold SetNumVertices
  simp only [Option.bind_eq_bind, Option.pure_def]
  rw [bIsInitialized_create]
  show (check true).bind _ = _
  rw [show check true = some () from rfl, Option.some_bind]
  show (TArray.SetNumZeroed P _).bind _ = _
  rw [eP, Option.some_bind]
  show (TArray.SetNumZeroed T _).bind _ = _
  rw [eT, Option.some_bind]
  show (TArray.SetNumZeroed U _).bind _ = _
  rw [eU, Option.some_bind]
  show (TArray.SetNumZeroed C _).bind _ = _
  rw [eC, Option.some_bind]
  rfl

end FRuntimeMeshVerticesAccessor

/-- C10 (as stated, refuted): an initialized accessor whose position stream is empty (so
`NumVertices()` is 0) while its color stream holds four stale bytes. After
`SetNumVertices(1)` the color record of vertex 0, an index not below the old count, still
holds the stale bytes. -/
theorem SetNumVertices_stale_record :
    sampleVerticesStale.IsInitialized ∧ sampleVerticesStale.NumVertices = some 0 ∧
    ∃ acc1, sampleVerticesStale.SetNumVertices 1 = some acc1 ∧
      acc1.NumVertices = some 1 ∧ record acc1.ColorStream 4 0 = [9, 9, 9, 9] ∧
      record acc1.ColorStream 4 0 ≠ List.replicate 4 0 :=
  ⟨by decide, by decide, _, rfl, by decide, by decide, by decide⟩

/-- `SetNumVertices` multiplies in `int32`. On the empty accessor of a new builder (low
precision, one half float channel) `SetNumVertices(2^30)` returns and leaves `NumVertices()`
at 0, because each of the four products wraps to 0; with eight full float channels
`SetNumVertices(2^25)` faults, because the UV size `2^25 * 64` wraps to `-2^31`. -/
theorem SetNumVertices_wraps :
    (FRuntimeMeshVerticesAccessor.create false false 1 [] [] [] []).LengthInv ∧
    (∃ acc1, (FRuntimeMeshVerticesAccessor.create false false 1 [] [] [] []).SetNumVertices
        1073741824 = some acc1 ∧ acc1.NumVertices = some 0) ∧
    mulInt32 33554432 (FRuntimeMeshVerticesAccessor.create true true 8 [] [] [] []).UVStride =
      -2147483648 ∧
    (FRuntimeMeshVerticesAccessor.create true true 8 [] [] [] []).SetNumVertices 33554432 =
      none := by
  refine ⟨by decide, ⟨_, rfl, by decide⟩, by decide, ?_⟩
  decide

/-- C10 (amended): for every initialized vertex accessor with a non-negative channel count
that satisfies the stream length invariant, and every `k >= 0` for which the four stream
sizes `k * 12`, `k * TangentStride`, `k * UVStride` and `k * 4` are `int32` values:
`SetNumVertices(k)` succeeds, afterwards `NumVertices() = k`, each of the four streams holds
exactly `k` records, the records with index below `min(k, old count)` are unchanged byte for
byte, and every byte of every record with index at or above the old count is zero. -/
theorem SetNumVertices_resizes (acc : FRuntimeMeshVerticesAccessor) (k : Nat)
    (hinit : acc.IsInitialized) (hch : 0 ≤ acc.UVChannelCount) (hinv : acc.LengthInv)
    (hfit : acc.SizesFit (k : Int)) :
    ∃ acc1 old, acc.NumVertices = some old ∧ acc.SetNumVertices (k : Int) = some acc1 ∧
      acc1.NumVertices = some (k : Int) ∧
      (acc1.PositionStream.length : Int) = k * PositionStride ∧
      (acc1.TangentStream.length : Int) = k * acc.TangentStride ∧
      (acc1.UVStream.length : Int) = k * acc.UVStride ∧
      (acc1.ColorStream.length : Int) = k * ColorStride ∧
      (∀ j : Nat, j < k → (j : Int) < old →
        record acc1.PositionStream 12 j = record acc.PositionStream 12 j ∧
        record acc1.TangentStream acc.TangentStride.toNat j =
          record acc.TangentStream acc.TangentStride.toNat j ∧
        record acc1.UVStream acc.UVStride.toNat j = record acc.UVStream acc.UVStride.toNat j ∧
        record acc1.ColorStream 4 j = record acc.ColorStream 4 j) ∧
      (∀ j : Nat, j < k → old ≤ (j : Int) →
        record acc1.PositionStream 12 j = List.replicate 12 0 ∧
        record acc1.TangentStream acc.TangentStride.toNat j =
          List.replicate acc.TangentStride.toNat 0 ∧
        record acc1.UVStream acc.UVStride.toNat j = List.replicate acc.UVStride.toNat 0 ∧
        record acc1.ColorStream 4 j = List.replicate 4 0) := by
  have hcr := FRuntimeMeshVerticesAccessor.eq_create_of_isInitialized _ hinit
  have hchn : acc.UVChannelCount = ((acc.UVChannelCount.toNat : Nat) : Int) := by omega
  rw [hchn] at hcr
  generalize acc.UVChannelCount.toNat = ch at hcr
  obtain ⟨l1, l2, l3, l4⟩ := hinv
  generalize hP : acc.PositionStream = P at hcr l1 l2 l3 l4
  generalize hT : acc.TangentStream = T at hcr l2
  generalize hU : acc.UVStream = U at hcr l3
  generalize hC : acc.ColorStream = C at hcr l4
  generalize acc.bTangentHighPrecision = hi at hcr
  generalize acc.bUVHighPrecision = uvhi at hcr
  subst hcr
  rw [FRuntimeMeshVerticesAccessor.TangentStride_create] at l2 ⊢
  rw [FRuntimeMeshVerticesAccessor.UVStride_create] at l3 ⊢
  simp only [Int.toNat_natCast]
  simp only [TArray.Num, PositionStride, ColorStride] at l1 l2 l3 l4
  generalize hts : 2 * packedSize hi = ts at l2 ⊢
  generalize hus : uvSize uvhi * ch = us at l3 ⊢
  have hN : ∃ N, P.length = N * 12 := ⟨P.length / 12, by omega⟩
  obtain ⟨N, hPN⟩ := hN
  have hdiv : P.length / 12 = N := by omega
  have hTN : T.length = N * ts := by
    have : ((T.length : Nat) : Int) = ((P.length / 12 * ts : Nat) : Int) := by
      rw [l2]; push_cast; rfl
    rw [hdiv] at this
    exact_mod_cast this
  have hUN : U.length = N * us := by
    have : ((U.length : Nat) : Int) = ((P.length / 12 * us : Nat) : Int) := by
      rw [l3]; push_cast; rfl
    rw [hdiv] at this
    exact_mod_cast this
  have hCN : C.length = N * 4 := by omega
  have hs := FRuntimeMeshVerticesAccessor.SetNumVertices_create hi uvhi ch P T U C k hfit
  rw [hts, hus] at hs
  refine ⟨_, (N : Int), ?_, hs, ?_, ?_, ?_, ?_, ?_, ?_, ?_⟩
  · rw [FRuntimeMeshVerticesAccessor.NumVertices_create, hdiv]
  · rw [FRuntimeMeshVerticesAccessor.NumVertices_create, length_resized,
      Nat.mul_div_cancel _ (by norm_num)]
  · show ((resized P (k * 12)).length : Int) = _
    rw [length_resized]; push_cast; rfl
  · show ((resized T (k * ts)).length : Int) = _
    rw [length_resized]; push_cast; rfl
  · show ((resized U (k * us)).length : Int) = _
    rw [length_resized]; push_cast; rfl
  · show ((resized C (k * 4)).length : Int) = _
    rw [length_resized]; push_cast; rfl
  · intro j hjk hjo
    have hjN : j + 1 ≤ N := by omega
    have hjk1 : j + 1 ≤ k := hjk
    have m1 : ∀ st : Nat, j * st + st ≤ k * st := fun st => by
      have := Nat.mul_le_mul_right st hjk1
      rwa [Nat.add_mul, Nat.one_mul] at this
    have m2 : ∀ st : Nat, j * st + st ≤ N * st := fun st => by
      have := Nat.mul_le_mul_right st hjN
      rwa [Nat.add_mul, Nat.one_mul] at this
    refine ⟨?_, ?_, ?_, ?_⟩
    · exact slice_resized_old _ _ _ _ (m1 12) (by rw [hPN]; exact m2 12)
    · exact slice_resized_old _ _ _ _ (m1 ts) (by rw [hTN]; exact m2 ts)
    · exact slice_resized_old _ _ _ _ (m1 us) (by rw [hUN]; exact m2 us)
    · exact slice_resized_old _ _ _ _ (m1 4) (by rw [hCN]; exact m2 4)
  · intro j hjk hjo
    have hjN : N ≤ j := by omega
    have hjk1 : j + 1 ≤ k := hjk
    have m1 : ∀ st : Nat, j * st + st ≤ k * st := fun st => by
      have := Nat.mul_le_mul_right st hjk1
      rwa [Nat.add_mul, Nat.one_mul] at this
    refine ⟨?_, ?_, ?_, ?_⟩
    · exact slice_resized_new _ _ _ _ (m1 12) (by rw [hPN]; exact Nat.mul_le_mul_right _ hjN)
    · exact slice_resized_new _ _ _ _ (m1 ts) (by rw [hTN]; exact Nat.mul_le_mul_right _ hjN)
    · exact slice_resized_new _ _ _ _ (m1 us) (by rw [hUN]; exact Nat.mul_le_mul_right _ hjN)
    · exact slice_resized_new _ _ _ _ (m1 4) (by rw [hCN]; exact Nat.mul_le_mul_right _ hjN)

/-- Witness for C10 (amended): the one-vertex sample accessor resized to three vertices. -/
theorem SetNumVertices_resizes_witness :
    sampleMeshOne.Vertices.IsInitialized ∧ 0 ≤ sampleMeshOne.Vertices.UVChannelCount ∧
    sampleMeshOne.Vertices.LengthInv ∧ sampleMeshOne.Vertices.SizesFit ((3 : Nat) : Int) ∧
    ∃ acc1 old, sampleMeshOne.Vertices.NumVertices = some old ∧
      sampleMeshOne.Vertices.SetNumVertices ((3 : Nat) : Int) = some acc1 ∧
      acc1.NumVertices = some ((3 : Nat) : Int) :=
  ⟨by decide, by decide, by decide, by decide,
    (SetNumVertices_resizes sampleMeshOne.Vertices 3 (by decide) (by decide) (by decide)
      (by decide)).imp fun _ h => h.imp fun _ h => ⟨h.1, h.2.1, h.2.2.1⟩⟩

namespace FRuntimeMeshVerticesAccessor

theorem tangent_setters_create (cv : EngineConversions) (hi uvhi : Bool) (ch : Int)
    (P T U C : TArray) (Index : Nat) (h : (Index + 1) * (2 * packedSize hi) ≤ T.length) :
    (∀ (v : FRuntimeMeshTangent), ∃ T1, T1.length = T.length ∧
      (create hi uvhi ch P T U C).SetTangentFlip cv (Index : Int) v =
        some (create hi uvhi ch P T1 U C)) ∧
    (∀ (n : FVector) (t : FRuntimeMeshTangent), ∃ T1, T1.length = T.length ∧
      (create hi uvhi ch P T U C).SetNormalTangent cv (Index : Int) n t =
        some (create hi uvhi ch P T1 U C)) ∧
    (∀ (x y z : FVector), ∃ T1, T1.length = T.length ∧
      (create hi uvhi ch P T U C).SetTangents cv (Index : Int) x y z =
        some (create hi uvhi ch P T1 U C)) := by
  have hps : 0 < packedSize hi := by cases hi <;> simp [packedSize]
  rw [Nat.add_mul, Nat.one_mul] at h
  have eT := GetStreamAccess_eq T Index (create hi uvhi ch P T U C).TangentStride _
    (TangentStride_create _ _ _ _ _ _ _) (by omega)
  have lw : ∀ (N : FVector4) (V : FVector),
      (patch (patch T (Index * (2 * packedSize hi)) (encodeNormal cv hi N))
        (Index * (2 * packedSize hi) + packedSize hi) (encodeTangent cv hi V)).length
        = T.length := by
    intro N V
    have b1 : Index * (2 * packedSize hi) + (encodeNormal cv hi N).length ≤ T.length := by
      rw [length_encodeNormal]; omega
    rw [length_patch _ _ _ (by rw [length_encodeTangent, length_patch _ _ _ b1]; omega),
      length_patch _ _ _ b1]
  have wt : ∀ (N : FVector4) (V : FVector), writeTangents cv hi T
      (Index * (2 * packedSize hi)) N V = some (patch (patch T (Index * (2 * packedSize hi))
        (encodeNormal cv hi N)) (Index * (2 * packedSize hi) + packedSize hi)
        (encodeTangent cv hi V)) :=
    fun N V => writeTangents_eq cv hi T _ N V (by omega)
  have fb : ∀ v : FRuntimeMeshTangent, ∃ N, SetTangentFlipBody cv hi T
      (Index * (2 * packedSize hi)) v = some (patch (patch T (Index * (2 * packedSize hi))
        (encodeNormal cv hi N)) (Index * (2 * packedSize hi) + packedSize hi)
        (encodeTangent cv hi v.TangentX)) := by
    intro v
    have rN := readBytes_eq T (Index * (2 * packedSize hi)) (packedSize hi) (by omega)
    refine ⟨{ decodeNormal cv hi (slice T (Index * (2 * packedSize hi)) (packedSize hi)) with
      W := if v.bFlipTangentY then floatMinusOne else floatOne }, ?_⟩
    unfold SetTangentFlipBody
    simp only [Option.bind_eq_bind, NormalFieldOffset, TangentFieldOffset, Nat.add_zero]
    rw [rN, Option.some_bind, writeBytes_eq _ _ _ (by rw [length_encodeNormal]; omega),
      Option.some_bind, writeBytes_eq _ _ _ (by
        rw [length_encodeTangent, length_patch _ _ _ (by rw [length_encodeNormal]; omega)]
        omega)]
  refine ⟨?_, ?_, ?_⟩
  · intro v
    obtain ⟨N, hN⟩ := fb v
    refine ⟨_, lw N v.TangentX, ?_⟩
    unfold SetTangentFlip
    simp only [Option.bind_eq_bind, Option.pure_def]
    rw [bIsInitialized_create]
    show (check true).bind _ = _
    rw [show check true = some () from rfl, Option.some_bind]
    cases hi
    · show (GetStreamAccess T _ _ _).bind _ = _
      rw [eT, Option.some_bind]
      show (SetTangentFlipBody cv false T _ v).bind _ = _
      rw [hN, Option.some_bind]
      rfl
    · show (GetStreamAccess T _ _ _).bind _ = _
      rw [eT, Option.some_bind]
      show (SetTangentFlipBody cv true T _ v).bind _ = _
      rw [hN, Option.some_bind]
      rfl
  · intro n t
    refine ⟨_, lw (FVector4.ofVector n (if t.bFlipTangentY then floatMinusOne else floatOne))
      t.TangentX, ?_⟩
    unfold SetNormalTangent
    simp only [Option.bind_eq_bind, Option.pure_def]
    rw [bIsInitialized_create]
    show (check true).bind _ = _
    rw [show check true = some () from rfl, Option.some_bind]
    cases hi
    · show (GetStreamAccess T _ _ _).bind _ = _
      rw [eT, Option.some_bind]
      show (writeTangents cv false T _ _ _).bind _ = _
      rw [wt, Option.some_bind]
      rfl
    · show (GetStreamAccess T _ _ _).bind _ = _
      rw [eT, Option.some_bind]
      show (writeTangents cv true T _ _ _).bind _ = _
      rw [wt, Option.some_bind]
      rfl
  · intro x y z
    refine ⟨_, lw (FVector4.ofVector z (cv.GetBasisDeterminantSign x y z)) x, ?_⟩
    unfold SetTangents
    simp only [Option.bind_eq_bind, Option.pure_def]
    rw [bIsInitialized_create]
    show (check true).bind _ = _
    rw [show check true = some () from rfl, Option.some_bind]
    cases hi
    · show (GetStreamAccess T _ _ _).bind _ = _
      rw [eT, Option.some_bind]
      show (writeTangents cv false T _ _ _).bind _ = _
      rw [wt, Option.some_bind]
      rfl
    · show (GetStreamAccess T _ _ _).bind _ = _
      rw [eT, Option.some_bind]
      show (writeTangents cv true T _ _ _).bind _ = _
      rw [wt, Option.some_bind]
      rfl

theorem SetUV0_create (cv : EngineConversions) (hi uvhi : Bool) (ch : Nat)
    (P T U C : TArray) (Index : Nat) (v : FVector2D) (hc : 0 < ch) (h8 : ch ≤ 8)
    (h : (Index + 1) * (uvSize uvhi * ch) ≤ U.length) :
    (create hi uvhi (ch : Int) P T U C).SetUV0 cv (Index : Int) v =
      some (create hi uvhi (ch : Int) P T
        (patch U (Index * (uvSize uvhi * ch)) (encodeUV cv uvhi v)) C) := by
  have hc1 : (0 : Int) < (ch : Int) := by exact_mod_cast hc
  have e0 : ∀ sz, StaticArrayOffset 0 sz = some 0 := fun sz => by
    simp [StaticArrayOffset]
  rw [Nat.add_mul, Nat.one_mul] at h
  cases uvhi
  · simp only [uvSize, Bool.false_eq_true, if_false] at h ⊢
    have e1 := GetStreamAccess_eq U Index (4 * (ch : Int)) (4 * ch) (by push_cast; ring)
      (by omega)
    have e2 := writeBytes_eq U (Index * (4 * ch)) (encodeUV cv false v)
      (by rw [length_encodeUV]; simp only [uvSize, Bool.false_eq_true, if_false]; omega)
    simp [SetUV0, create, Initialize, new, check, uvSize, e0, e1, e2, hc1]
  · simp only [uvSize, if_true] at h ⊢
    have e1 := GetStreamAccess_eq U Index (8 * (ch : Int)) (8 * ch) (by push_cast; ring)
      (by omega)
    have e2 := writeBytes_eq U (Index * (8 * ch)) (encodeUV cv true v)
      (by rw [length_encodeUV]; simp only [uvSize, if_true]; omega)
    simp [SetUV0, create, Initialize, new, check, uvSize, e0, e1, e2, hc1]

end FRuntimeMeshVerticesAccessor
namespace FRuntimeMeshAccessor

theorem isMesh_of_explicit (hi uvhi : Bool) (ch N M : Nat) (P T U C IS : TArray) (w : Bool)
    (h1 : 1 ≤ ch) (h8 : ch ≤ 8) (hrec : HoldsRecords hi uvhi ch N P T U C)
    (hIS : IS.length = M * indexWidth w) :
    (FRuntimeMeshAccessor.mk (FRuntimeMeshVerticesAccessor.create hi uvhi (ch : Int) P T U C)
      ⟨true, IS, w⟩).IsMesh := by
  obtain ⟨hP, hT, hU, hC⟩ := hrec
  have hw : 0 < indexWidth w := by cases w <;> simp [indexWidth]
  have hdiv : P.length / 12 = N := by rw [hP]; exact Nat.mul_div_cancel _ (by norm_num)
  have hdivI : ((P.length : Nat) : Int) / 12 = (N : Int) := by
    rw [← hdiv]; push_cast; rfl
  refine ⟨FRuntimeMeshVerticesAccessor.isInitialized_create _ _ _ _ _ _ _,
    ⟨by show (1 : Int) ≤ (ch : Int); exact_mod_cast h1,
     by show (ch : Int) ≤ 8; exact_mod_cast h8⟩, ⟨?_, ?_, ?_, ?_⟩, rfl, ?_⟩
  · show ((P.length : Nat) : Int) = ((P.length : Nat) : Int) / 12 * 12
    rw [hdivI, hP]; push_cast; rfl
  · show ((T.length : Nat) : Int) = ((P.length : Nat) : Int) / 12 *
      (FRuntimeMeshVerticesAccessor.create hi uvhi (ch : Int) P T U C).TangentStride
    rw [hdivI, FRuntimeMeshVerticesAccessor.TangentStride_create, hT]; push_cast; rfl
  · show ((U.length : Nat) : Int) = ((P.length : Nat) : Int) / 12 *
      (FRuntimeMeshVerticesAccessor.create hi uvhi (ch : Int) P T U C).UVStride
    rw [hdivI, FRuntimeMeshVerticesAccessor.UVStride_create, hU]; push_cast; rfl
  · show ((C.length : Nat) : Int) = ((P.length : Nat) : Int) / 12 * 4
    rw [hdivI, hC]; push_cast; rfl
  · show ((IS.length : Nat) : Int) = ((IS.length : Nat) : Int) /
      (FRuntimeMeshIndicesAccessor.mk true IS w).GetIndexStride *
      (FRuntimeMeshIndicesAccessor.mk true IS w).GetIndexStride
    rw [FRuntimeMeshIndicesAccessor.GetIndexStride_eq]
    have : IS.length / indexWidth w = M := by rw [hIS]; exact Nat.mul_div_cancel _ hw
    have e : ((IS.length : Nat) : Int) / ((indexWidth w : Nat) : Int) = (M : Int) := by
      rw [← this]; push_cast; rfl
    rw [e, hIS]; push_cast; rfl

theorem streamLengths_of_isMesh (b : FRuntimeMeshAccessor) (h : b.IsMesh) :
    b.StreamLengths := by
  obtain ⟨hinit, hch, ⟨l1, l2, l3, l4⟩, hii, li⟩ := h
  have hcr := FRuntimeMeshVerticesAccessor.eq_create_of_isInitialized _ hinit
  have hbi : b.Vertices.bIsInitialized = true := by rw [hcr]; rfl
  refine ⟨b.Vertices.PositionStream.Num / PositionStride,
    b.Indices.IndexStream.Num / b.Indices.GetIndexStride, ?_, ?_, l1, l2, l3, l4, li, ?_⟩
  · simp [FRuntimeMeshVerticesAccessor.NumVertices, check, hbi]
  · simp [FRuntimeMeshIndicesAccessor.NumIndices, check, hii]
  · unfold FRuntimeMeshIndicesAccessor.GetIndexStride
    cases b.Indices.b32BitIndices <;> simp

theorem run_preserves (cv : EngineConversions) (b : FRuntimeMeshAccessor) (call : BuilderCall)
    (hb : b.IsMesh) (hv : call.ValidArgs b) :
    ∃ b1, call.run cv b = some b1 ∧ b1.IsMesh := by
  obtain ⟨ch, N, M, h1, h8, eb, hrec, hN, hIS, hM⟩ := explicit_of_isMesh b hb
  generalize b.Vertices.bTangentHighPrecision = hi at eb hrec
  generalize b.Vertices.bUVHighPrecision = uvhi at eb hrec
  generalize b.Vertices.PositionStream = P at eb hrec hN
  generalize b.Vertices.TangentStream = T at eb hrec
  generalize b.Vertices.UVStream = U at eb hrec
  generalize b.Vertices.ColorStream = C at eb hrec
  generalize b.Indices.IndexStream = IS at eb hIS hM
  generalize b.Indices.b32BitIndices = w at eb hIS hM
  subst eb
  have hw : 0 < indexWidth w := by cases w <;> simp [indexWidth]
  have hps : 0 < packedSize hi := by cases hi <;> simp [packedSize]
  have hnum : (FRuntimeMeshVerticesAccessor.create hi uvhi (ch : Int) P T U C).NumVertices
      = some (N : Int) := by
    rw [FRuntimeMeshVerticesAccessor.NumVertices_create, hN]
  have hnumI : (FRuntimeMeshIndicesAccessor.mk true IS w).NumIndices = some (M : Int) := by
    rw [FRuntimeMeshIndicesAccessor.NumIndices_eq _ rfl]
    simp only [hM]
  have inV : ∀ i : Int, (FRuntimeMeshVerticesAccessor.create hi uvhi (ch : Int) P T U C).InRange i
      → ∃ k : Nat, i = (k : Int) ∧ k + 1 ≤ N := by
    intro i hi
    unfold FRuntimeMeshVerticesAccessor.InRange at hi
    rw [hnum] at hi
    simp only at hi
    exact ⟨i.toNat, by omega, by omega⟩
  have bnd : ∀ (k st : Nat), k + 1 ≤ N → k * st + st ≤ N * st := by
    intro k st hk
    have := Nat.mul_le_mul_right st hk
    rwa [Nat.add_mul, Nat.one_mul] at this
  -- the shape of every case: the new vertex streams, or the new index stream
  have vdone : ∀ (r : Option FRuntimeMeshVerticesAccessor) (P1 T1 U1 C1 : TArray) (N1 : Nat),
      r = some (FRuntimeMeshVerticesAccessor.create hi uvhi (ch : Int) P1 T1 U1 C1) →
      HoldsRecords hi uvhi ch N1 P1 T1 U1 C1 →
      ∃ b1, r.map (fun a => ({ Vertices := a, Indices := ⟨true, IS, w⟩ } : FRuntimeMeshAccessor))
        = some b1 ∧ b1.IsMesh := by
    intro r P1 T1 U1 C1 N1 hr hrec1
    exact ⟨_, by rw [hr]; rfl, isMesh_of_explicit hi uvhi ch N1 M P1 T1 U1 C1 IS w h1 h8 hrec1 hIS⟩
  have idone : ∀ (r : Option FRuntimeMeshIndicesAccessor) (IS1 : TArray) (M1 : Nat),
      r = some ⟨true, IS1, w⟩ → IS1.length = M1 * indexWidth w →
      ∃ b1, r.map (fun a => (FRuntimeMeshAccessor.mk
          (FRuntimeMeshVerticesAccessor.create hi uvhi (ch : Int) P T U C) a)) = some b1 ∧
        b1.IsMesh := by
    intro r IS1 M1 hr hl
    exact ⟨_, by rw [hr]; rfl, isMesh_of_explicit hi uvhi ch N M1 P T U C IS1 w h1 h8 hrec hl⟩
  obtain ⟨hP, hT, hU, hC⟩ := hrec
  cases call with
  | AddVertex p =>
    obtain ⟨P1, T1, U1, C1, e, h⟩ := FRuntimeMeshVerticesAccessor.AddVertexCall_run_create cv
      hi uvhi ch N P T U C (AddVertexCall.position p) ⟨hP, hT, hU, hC⟩ h1 h8
      (fun v hv => AddVertexCall.noConfusion hv)
    exact ⟨_, by show Option.map _ (FRuntimeMeshVerticesAccessor.AddVertex _ p) = _
                 rw [show FRuntimeMeshVerticesAccessor.AddVertex _ p = _ from e]; rfl,
      isMesh_of_explicit hi uvhi ch (N + 1) M P1 T1 U1 C1 IS w h1 h8 h hIS⟩
  | AddVertexFull v =>
    have hv1 : v.UVs.length ≤ ch := by
      have : (v.UVs.length : Int) ≤ (ch : Int) := hv
      exact_mod_cast this
    obtain ⟨P1, T1, U1, C1, e, h⟩ := FRuntimeMeshVerticesAccessor.AddVertexCall_run_create cv
      hi uvhi ch N P T U C (AddVertexCall.vertex v) ⟨hP, hT, hU, hC⟩ h1 h8
      (fun u hu => by
        have : u = v := by injection hu with h; exact h.symm
        rw [this]; exact hv1)
    exact ⟨_, by show Option.map _ (FRuntimeMeshVerticesAccessor.AddVertexFull cv _ v) = _
                 rw [show FRuntimeMeshVerticesAccessor.AddVertexFull cv _ v = _ from e]; rfl,
      isMesh_of_explicit hi uvhi ch (N + 1) M P1 T1 U1 C1 IS w h1 h8 h hIS⟩
  | SetNumVertices n =>
    obtain ⟨hn, hfit⟩ : (0 : Int) ≤ n ∧
      (FRuntimeMeshVerticesAccessor.create hi uvhi (ch : Int) P T U C).SizesFit n := hv
    obtain ⟨k, rfl⟩ := Int.eq_ofNat_of_zero_le hn
    exact vdone _ _ _ _ _ k
      (FRuntimeMeshVerticesAccessor.SetNumVertices_create hi uvhi ch P T U C k hfit)
      ⟨length_resized _ _, length_resized _ _, length_resized _ _, length_resized _ _⟩
  | EmptyVertices s =>
    have hs : (0 : Int) ≤ s := hv.1
    obtain ⟨k, rfl⟩ := Int.eq_ofNat_of_zero_le hs
    exact vdone _ _ _ _ _ 0
      (FRuntimeMeshVerticesAccessor.EmptyVertices_create hi uvhi (ch : Int) P T U C k)
      ⟨by simp, by simp, by simp, by simp⟩
  | SetPosition i v =>
    obtain ⟨k, rfl, hk⟩ := inV i hv
    have hb := bnd k 12 hk
    exact vdone _ _ _ _ _ N
      (FRuntimeMeshVerticesAccessor.SetPosition_create hi uvhi (ch : Int) P T U C k v
        (by rw [Nat.add_mul, Nat.one_mul, hP]; exact hb))
      ⟨by rw [length_patch _ _ _ (by rw [length_encodeFVector, hP]; exact hb), hP], hT, hU, hC⟩
  | SetNormal i v =>
    obtain ⟨k, rfl, hk⟩ := inV i hv
    have hb := bnd k (2 * packedSize hi) hk
    exact vdone _ _ _ _ _ N
      (FRuntimeMeshVerticesAccessor.SetNormal_create cv hi uvhi (ch : Int) P T U C k v
        (by rw [Nat.add_mul, Nat.one_mul, hT]; exact hb))
      ⟨hP, by rw [length_patch _ _ _ (by rw [length_encodeNormal, hT]; omega), hT], hU, hC⟩
  | SetTangent i v =>
    obtain ⟨k, rfl, hk⟩ := inV i hv
    have hb := bnd k (2 * packedSize hi) hk
    exact vdone _ _ _ _ _ N
      (FRuntimeMeshVerticesAccessor.SetTangent_create cv hi uvhi (ch : Int) P T U C k v
        (by rw [Nat.add_mul, Nat.one_mul, hT]; exact hb))
      ⟨hP, by rw [length_patch _ _ _ (by rw [length_encodeTangent, hT]; omega), hT], hU, hC⟩
  | SetTangentFlip i v =>
    obtain ⟨k, rfl, hk⟩ := inV i hv
    have hb := bnd k (2 * packedSize hi) hk
    obtain ⟨T1, hl, e⟩ := (FRuntimeMeshVerticesAccessor.tangent_setters_create cv hi uvhi
      (ch : Int) P T U C k (by rw [Nat.add_mul, Nat.one_mul, hT]; exact hb)).1 v
    exact vdone _ _ _ _ _ N e ⟨hP, by rw [hl, hT], hU, hC⟩
  | SetColor i v =>
    obtain ⟨k, rfl, hk⟩ := inV i hv
    have hb := bnd k 4 hk
    exact vdone _ _ _ _ _ N
      (FRuntimeMeshVerticesAccessor.SetColor_create hi uvhi (ch : Int) P T U C k v
        (by rw [Nat.add_mul, Nat.one_mul, hC]; exact hb))
      ⟨hP, hT, hU, by rw [length_patch _ _ _ (by rw [length_encodeFColor, hC]; exact hb), hC]⟩
  | SetUV0 i v =>
    obtain ⟨k, rfl, hk⟩ := inV i hv
    have hb := bnd k (uvSize uvhi * ch) hk
    have hfit : uvSize uvhi ≤ uvSize uvhi * ch := Nat.le_mul_of_pos_right _ (by omega)
    exact vdone _ _ _ _ _ N
      (FRuntimeMeshVerticesAccessor.SetUV0_create cv hi uvhi ch P T U C k v (by omega) h8
        (by rw [Nat.add_mul, Nat.one_mul, hU]; exact hb))
      ⟨hP, hT, by rw [length_patch _ _ _ (by rw [length_encodeUV, hU]; omega), hU], hC⟩
  | SetUV i c v =>
    obtain ⟨hi1, hc0, hc1⟩ := hv
    obtain ⟨k, rfl, hk⟩ := inV i hi1
    obtain ⟨c, rfl⟩ := Int.eq_ofNat_of_zero_le hc0
    have hc2 : c < ch := by
      have : (c : Int) < (ch : Int) := hc1
      exact_mod_cast this
    have hb := bnd k (uvSize uvhi * ch) hk
    have hfit : c * uvSize uvhi + uvSize uvhi ≤ uvSize uvhi * ch := by
      have : (c + 1) * uvSize uvhi ≤ ch * uvSize uvhi := Nat.mul_le_mul_right _ (by omega)
      nlinarith
    exact vdone _ _ _ _ _ N
      (FRuntimeMeshVerticesAccessor.SetUV_create cv hi uvhi ch P T U C k c v hc2 h8
        (by rw [Nat.add_mul, Nat.one_mul, hU]; exact hb))
      ⟨hP, hT, by rw [length_patch _ _ _ (by rw [length_encodeUV, hU]; omega), hU], hC⟩
  | SetNormalTangent i n t =>
    obtain ⟨k, rfl, hk⟩ := inV i hv
    have hb := bnd k (2 * packedSize hi) hk
    obtain ⟨T1, hl, e⟩ := (FRuntimeMeshVerticesAccessor.tangent_setters_create cv hi uvhi
      (ch : Int) P T U C k (by rw [Nat.add_mul, Nat.one_mul, hT]; exact hb)).2.1 n t
    exact vdone _ _ _ _ _ N e ⟨hP, by rw [hl, hT], hU, hC⟩
  | SetTangents i x y z =>
    obtain ⟨k, rfl, hk⟩ := inV i hv
    have hb := bnd k (2 * packedSize hi) hk
    obtain ⟨T1, hl, e⟩ := (FRuntimeMeshVerticesAccessor.tangent_setters_create cv hi uvhi
      (ch : Int) P T U C k (by rw [Nat.add_mul, Nat.one_mul, hT]; exact hb)).2.2 x y z
    exact vdone _ _ _ _ _ N e ⟨hP, by rw [hl, hT], hU, hC⟩
  | SetVertex i v =>
    obtain ⟨hi1, hv1⟩ := hv
    obtain ⟨k, rfl, hk⟩ := inV i hi1
    have hv2 : v.UVs.length ≤ ch := by
      have : (v.UVs.length : Int) ≤ (ch : Int) := hv1
      exact_mod_cast this
    have b12 := bnd k 12 hk
    have bts := bnd k (2 * packedSize hi) hk
    have bus := bnd k (uvSize uvhi * ch) hk
    have b4 := bnd k 4 hk
    have fN : k * (2 * packedSize hi) + (encodeNormal cv hi v.Normal).length ≤ T.length := by
      rw [length_encodeNormal, hT]; omega
    have fT : k * (2 * packedSize hi) + packedSize hi + (encodeTangent cv hi v.Tangent).length
        ≤ (patch T (k * (2 * packedSize hi)) (encodeNormal cv hi v.Normal)).length := by
      rw [length_encodeTangent, length_patch _ _ _ fN, hT]; omega
    exact vdone _ _ _ _ _ N
      (FRuntimeMeshVerticesAccessor.SetVertex_create cv hi uvhi ch N P T U C k v
        ⟨hP, hT, hU, hC⟩ hk h1 h8 hv2)
      ⟨by rw [length_patch _ _ _ (by rw [length_encodeFVector, hP]; exact b12), hP],
       by rw [length_patch _ _ _ fT, length_patch _ _ _ fN, hT],
       by rw [length_patch _ _ _ (by
            rw [length_encodeUVs, hU]
            have : v.UVs.length * uvSize uvhi ≤ ch * uvSize uvhi :=
              Nat.mul_le_mul_right _ hv2
            rw [Nat.mul_comm (uvSize uvhi) ch] at bus ⊢
            omega), hU],
       by rw [length_patch _ _ _ (by rw [length_encodeFColor, hC]; exact b4), hC]⟩
  | AddIndex v =>
    exact ⟨_, by show Option.map _ (FRuntimeMeshIndicesAccessor.AddIndex _ v) = _
                 rw [FRuntimeMeshIndicesAccessor.AddIndex_aligned w IS M v hIS]; rfl,
      isMesh_of_explicit hi uvhi ch N (M + 1) P T U C _ w h1 h8 ⟨hP, hT, hU, hC⟩
        (by rw [List.length_append, length_indexBytes, hIS]; ring)⟩
  | AddTriangle x y z =>
    have e := FRuntimeMeshIndicesAccessor.AddTriangle_eq ⟨true, IS, w⟩ x y z rfl
    simp only [hM] at e
    have l0 : (IS ++ List.replicate (indexWidth w * 3) 0).length = (M + 3) * indexWidth w := by
      rw [List.length_append, List.length_replicate, hIS]; ring
    have b0 : M * indexWidth w + (indexBytes w x).length ≤
        (IS ++ List.replicate (indexWidth w * 3) 0).length := by
      rw [length_indexBytes, l0]; simp only [Nat.add_mul]; omega
    have l1 := length_patch _ _ _ b0
    have b1 : (M + 1) * indexWidth w + (indexBytes w y).length ≤
        (patch (IS ++ List.replicate (indexWidth w * 3) 0) (M * indexWidth w)
          (indexBytes w x)).length := by
      rw [length_indexBytes, l1, l0]; simp only [Nat.add_mul]; omega
    have l2 := length_patch _ _ _ b1
    have b2 : (M + 2) * indexWidth w + (indexBytes w z).length ≤
        (patch (patch (IS ++ List.replicate (indexWidth w * 3) 0) (M * indexWidth w)
          (indexBytes w x)) ((M + 1) * indexWidth w) (indexBytes w y)).length := by
      rw [length_indexBytes, l2, l1, l0]; simp only [Nat.add_mul]; omega
    have l3 := length_patch _ _ _ b2
    exact ⟨_, by show Option.map _ (FRuntimeMeshIndicesAccessor.AddTriangle _ x y z) = _
                 rw [e]; rfl,
      isMesh_of_explicit hi uvhi ch N (M + 3) P T U C _ w h1 h8 ⟨hP, hT, hU, hC⟩
        (by rw [l3, l2, l1, l0])⟩
  | SetNumIndices n =>
    obtain ⟨hn, hfit⟩ : (0 : Int) ≤ n ∧
      (FRuntimeMeshIndicesAccessor.mk true IS w).SizeFits n := hv
    obtain ⟨k, rfl⟩ := Int.eq_ofNat_of_zero_le hn
    refine idone _ (resized IS (k * indexWidth w)) k ?_ (length_resized _ _)
    have e := SetNumZeroed_eq IS
      (mulInt32 (k : Int) (FRuntimeMeshIndicesAccessor.mk true IS w).GetIndexStride)
      (k * indexWidth w) (by
        rw [mulInt32_eq _ _ hfit, FRuntimeMeshIndicesAccessor.GetIndexStride_eq]
        push_cast; rfl)
    unfold FRuntimeMeshIndicesAccessor.SetNumIndices
    simp only [Option.bind_eq_bind, Option.pure_def]
    show (check true).bind _ = _
    rw [show check true = some () from rfl, Option.some_bind]
    show (TArray.SetNumZeroed IS _).bind _ = _
    rw [e, Option.some_bind]
  | EmptyIndices s =>
    have hs : (0 : Int) ≤ s := hv.1
    obtain ⟨k, rfl⟩ := Int.eq_ofNat_of_zero_le hs
    refine idone _ [] 0 ?_ (by simp)
    have h0 : (0 : Int) ≤ (k : Int) *
        (FRuntimeMeshIndicesAccessor.mk true IS w).GetIndexStride := by
      rw [FRuntimeMeshIndicesAccessor.GetIndexStride_eq]
      positivity
    simp only [FRuntimeMeshIndicesAccessor.EmptyIndices, check, TArray.Empty, h0, if_true,
      Option.bind_eq_bind, Option.some_bind, Option.pure_def]
  | SetIndex i v =>
    have hi1 : (FRuntimeMeshIndicesAccessor.mk true IS w).InRange i := hv
    unfold FRuntimeMeshIndicesAccessor.InRange at hi1
    rw [hnumI] at hi1
    simp only at hi1
    obtain ⟨k, rfl⟩ := Int.eq_ofNat_of_zero_le hi1.1
    have hk : k + 1 ≤ M := by omega
    have hb : (k + 1) * indexWidth w ≤ IS.length := by
      rw [hIS]; exact Nat.mul_le_mul_right _ hk
    refine idone _ (patch IS (k * indexWidth w) (indexBytes w v)) M
      (FRuntimeMeshIndicesAccessor.SetIndex_eq ⟨true, IS, w⟩ k v rfl hb) ?_
    rw [length_patch _ _ _ (by
      rw [length_indexBytes]; rw [Nat.add_mul, Nat.one_mul] at hb; exact hb), hIS]
  | CopyFrom Source bClear =>
    have hS : Source.IsMesh := hv.1
    obtain ⟨sch, Ns, Ms, hs1, hs8, eS, hSrec, -, hSI, -⟩ := explicit_of_isMesh Source hS
    cases bClear
    · obtain ⟨tp, tt, tu, tc, ti, e, ⟨q1, q2, q3, q4⟩, -, -, hti, -⟩ := CopyTo_append_spec cv
        Source.Vertices.bTangentHighPrecision Source.Vertices.bUVHighPrecision sch
        Source.Vertices.PositionStream Source.Vertices.TangentStream Source.Vertices.UVStream
        Source.Vertices.ColorStream Source.Indices.IndexStream Source.Indices.b32BitIndices
        Ns Ms hi uvhi ch P T U C IS w N M hs8 h8 hSrec hSI ⟨hP, hT, hU, hC⟩ hIS
      rw [← eS] at e
      exact ⟨_, e, isMesh_of_explicit hi uvhi ch (N + Ns) (M + Ms) _ _ _ _ _ w h1 h8
        ⟨by rw [List.length_append, hP, q1]; ring, by rw [List.length_append, hT, q2]; ring,
         by rw [List.length_append, hU, q3]; ring, by rw [List.length_append, hC, q4]; ring⟩
        (by rw [List.length_append, hIS, hti]; ring)⟩
    · obtain ⟨tp, tt, tu, tc, ti, e, hrec1, -, -, hti, -⟩ := CopyTo_clear_spec cv
        Source.Vertices.bTangentHighPrecision Source.Vertices.bUVHighPrecision sch
        Source.Vertices.PositionStream Source.Vertices.TangentStream Source.Vertices.UVStream
        Source.Vertices.ColorStream Source.Indices.IndexStream Source.Indices.b32BitIndices
        Ns Ms hi uvhi ch P T U C IS w hs8 h8 hSrec hSI
      rw [← eS] at e
      exact ⟨_, e, isMesh_of_explicit hi uvhi ch Ns Ms _ _ _ _ _ w h1 h8 hrec1 hti⟩

theorem runCalls_preserves (cv : EngineConversions) :
    ∀ (calls : List BuilderCall) (b : FRuntimeMeshAccessor), b.IsMesh → ValidCalls cv b calls →
      ∃ b1, runCalls cv b calls = some b1 ∧ b1.IsMesh := by
  intro calls
  induction calls with
  | nil =>
    intro b hb _
    exact ⟨b, rfl, hb⟩
  | cons call rest ih =>
    intro b hb hv
    obtain ⟨hv1, hv2⟩ := hv
    obtain ⟨b1, e1, hb1⟩ := run_preserves cv b call hb hv1
    obtain ⟨b2, e2, hb2⟩ := ih b1 hb1 (hv2 b1 e1)
    exact ⟨b2, by show (call.run cv b).bind _ = _; rw [e1, Option.some_bind]; exact e2, hb2⟩

theorem validCalls_cons (cv : EngineConversions) (b b1 : FRuntimeMeshAccessor)
    (call : BuilderCall) (rest : List BuilderCall) (hv : call.ValidArgs b)
    (hr : call.run cv b = some b1) (hrest : ValidCalls cv b1 rest) :
    ValidCalls cv b (call :: rest) :=
  ⟨hv, fun b2 h => by
    rw [hr] at h
    cases h
    exact hrest⟩

theorem builder_isMesh (hi uvhi : Bool) (ch : Nat) (w : Bool) (h1 : 1 ≤ ch) (h8 : ch ≤ 8) :
    FRuntimeMeshBuilder hi uvhi (ch : Int) w =
      some ⟨FRuntimeMeshVerticesAccessor.create hi uvhi (ch : Int) [] [] [] [],
        ⟨true, [], w⟩⟩ ∧
    (FRuntimeMeshAccessor.mk (FRuntimeMeshVerticesAccessor.create hi uvhi (ch : Int) [] [] [] [])
      ⟨true, [], w⟩).IsMesh := by
  refine ⟨?_, isMesh_of_explicit hi uvhi ch 0 0 [] [] [] [] [] w h1 h8
    ⟨by simp, by simp, by simp, by simp⟩ (by simp)⟩
  cases w <;> rfl

end FRuntimeMeshAccessor

/-- C7: a newly constructed builder of any configuration with 1 to 8 UV channels satisfies
the stream length invariant, and so does the builder after every finite sequence of
mutating calls with valid arguments (which all succeed): the position, tangent, UV and
color streams have `NumVertices()*12`, `NumVertices()*TangentStride`,
`NumVertices()*UVStride` and `NumVertices()*4` bytes and the index stream has
`NumIndices()*GetIndexStride()` bytes, with `GetIndexStride()` 2 or 4. The arguments of a
call are valid (`ValidArgs`) when indices, positions and channels are in range, a logical
vertex has at most `NumUVChannels()` UVs, a copy source is a mesh, and a count or slack is
not negative and small enough for the byte sizes computed from it to be `int32` values. -/
theorem stream_length_invariant (cv : EngineConversions) (hi uvhi w : Bool) (ch : Int)
    (calls : List BuilderCall) (h1 : 1 ≤ ch) (h8 : ch ≤ 8) :
    ∃ b0, FRuntimeMeshBuilder hi uvhi ch w = some b0 ∧ b0.StreamLengths ∧
      (ValidCalls cv b0 calls → ∃ b, runCalls cv b0 calls = some b ∧ b.StreamLengths) := by
  obtain ⟨k, rfl⟩ := Int.eq_ofNat_of_zero_le (show (0 : Int) ≤ ch by omega)
  obtain ⟨e0, hb0⟩ := FRuntimeMeshAccessor.builder_isMesh hi uvhi k w (by omega) (by omega)
  refine ⟨_, e0, FRuntimeMeshAccessor.streamLengths_of_isMesh _ hb0, ?_⟩
  intro hv
  obtain ⟨b, e, hb⟩ := FRuntimeMeshAccessor.runCalls_preserves cv calls _ hb0 hv
  exact ⟨b, e, FRuntimeMeshAccessor.streamLengths_of_isMesh _ hb⟩

/-- Witness for C7: a new builder (low precision, one channel, 16-bit indices), then
`AddVertex`, `SetColor(0, ...)`, `AddTriangle(0, 0, 0)` and `SetNumVertices(2)`. -/
theorem stream_length_invariant_witness :
    ValidCalls sampleConversions
      ⟨FRuntimeMeshVerticesAccessor.create false false 1 [] [] [] [], ⟨true, [], false⟩⟩
      [BuilderCall.AddVertex { X := 1, Y := 2, Z := 3 },
       BuilderCall.SetColor 0 { B := 1, G := 2, R := 3, A := 4 },
       BuilderCall.AddTriangle 0 0 0, BuilderCall.SetNumVertices 2] ∧
    ∃ b0, FRuntimeMeshBuilder false false 1 false = some b0 ∧ b0.StreamLengths ∧
      (ValidCalls sampleConversions b0
          [BuilderCall.AddVertex { X := 1, Y := 2, Z := 3 },
           BuilderCall.SetColor 0 { B := 1, G := 2, R := 3, A := 4 },
           BuilderCall.AddTriangle 0 0 0, BuilderCall.SetNumVertices 2] →
        ∃ b, runCalls sampleConversions b0
          [BuilderCall.AddVertex { X := 1, Y := 2, Z := 3 },
           BuilderCall.SetColor 0 { B := 1, G := 2, R := 3, A := 4 },
           BuilderCall.AddTriangle 0 0 0, BuilderCall.SetNumVertices 2] = some b ∧
          b.StreamLengths) :=
  by
  refine ⟨?_, stream_length_invariant sampleConversions false false false 1 _ (by decide)
    (by decide)⟩
  refine FRuntimeMeshAccessor.validCalls_cons _ _ _ _ _ (by decide) rfl ?_
  refine FRuntimeMeshAccessor.validCalls_cons _ _ _ _ _ (by decide) rfl ?_
  refine FRuntimeMeshAccessor.validCalls_cons _ _ _ _ _ (by decide) rfl ?_
  exact FRuntimeMeshAccessor.validCalls_cons _ _ _ _ _ (by decide) rfl trivial

/-! ### What a successful access says -/

theorem check_some (c : Bool) (u : Unit) (h : check c = some u) : c = true := by
  cases c
  · exact Option.noConfusion h
  · rfl

theorem writeBytes_some (Data : TArray) (Start : Nat) (Bytes : List Nat) (Data1 : TArray)
    (h : writeBytes Data Start Bytes = some Data1) :
    Start + Bytes.length ≤ Data.length ∧ Data1 = patch Data Start Bytes := by
  unfold writeBytes at h
  split at h
  · rename_i hc
    exact ⟨hc, (Option.some.inj h).symm⟩
  · exact Option.noConfusion h

namespace FRuntimeMeshVerticesAccessor

end FRuntimeMeshVerticesAccessor

namespace FRuntimeMeshVerticesAccessor

theorem Initialize_eq_create (self : FRuntimeMeshVerticesAccessor) (hi uvhi : Bool) (ch : Int) :
    self.Initialize hi uvhi ch =
      create hi uvhi ch self.PositionStream self.TangentStream self.UVStream self.ColorStream :=
  rfl

theorem UVSize_create (hi uvhi : Bool) (ch : Int) (P T U C : TArray) :
    (create hi uvhi ch P T U C).UVSize = ((uvSize uvhi : Nat) : Int) := by
  cases uvhi <;> rfl

theorem inRange_create (hi uvhi : Bool) (ch : Int) (P T U C : TArray) (Index : Int)
    (h : (create hi uvhi ch P T U C).InRange Index) :
    ∃ i : Nat, Index = (i : Int) ∧ i < P.length / 12 := by
  unfold InRange at h
  rw [NumVertices_create] at h
  simp only at h
  obtain ⟨i, rfl⟩ := Int.eq_ofNat_of_zero_le h.1
  exact ⟨i, rfl, by omega⟩

/-- On an accessor with 1 to 8 channels that satisfies the stream length invariant, UV
access at an in-range index and an in-range channel returns. -/
theorem UV_access_create (cv : EngineConversions) (hi uvhi : Bool) (ch N : Nat)
    (P T U C : TArray) (h8 : ch ≤ 8) (hrec : HoldsRecords hi uvhi ch N P T U C)
    (i c : Nat) (hi1 : i < N) (hc : c < ch) :
    i * (uvSize uvhi * ch) + c * uvSize uvhi + uvSize uvhi ≤ U.length ∧
    (create hi uvhi (ch : Int) P T U C).GetUV cv (i : Int) (c : Int) =
      some (decodeUV cv uvhi (slice U (i * (uvSize uvhi * ch) + c * uvSize uvhi) (uvSize uvhi))) ∧
    ∀ v, (create hi uvhi (ch : Int) P T U C).SetUV cv (i : Int) (c : Int) v =
      some (create hi uvhi (ch : Int) P T
        (patch U (i * (uvSize uvhi * ch) + c * uvSize uvhi) (encodeUV cv uvhi v)) C) := by
  have hU : (i + 1) * (uvSize uvhi * ch) ≤ U.length := by
    rw [hrec.2.2.1]
    exact Nat.mul_le_mul_right _ hi1
  refine ⟨?_, GetUV_create cv hi uvhi ch P T U C i c hc h8 hU,
    fun v => SetUV_create cv hi uvhi ch P T U C i c v hc h8 hU⟩
  have h1 : c * uvSize uvhi + uvSize uvhi ≤ uvSize uvhi * ch := by
    have : (c + 1) * uvSize uvhi ≤ ch * uvSize uvhi := Nat.mul_le_mul_right _ hc
    rw [Nat.mul_comm _ ch]
    rw [Nat.add_mul, Nat.one_mul] at this
    exact this
  rw [Nat.add_mul, Nat.one_mul] at hU
  omega

end FRuntimeMeshVerticesAccessor

/-! ### Emptying -/

/-- C14: `Initialize(b32)` of an index accessor over a pre-existing stream faults if and
only if the byte length of the stream is not a multiple of the element width (4 for 32-bit
indices, 2 for 16-bit indices); when it succeeds the stream is the one given, the accessor
is initialized with that width, and `NumIndices()` times the width is the byte length of
the stream. The same holds for the constructor that initializes. -/
theorem Initialize_faults_iff (self : FRuntimeMeshIndicesAccessor) (b32 : Bool) :
    (self.Initialize b32 = none ↔ self.IndexStream.length % (if b32 then 4 else 2) ≠ 0) ∧
    (FRuntimeMeshIndicesAccessor.create b32 self.IndexStream = none ↔
      self.IndexStream.length % (if b32 then 4 else 2) ≠ 0) ∧
    (∀ a, self.Initialize b32 = some a →
      a.IndexStream = self.IndexStream ∧ a.bIsInitialized = true ∧ a.b32BitIndices = b32 ∧
      a.GetIndexStride = (if b32 then 4 else 2) ∧
      ∃ n, a.NumIndices = some n ∧ n * a.GetIndexStride = (self.IndexStream.length : Int)) := by
  have key : ∀ s : FRuntimeMeshIndicesAccessor,
      (s.Initialize b32 = none ↔ s.IndexStream.length % (if b32 then 4 else 2) ≠ 0) := by
    intro s
    cases b32 <;>
      simp [FRuntimeMeshIndicesAccessor.Initialize, check, TArray.Num] <;> omega
  refine ⟨key self, key (FRuntimeMeshIndicesAccessor.new self.IndexStream), ?_⟩
  intro a ha
  have hne : ¬ (self.IndexStream.length % (if b32 then 4 else 2) ≠ 0) := by
    intro h
    rw [(key self).2 h] at ha
    exact Option.noConfusion ha
  have hmod : self.IndexStream.length % (if b32 then 4 else 2) = 0 := not_not.mp hne
  have hsome : self.Initialize b32 =
      some { self with bIsInitialized := true, b32BitIndices := b32 } := by
    cases b32
    · have h2 : (2 : Int) ∣ (self.IndexStream.length : Int) := by
        simp only [Bool.false_eq_true, if_false] at hmod
        omega
      simp [FRuntimeMeshIndicesAccessor.Initialize, check, TArray.Num, h2]
    · have h4 : (4 : Int) ∣ (self.IndexStream.length : Int) := by
        simp only [if_true] at hmod
        omega
      simp [FRuntimeMeshIndicesAccessor.Initialize, check, TArray.Num, h4]
  have ea : a = { self with bIsInitialized := true, b32BitIndices := b32 } :=
    (Option.some.inj (hsome.symm.trans ha)).symm
  subst ea
  refine ⟨rfl, rfl, rfl, ?_, ?_⟩
  · simp [FRuntimeMeshIndicesAccessor.GetIndexStride]
  · refine ⟨_, FRuntimeMeshIndicesAccessor.NumIndices_eq _ rfl, ?_⟩
    cases b32
    · simp only [FRuntimeMeshIndicesAccessor.GetIndexStride, indexWidth] at hmod ⊢
      simp only [Bool.false_eq_true, if_false] at hmod ⊢
      omega
    · simp only [FRuntimeMeshIndicesAccessor.GetIndexStride, indexWidth] at hmod ⊢
      simp only [if_true] at hmod ⊢
      omega

/-- Witness for C14: a stream of 3 bytes is refused at both widths, a stream of 6 bytes is
accepted with 16-bit indices and refused with 32-bit indices. -/
theorem Initialize_faults_iff_witness :
    (FRuntimeMeshIndicesAccessor.new [1, 2, 3]).Initialize false = none ∧
    (FRuntimeMeshIndicesAccessor.new [1, 2, 3, 4, 5, 6]).Initialize true = none ∧
    (FRuntimeMeshIndicesAccessor.new [1, 2, 3, 4, 5, 6]).Initialize false ≠ none :=
  ⟨(Initialize_faults_iff (FRuntimeMeshIndicesAccessor.new [1, 2, 3]) false).1.2 (by decide),
    (Initialize_faults_iff (FRuntimeMeshIndicesAccessor.new [1, 2, 3, 4, 5, 6]) true).1.2
      (by decide),
    fun h => (Initialize_faults_iff (FRuntimeMeshIndicesAccessor.new [1, 2, 3, 4, 5, 6])
      false).1.1 h (by decide)⟩

/-! ### Record layout -/

/-- C15 (as stated, refuted): an accessor initialized with nine UV channels that holds one
vertex and satisfies the stream length invariant. Vertex index 0 is in range and channel 8
satisfies `0 <= channel < NumUVChannels()`, yet `GetUV(0, 8)` and `SetUV(0, 8, value)`
fault: the record is overlaid with a static array of eight elements. Channel 7 is
accessible. -/
theorem UV_access_faults_in_ninth_channel :
    sampleVerticesNineChannels.IsInitialized ∧ sampleVerticesNineChannels.LengthInv ∧
    sampleVerticesNineChannels.InRange 0 ∧
    sampleVerticesNineChannels.NumUVChannels = some 9 ∧
    sampleVerticesNineChannels.GetUV sampleConversions 0 8 = none ∧
    sampleVerticesNineChannels.SetUV sampleConversions 0 8 { X := 1, Y := 2 } = none ∧
    StaticArrayOffset 8 4 = none ∧
    sampleVerticesNineChannels.GetUV sampleConversions 0 7 = some { X := 0, Y := 0 } :=
  ⟨by decide, by decide, by decide, by decide, by decide, by decide, by decide, by decide⟩

/-- C15 (amended): for every initialized vertex accessor with at most 8 UV channels (the
range of the data model) that satisfies the stream length invariant and every vertex index with
`0 <= index < NumVertices()`: `GetUV(index, channel)` and `SetUV(index, channel, value)`
fault if and only if `channel < 0` or `channel >= NumUVChannels()`; and when
`0 <= channel < NumUVChannels()` the bytes they touch, the `UVSize` bytes from byte
`index*UVStride + channel*UVSize` on, lie inside the UV stream: `GetUV` returns the value
decoded from them and `SetUV` replaces them. -/
theorem UV_access_faults_iff (cv : EngineConversions) (acc : FRuntimeMeshVerticesAccessor)
    (Index Channel : Int) (hinit : acc.IsInitialized) (h8 : acc.UVChannelCount ≤ 8)
    (hinv : acc.LengthInv) (hidx : acc.InRange Index) :
    ∃ n, acc.NumUVChannels = some n ∧
      (acc.GetUV cv Index Channel = none ↔ (Channel < 0 ∨ Channel ≥ n)) ∧
      (∀ v, acc.SetUV cv Index Channel v = none ↔ (Channel < 0 ∨ Channel ≥ n)) ∧
      (0 ≤ Channel → Channel < n →
        ∃ q : Nat, (q : Int) = Index * acc.UVStride + Channel * acc.UVSize ∧
          ((q : Int) + acc.UVSize ≤ acc.UVStream.Num) ∧
          acc.GetUV cv Index Channel =
            some (decodeUV cv acc.bUVHighPrecision (slice acc.UVStream q acc.UVSize.toNat)) ∧
          ∀ v, (encodeUV cv acc.bUVHighPrecision v).length = acc.UVSize.toNat ∧
            acc.SetUV cv Index Channel v = some { acc with
              UVStream := patch acc.UVStream q (encodeUV cv acc.bUVHighPrecision v) }) := by
  have hb : acc.bIsInitialized = true := by
    rw [FRuntimeMeshVerticesAccessor.eq_create_of_isInitialized acc hinit]; rfl
  have hnum : acc.NumUVChannels = some acc.UVChannelCount := by
    simp [FRuntimeMeshVerticesAccessor.NumUVChannels, check, hb]
  have hout : (Channel < 0 ∨ Channel ≥ acc.UVChannelCount) →
      acc.GetUV cv Index Channel = none ∧ ∀ v, acc.SetUV cv Index Channel v = none := by
    intro h
    have hd : decide (Channel ≥ 0 ∧ Channel < acc.UVChannelCount) = false := by
      apply decide_eq_false
      omega
    refine ⟨?_, fun v => ?_⟩
    · unfold FRuntimeMeshVerticesAccessor.GetUV
      rw [hd]
      simp [check, hb]
    · unfold FRuntimeMeshVerticesAccessor.SetUV
      rw [hd]
      simp [check, hb]
  by_cases hc1 : 1 ≤ acc.UVChannelCount
  swap
  · have hall : Channel < 0 ∨ Channel ≥ acc.UVChannelCount := by omega
    exact ⟨_, hnum, ⟨fun _ => hall, fun _ => (hout hall).1⟩,
      fun v => ⟨fun _ => hall, fun _ => (hout hall).2 v⟩, fun h0 hlt => absurd hlt (by omega)⟩
  obtain ⟨ch, N, h1, h8n, hc, eacc, hrec, hN⟩ :=
    FRuntimeMeshVerticesAccessor.explicit_of_inv acc hinit ⟨hc1, h8⟩ hinv
  have hsz : acc.UVSize = ((uvSize acc.bUVHighPrecision : Nat) : Int) := by
    rw [eacc]; exact FRuntimeMeshVerticesAccessor.UVSize_create _ _ _ _ _ _ _
  have hst : acc.UVStride = ((uvSize acc.bUVHighPrecision * ch : Nat) : Int) := by
    rw [eacc]; exact FRuntimeMeshVerticesAccessor.UVStride_create _ _ _ _ _ _ _
  have hidx1 := hidx
  rw [eacc] at hidx1
  obtain ⟨i, rfl, hi⟩ := FRuntimeMeshVerticesAccessor.inRange_create _ _ _ _ _ _ _ _ hidx1
  have hi1 : i < N := by rw [← hN]; exact hi
  have hin : ∀ c : Nat, c < ch →
      i * (uvSize acc.bUVHighPrecision * ch) + c * uvSize acc.bUVHighPrecision +
          uvSize acc.bUVHighPrecision ≤ acc.UVStream.length ∧
      acc.GetUV cv (i : Int) (c : Int) = some (decodeUV cv acc.bUVHighPrecision
        (slice acc.UVStream (i * (uvSize acc.bUVHighPrecision * ch) +
          c * uvSize acc.bUVHighPrecision) (uvSize acc.bUVHighPrecision))) ∧
      ∀ v, acc.SetUV cv (i : Int) (c : Int) v = some { acc with
        UVStream := (patch acc.UVStream (i * (uvSize acc.bUVHighPrecision * ch) +
          c * uvSize acc.bUVHighPrecision) (encodeUV cv acc.bUVHighPrecision v)) } := by
    intro c hcc
    obtain ⟨hle, hg, hs⟩ := FRuntimeMeshVerticesAccessor.UV_access_create cv _ _ ch N _ _ _ _
      h8n hrec i c hi1 hcc
    rw [← eacc] at hg hs
    refine ⟨hle, hg, fun v => ?_⟩
    rw [hs v]
    conv_rhs => rw [eacc]
    rfl
  refine ⟨acc.UVChannelCount, hnum, ?_, ?_, ?_⟩
  · constructor
    · intro hnone
      by_contra hcon
      obtain ⟨c, rfl⟩ := Int.eq_ofNat_of_zero_le (show (0 : Int) ≤ Channel by omega)
      rw [(hin c (by omega)).2.1] at hnone
      exact Option.noConfusion hnone
    · exact fun h => (hout h).1
  · intro v
    constructor
    · intro hnone
      by_contra hcon
      obtain ⟨c, rfl⟩ := Int.eq_ofNat_of_zero_le (show (0 : Int) ≤ Channel by omega)
      rw [(hin c (by omega)).2.2 v] at hnone
      exact Option.noConfusion hnone
    · exact fun h => (hout h).2 v
  · intro h0 hlt
    obtain ⟨c, rfl⟩ := Int.eq_ofNat_of_zero_le h0
    obtain ⟨hle, hg, hs⟩ := hin c (by omega)
    refine ⟨i * (uvSize acc.bUVHighPrecision * ch) + c * uvSize acc.bUVHighPrecision,
      ?_, ?_, ?_, fun v => ⟨?_, ?_⟩⟩
    · rw [hst, hsz]; push_cast; ring
    · rw [hsz]; unfold TArray.Num; exact_mod_cast hle
    · rw [hsz, Int.toNat_ofNat]; exact hg
    · rw [hsz, Int.toNat_ofNat]; exact length_encodeUV _ _ _
    · exact hs v

/-- Witness for C15 (amended): vertex 1 of a two-vertex accessor with one UV channel;
channel 1 is out of range. -/
theorem UV_access_faults_iff_witness :
    sampleVerticesTwo.IsInitialized ∧ sampleVerticesTwo.UVChannelCount ≤ 8 ∧
    sampleVerticesTwo.LengthInv ∧ sampleVerticesTwo.InRange 1 ∧
    ∃ n, sampleVerticesTwo.NumUVChannels = some n ∧
      (sampleVerticesTwo.GetUV sampleConversions 1 1 = none ↔ ((1 : Int) < 0 ∨ (1 : Int) ≥ n)) :=
  ⟨by decide, by decide, by decide, by decide,
    (UV_access_faults_iff sampleConversions sampleVerticesTwo 1 1 (by decide) (by decide)
      (by decide) (by decide)).imp fun _ h => ⟨h.1, h.2.1⟩⟩

theorem patch_append_left (s t : TArray) (q : Nat) (Bytes : List Nat)
    (h : q + Bytes.length ≤ s.length) :
    patch (s ++ t) q Bytes = patch s q Bytes ++ t := by
  apply List.ext_getElem?
  intro i
  rw [getElem?_patch _ _ _ (by rw [List.length_append]; omega), List.getElem?_append,
    List.getElem?_append, length_patch _ _ _ h, getElem?_patch _ _ _ h]
  by_cases h1 : q ≤ i ∧ i < q + Bytes.length
  · rw [if_pos h1, if_pos (by omega), if_pos h1]
  · rw [if_neg h1]
    by_cases h2 : i < s.length
    · rw [if_pos h2, if_pos h2, if_neg h1]
    · rw [if_neg h2, if_neg h2]

namespace FRuntimeMeshVerticesAccessor

theorem explicit_of_inv_nonneg (acc : FRuntimeMeshVerticesAccessor) (hinit : acc.IsInitialized)
    (hch : 0 ≤ acc.UVChannelCount) (hinv : acc.LengthInv) :
    ∃ ch N : Nat, acc.UVChannelCount = (ch : Int) ∧
      acc = create acc.bTangentHighPrecision acc.bUVHighPrecision (ch : Int)
        acc.PositionStream acc.TangentStream acc.UVStream acc.ColorStream ∧
      HoldsRecords acc.bTangentHighPrecision acc.bUVHighPrecision ch N
        acc.PositionStream acc.TangentStream acc.UVStream acc.ColorStream ∧
      acc.PositionStream.length / 12 = N := by
  obtain ⟨l1, l2, l3, l4⟩ := hinv
  have hcr := eq_create_of_isInitialized _ hinit
  have hch : acc.UVChannelCount = ((acc.UVChannelCount.toNat : Nat) : Int) := by omega
  have hts : acc.TangentStride = ((2 * packedSize acc.bTangentHighPrecision : Nat) : Int) := by
    rw [hcr]
    cases acc.bTangentHighPrecision <;> rfl
  have hus : acc.UVStride =
      ((uvSize acc.bUVHighPrecision * acc.UVChannelCount.toNat : Nat) : Int) := by
    rw [hcr, hch]
    exact UVStride_create _ _ _ _ _ _ _
  refine ⟨acc.UVChannelCount.toNat, acc.PositionStream.length / 12, hch,
    ?_, ⟨?_, ?_, ?_, ?_⟩, rfl⟩
  · rw [← hch, ← hcr]
  · simp only [TArray.Num, PositionStride] at l1
    omega
  · simp only [TArray.Num, PositionStride] at l2
    rw [hts] at l2
    exact_mod_cast l2
  · simp only [TArray.Num, PositionStride] at l3
    rw [hus] at l3
    exact_mod_cast l3
  · simp only [TArray.Num, PositionStride, ColorStride] at l4
    omega

end FRuntimeMeshVerticesAccessor

/-! ### AddVertex returns the prior count -/

namespace FRuntimeMeshVerticesAccessor

theorem AddSingleVertex_some (acc acc1 : FRuntimeMeshVerticesAccessor) (n : Int)
    (h : acc.AddSingleVertex = some (n, acc1)) :
    acc.NumVertices = some n ∧ acc1.bIsInitialized = acc.bIsInitialized ∧
      acc1.PositionStream = acc.PositionStream ++ List.replicate 12 0 := by
  unfold AddSingleVertex at h
  simp only [Option.bind_eq_bind, Option.pure_def, Option.bind_eq_some] at h
  obtain ⟨n0, hn, p, hp, t, _, u, _, c, _, e⟩ := h
  have e1 := Option.some.inj e
  injection e1 with e2 e3
  subst e2
  subst e3
  refine ⟨hn, rfl, ?_⟩
  unfold TArray.AddZeroed at hp
  simp only [PositionStride] at hp
  rw [if_pos (by norm_num)] at hp
  exact (Option.some.inj hp).symm

theorem SetVertex_some_position (cv : EngineConversions)
    (acc acc1 : FRuntimeMeshVerticesAccessor) (Index : Int) (v : FRuntimeMeshAccessorVertex)
    (h : acc.SetVertex cv Index v = some acc1) :
    acc1.bIsInitialized = true ∧ acc1.PositionStream.length = acc.PositionStream.length := by
  unfold SetVertex at h
  simp only [Option.bind_eq_bind, Option.pure_def, Option.bind_eq_some] at h
  obtain ⟨u0, hc, pp, hpp, ps, hps, tp, htp, ts, hts, cp, hcp, cs, hcs, up, hup, us, hus, e⟩ := h
  have hinit := check_some _ _ hc
  have hw := writeBytes_some _ _ _ _ hps
  have e1 := Option.some.inj e
  subst e1
  refine ⟨hinit, ?_⟩
  show ps.length = _
  rw [hw.2, length_patch _ _ _ hw.1]

theorem AddVertexFull_some (cv : EngineConversions)
    (acc acc1 : FRuntimeMeshVerticesAccessor) (v : FRuntimeMeshAccessorVertex) (n : Int)
    (h : acc.AddVertexFull cv v = some (n, acc1)) :
    acc.NumVertices = some n ∧ acc1.NumVertices = some (n + 1) := by
  unfold AddVertexFull at h
  simp only [Option.bind_eq_bind, Option.pure_def, Option.bind_eq_some] at h
  obtain ⟨u0, hc, ⟨n0, a0⟩, ha, a1, hs, e⟩ := h
  have e1 := Option.some.inj e
  injection e1 with e2 e3
  subst e2
  subst e3
  obtain ⟨hn, _, hP⟩ := AddSingleVertex_some _ _ _ ha
  obtain ⟨hi1, hl⟩ := SetVertex_some_position cv _ _ _ _ hs
  refine ⟨hn, ?_⟩
  unfold NumVertices at hn ⊢
  have hi0 := check_some _ _ hc
  simp only [hi0, hi1, check, if_true, Option.bind_eq_bind, Option.some_bind, Option.pure_def,
    TArray.Num, PositionStride, Option.some.injEq] at hn ⊢
  rw [hl, hP, List.length_append, List.length_replicate]
  push_cast
  omega

end FRuntimeMeshVerticesAccessor

/-- C9 (as stated, refuted): the vertex accessor of a new builder constructed with zero UV
channels is initialized and satisfies the stream length invariant. `AddVertex(vertex)`
faults on it (the UV record of the new vertex is empty, and `SetVertex` accesses it),
while `AddVertex(position)` returns the prior count 0. -/
theorem AddVertex_vertex_faults_without_channels :
    sampleVerticesNoChannels.IsInitialized ∧ sampleVerticesNoChannels.LengthInv ∧
    sampleVerticesNoChannels.NumVertices = some 0 ∧
    sampleVerticesNoChannels.NumUVChannels = some 0 ∧
    (sampleVertexNoUVs.UVs.length : Int) ≤ sampleVerticesNoChannels.UVChannelCount ∧
    sampleVerticesNoChannels.AddVertexFull sampleConversions sampleVertexNoUVs = none ∧
    ∃ acc1, sampleVerticesNoChannels.AddVertex { X := 1, Y := 2, Z := 3 } = some (0, acc1) ∧
      acc1.NumVertices = some 1 :=
  ⟨by decide, by decide, by decide, by decide, by decide, by decide, _, rfl, by decide⟩

/-- C9 (amended): for every initialized vertex accessor with a non-negative channel count
that satisfies the stream length invariant: `AddVertex(position)` returns the
`NumVertices()` value from before the call and afterwards `NumVertices()` is one larger;
whenever `AddVertex(vertex)` returns, it returns the `NumVertices()` value from before the
call and afterwards `NumVertices()` is one larger; `AddVertex(vertex)` does return when the
accessor has at least one UV channel and the vertex has at most `NumUVChannels()` and at
most 8 UVs; hence a sequence of such calls of `AddVertex` starting at count `n` returns
`n, n+1, ...` in order and leaves the count at `n` plus the number of calls (on an empty
builder, `n = 0`). -/
theorem AddVertex_returns_prior_count (cv : EngineConversions)
    (acc : FRuntimeMeshVerticesAccessor)
    (hinit : acc.IsInitialized) (hch : 0 ≤ acc.UVChannelCount) (hinv : acc.LengthInv) :
    (∀ p : FVector, ∃ n acc1, acc.NumVertices = some n ∧ acc.AddVertex p = some (n, acc1) ∧
      acc1.NumVertices = some (n + 1)) ∧
    (∀ (v : FRuntimeMeshAccessorVertex) (n : Int) (acc1 : FRuntimeMeshVerticesAccessor),
      acc.AddVertexFull cv v = some (n, acc1) →
        acc.NumVertices = some n ∧ acc1.NumVertices = some (n + 1)) ∧
    (∀ v : FRuntimeMeshAccessorVertex, 1 ≤ acc.UVChannelCount →
      (v.UVs.length : Int) ≤ acc.UVChannelCount → v.UVs.length ≤ 8 →
        ∃ n acc1, acc.NumVertices = some n ∧ acc.AddVertexFull cv v = some (n, acc1) ∧
          acc1.NumVertices = some (n + 1)) ∧
    (∀ calls : List AddVertexCall,
      (∀ v, AddVertexCall.vertex v ∈ calls → 1 ≤ acc.UVChannelCount ∧
        (v.UVs.length : Int) ≤ acc.UVChannelCount ∧ v.UVs.length ≤ 8) →
      ∃ n acc1, acc.NumVertices = some n ∧
        AddVertexSeq cv acc calls =
          some ((List.range calls.length).map (fun (i : Nat) => n + (i : Int)), acc1) ∧
        acc1.NumVertices = some (n + (calls.length : Int))) := by
  obtain ⟨ch, N, hc, eacc, hrec, hN⟩ :=
    FRuntimeMeshVerticesAccessor.explicit_of_inv_nonneg acc hinit hch hinv
  have hnv : acc.NumVertices = some (N : Int) := by
    rw [eacc, FRuntimeMeshVerticesAccessor.NumVertices_create, hN]
  have hnum1 : ∀ (k : Nat) (P1 T1 U1 C1 : TArray),
      HoldsRecords acc.bTangentHighPrecision acc.bUVHighPrecision ch k P1 T1 U1 C1 →
      (FRuntimeMeshVerticesAccessor.create acc.bTangentHighPrecision acc.bUVHighPrecision
        (ch : Int) P1 T1 U1 C1).NumVertices = some (k : Int) := by
    intro k P1 T1 U1 C1 h
    rw [FRuntimeMeshVerticesAccessor.NumVertices_create, h.1,
      Nat.mul_div_cancel _ (by norm_num)]
  have one : ∀ call : AddVertexCall,
      (∀ v, call = AddVertexCall.vertex v →
        1 ≤ ch ∧ v.UVs.length ≤ ch ∧ v.UVs.length ≤ 8) →
      ∃ n acc1, acc.NumVertices = some n ∧ call.run cv acc = some (n, acc1) ∧
        acc1.NumVertices = some (n + 1) := by
    intro call hcall
    obtain ⟨P1, T1, U1, C1, e, h⟩ :=
      FRuntimeMeshVerticesAccessor.AddVertexCall_run_create_of_le cv
        acc.bTangentHighPrecision acc.bUVHighPrecision ch N acc.PositionStream
        acc.TangentStream acc.UVStream acc.ColorStream call hrec hcall
    rw [← eacc] at e
    exact ⟨_, _, hnv, e, by rw [hnum1 _ _ _ _ _ h]; push_cast; rfl⟩
  refine ⟨fun p => one (AddVertexCall.position p) (fun v hv => AddVertexCall.noConfusion hv),
    fun v n acc1 h => FRuntimeMeshVerticesAccessor.AddVertexFull_some cv acc acc1 v n h,
    ?_, ?_⟩
  · intro v h1 hv h8
    rw [hc] at h1 hv
    exact one (AddVertexCall.vertex v) (fun w hw => by
      have : w = v := by injection hw with h; exact h.symm
      rw [this]
      exact ⟨by exact_mod_cast h1, by exact_mod_cast hv, h8⟩)
  · intro calls hv
    obtain ⟨P1, T1, U1, C1, e, h⟩ := FRuntimeMeshVerticesAccessor.AddVertexSeq_create cv
      acc.bTangentHighPrecision acc.bUVHighPrecision ch calls N acc.PositionStream
      acc.TangentStream acc.UVStream acc.ColorStream hrec (fun v hm => by
        obtain ⟨a1, a2, a3⟩ := hv v hm
        rw [hc] at a1 a2
        exact ⟨by exact_mod_cast a1, by exact_mod_cast a2, a3⟩)
    rw [← eacc] at e
    exact ⟨_, _, hnv, e, by rw [hnum1 _ _ _ _ _ h]; push_cast; rfl⟩

/-- Witness for C9 (amended): three calls of `AddVertex` on the empty accessor of a new
builder with one UV channel. -/
theorem AddVertex_returns_prior_count_witness :
    (FRuntimeMeshVerticesAccessor.create false false 1 [] [] [] []).IsInitialized ∧
    0 ≤ (FRuntimeMeshVerticesAccessor.create false false 1 [] [] [] []).UVChannelCount ∧
    (FRuntimeMeshVerticesAccessor.create false false 1 [] [] [] []).LengthInv ∧
    ∃ n acc1, (FRuntimeMeshVerticesAccessor.create false false 1 [] [] [] []).NumVertices
        = some n ∧
      AddVertexSeq sampleConversions (FRuntimeMeshVerticesAccessor.create false false 1 [] [] [] [])
          [AddVertexCall.position { X := 1, Y := 2, Z := 3 },
           AddVertexCall.vertex sampleVertexOneUV,
           AddVertexCall.position { X := 4, Y := 5, Z := 6 }] =
        some ((List.range 3).map (fun (i : Nat) => n + (i : Int)), acc1) ∧
      acc1.NumVertices = some (n + 3) :=
  ⟨by decide, by decide, by decide,
    (AddVertex_returns_prior_count sampleConversions
      (FRuntimeMeshVerticesAccessor.create false false 1 [] [] [] []) (by decide) (by decide)
      (by decide)).2.2.2 _ (by
        intro v hv
        simp only [List.mem_cons, List.mem_singleton, AddVertexCall.vertex.injEq,
          List.mem_nil_iff] at hv
        rcases hv with h | h | h | h
        · exact AddVertexCall.noConfusion h
        · subst h
          decide
        · exact AddVertexCall.noConfusion h
        · exact h.elim)⟩

/-! ### AddVertex(position) -/

/-- C16 (as stated, refuted): an initialized accessor whose position stream holds one stray
byte and whose color stream holds four stale bytes, so that `NumVertices()` is 0.
`AddVertex(p)` returns index 0 and the count becomes 1, but the color record of the new
vertex holds the stale bytes, not zeros, the byte the position stream held before has
been overwritten, and the twelve bytes appended to the position stream do not hold `p`. -/
theorem AddVertex_over_mismatched_streams :
    sampleVerticesMisaligned.IsInitialized ∧ sampleVerticesMisaligned.NumVertices = some 0 ∧
    ∃ acc1, sampleVerticesMisaligned.AddVertex { X := 1, Y := 2, Z := 3 } = some (0, acc1) ∧
      acc1.NumVertices = some 1 ∧
      record acc1.ColorStream 4 0 = [9, 9, 9, 9] ∧
      record acc1.ColorStream 4 0 ≠ List.replicate 4 0 ∧
      acc1.PositionStream.take 1 ≠ sampleVerticesMisaligned.PositionStream ∧
      acc1.PositionStream.drop 1 ≠ encodeFVector { X := 1, Y := 2, Z := 3 } :=
  ⟨by decide, by decide, _, rfl, by decide, by decide, by decide, by decide, by decide⟩

/-- C16 (amended): for every initialized vertex accessor with a non-negative channel count
that satisfies the stream length invariant, and every position `p`: `AddVertex(p)` succeeds
and returns the prior count `n`; afterwards the position stream is the old one followed by
the 12 bytes of `p`, the tangent, UV and color streams are the old ones followed by one
record of zero bytes each, and the configuration is unchanged. So the count is `n + 1`,
record `n` of the position stream holds `p`, every byte of record `n` of the other three
streams is zero, and every record below `n` is unchanged in all four streams. -/
theorem AddVertex_appends_record (acc : FRuntimeMeshVerticesAccessor) (p : FVector)
    (hinit : acc.IsInitialized) (hch : 0 ≤ acc.UVChannelCount) (hinv : acc.LengthInv) :
    ∃ (n : Nat) (acc1 : FRuntimeMeshVerticesAccessor),
      acc.NumVertices = some (n : Int) ∧ acc.AddVertex p = some ((n : Int), acc1) ∧
      acc1 = { acc with
        PositionStream := acc.PositionStream ++ encodeFVector p
        TangentStream := acc.TangentStream ++ List.replicate acc.TangentStride.toNat 0
        UVStream := acc.UVStream ++ List.replicate acc.UVStride.toNat 0
        ColorStream := acc.ColorStream ++ List.replicate 4 0 } ∧
      acc1.NumVertices = some ((n : Int) + 1) ∧
      record acc1.PositionStream 12 n = encodeFVector p ∧
      record acc1.TangentStream acc.TangentStride.toNat n =
        List.replicate acc.TangentStride.toNat 0 ∧
      record acc1.UVStream acc.UVStride.toNat n = List.replicate acc.UVStride.toNat 0 ∧
      record acc1.ColorStream 4 n = List.replicate 4 0 ∧
      ∀ j : Nat, j < n →
        record acc1.PositionStream 12 j = record acc.PositionStream 12 j ∧
        record acc1.TangentStream acc.TangentStride.toNat j =
          record acc.TangentStream acc.TangentStride.toNat j ∧
        record acc1.UVStream acc.UVStride.toNat j = record acc.UVStream acc.UVStride.toNat j ∧
        record acc1.ColorStream 4 j = record acc.ColorStream 4 j := by
  obtain ⟨ch, N, hc, eacc, ⟨hP, hT, hU, hC⟩, hN⟩ :=
    FRuntimeMeshVerticesAccessor.explicit_of_inv_nonneg acc hinit hch hinv
  have hts : acc.TangentStride.toNat = 2 * packedSize acc.bTangentHighPrecision := by
    rw [eacc, FRuntimeMeshVerticesAccessor.TangentStride_create]
    exact Int.toNat_ofNat _
  have hus : acc.UVStride.toNat = uvSize acc.bUVHighPrecision * ch := by
    rw [eacc, FRuntimeMeshVerticesAccessor.UVStride_create]
    exact Int.toNat_ofNat _
  have av := FRuntimeMeshVerticesAccessor.AddVertex_create acc.bTangentHighPrecision
    acc.bUVHighPrecision ch acc.PositionStream acc.TangentStream acc.UVStream acc.ColorStream p
  rw [← eacc, hN] at av
  have hpp : patch (acc.PositionStream ++ List.replicate 12 0) (N * 12) (encodeFVector p) =
      acc.PositionStream ++ encodeFVector p := by
    rw [← hP]
    exact patch_append_end _ _ _ (by rw [length_encodeFVector, List.length_replicate])
  rw [hpp] at av
  have hnv : acc.NumVertices = some (N : Int) := by
    rw [eacc, FRuntimeMeshVerticesAccessor.NumVertices_create, hN]
  have full : ∀ (s t : TArray) (st : Nat), s.length = N * st → t.length = st →
      record (s ++ t) st N = t := by
    intro s t st hs ht
    unfold record
    rw [← hs]
    have := slice_append_right s t 0 st
    rw [Nat.add_zero] at this
    rw [this, ← ht]
    exact slice_full t
  have old : ∀ (s t : TArray) (st j : Nat), s.length = N * st → j < N →
      record (s ++ t) st j = record s st j := by
    intro s t st j hs hj
    unfold record
    apply slice_append_left
    rw [hs]
    have := Nat.mul_le_mul_right st (show j + 1 ≤ N from hj)
    rwa [Nat.add_mul, Nat.one_mul] at this
  refine ⟨N, _, hnv, av, ?_, ?_, ?_, ?_, ?_, ?_, ?_⟩
  · rw [hts, hus]
    conv_rhs => rw [eacc]
    rfl
  · rw [FRuntimeMeshVerticesAccessor.NumVertices_create, List.length_append,
      length_encodeFVector, hP]
    have : (N * 12 + 12) / 12 = N + 1 := by omega
    rw [this]
    rfl
  · exact full _ _ 12 hP (length_encodeFVector p)
  · rw [hts]
    exact full _ _ _ hT (List.length_replicate _ _)
  · rw [hus]
    exact full _ _ _ hU (List.length_replicate _ _)
  · exact full _ _ 4 hC (List.length_replicate _ _)
  · intro j hj
    refine ⟨old _ _ 12 j hP hj, ?_, ?_, old _ _ 4 j hC hj⟩
    · rw [hts]
      exact old _ _ _ j hT hj
    · rw [hus]
      exact old _ _ _ j hU hj

/-- Witness for C16 (amended): `AddVertex` on the vertex accessor of a one-vertex mesh. -/
theorem AddVertex_appends_record_witness :
    sampleMeshOne.Vertices.IsInitialized ∧ 0 ≤ sampleMeshOne.Vertices.UVChannelCount ∧
    sampleMeshOne.Vertices.LengthInv ∧
    ∃ (n : Nat) (acc1 : FRuntimeMeshVerticesAccessor),
      sampleMeshOne.Vertices.NumVertices = some (n : Int) ∧
      sampleMeshOne.Vertices.AddVertex { X := 1, Y := 2, Z := 3 } = some ((n : Int), acc1) :=
  ⟨by decide, by decide, by decide,
    (AddVertex_appends_record sampleMeshOne.Vertices { X := 1, Y := 2, Z := 3 } (by decide)
      (by decide) (by decide)).imp fun _ h => h.imp fun _ h => ⟨h.1, h.2.1⟩⟩

/-! ### AddTriangle and AddIndex -/

/-- C18: on every index accessor and for all values `a`, `b`, `c`, `AddTriangle(a, b, c)`
has exactly the outcome of `AddIndex(a); AddIndex(b); AddIndex(c)`: the same index stream
afterwards and the value the first `AddIndex` returns (and both fault on an accessor that
is not initialized). On an initialized accessor it succeeds, returns the prior
`NumIndices()`, and afterwards `NumIndices()` is larger by exactly 3 and the stream longer
by three records. -/
theorem AddTriangle_eq_AddIndexThrice (self : FRuntimeMeshIndicesAccessor) (a b c : Int) :
    self.AddTriangle a b c = self.AddIndexThrice a b c ∧
    (self.bIsInitialized = true →
      ∃ n self1, self.NumIndices = some n ∧ self.AddTriangle a b c = some (n, self1) ∧
        self1.NumIndices = some (n + 3) ∧
        self1.IndexStream.Num = self.IndexStream.Num + 3 * self.GetIndexStride ∧
        self1.b32BitIndices = self.b32BitIndices ∧ self1.bIsInitialized = true) := by
  obtain ⟨i, s, w⟩ := self
  cases i
  · exact ⟨rfl, fun h => Bool.noConfusion h⟩
  have hw : 0 < indexWidth w := by cases w <;> simp [indexWidth]
  have hN : s.length / indexWidth w * indexWidth w ≤ s.length := Nat.div_mul_le_self _ _
  have hlt : s.length < (s.length / indexWidth w + 1) * indexWidth w := by
    have : s.length < s.length / indexWidth w * indexWidth w + indexWidth w :=
      Nat.lt_div_mul_add hw
    rw [Nat.add_mul, Nat.one_mul]
    omega
  have t := FRuntimeMeshIndicesAccessor.AddTriangle_eq ⟨true, s, w⟩ a b c rfl
  simp only at t
  generalize hNdef : s.length / indexWidth w = N at hN hlt t
  -- the three steps of the sequence
  have e1 := FRuntimeMeshIndicesAccessor.AddIndex_eq ⟨true, s, w⟩ a rfl
  simp only [hNdef] at e1
  have la : (indexBytes w a).length = indexWidth w := length_indexBytes _ _
  have lb : (indexBytes w b).length = indexWidth w := length_indexBytes _ _
  have lc : (indexBytes w c).length = indexWidth w := length_indexBytes _ _
  have hNw : (N + 1) * indexWidth w = N * indexWidth w + indexWidth w := by
    rw [Nat.add_mul, Nat.one_mul]
  have hNw2 : (N + 2) * indexWidth w = N * indexWidth w + 2 * indexWidth w := by
    rw [Nat.add_mul]
  set z := List.replicate (indexWidth w) 0 with hz
  have lz : z.length = indexWidth w := List.length_replicate _ _
  set S1 := patch (s ++ z) (N * indexWidth w) (indexBytes w a) with hS1
  have l1 : S1.length = s.length + indexWidth w := by
    rw [hS1, length_patch _ _ _ (by rw [List.length_append, lz, la]; omega),
      List.length_append, lz]
  have d1 : S1.length / indexWidth w = N + 1 := by
    rw [l1]
    apply Nat.div_eq_of_lt_le
    · rw [hNw]; omega
    · rw [show N + 1 + 1 = N + 2 from rfl, hNw2]; omega
  have e2 := FRuntimeMeshIndicesAccessor.AddIndex_eq ⟨true, S1, w⟩ b rfl
  simp only [d1] at e2
  set S2 := patch (S1 ++ z) ((N + 1) * indexWidth w) (indexBytes w b) with hS2
  have l2 : S2.length = s.length + 2 * indexWidth w := by
    rw [hS2, length_patch _ _ _ (by rw [List.length_append, lz, lb, l1]; omega),
      List.length_append, lz, l1]
    omega
  have d2 : S2.length / indexWidth w = N + 2 := by
    rw [l2]
    apply Nat.div_eq_of_lt_le
    · rw [hNw2]; omega
    · rw [show N + 2 + 1 = N + 3 from rfl, Nat.add_mul]; omega
  have e3 := FRuntimeMeshIndicesAccessor.AddIndex_eq ⟨true, S2, w⟩ c rfl
  simp only [d2] at e3
  set S3 := patch (S2 ++ z) ((N + 2) * indexWidth w) (indexBytes w c) with hS3
  have l3 : S3.length = s.length + 3 * indexWidth w := by
    rw [hS3, length_patch _ _ _ (by rw [List.length_append, lz, lc, l2]; omega),
      List.length_append, lz, l2]
    omega
  have hseq : (FRuntimeMeshIndicesAccessor.mk true s w).AddIndexThrice a b c =
      some ((N : Int), ⟨true, S3, w⟩) := by
    simp only [FRuntimeMeshIndicesAccessor.AddIndexThrice, e1, e2, e3, Option.bind_eq_bind,
      Option.some_bind, Option.pure_def]
  -- the one reservation of `AddTriangle` is the three reservations of the sequence
  have hzzz : List.replicate (indexWidth w * 3) 0 = z ++ (z ++ z) := by
    rw [hz, ← List.replicate_add, ← List.replicate_add]
    congr 1
    omega
  have hT : patch (patch (patch (s ++ List.replicate (indexWidth w * 3) 0) (N * indexWidth w)
      (indexBytes w a)) ((N + 1) * indexWidth w) (indexBytes w b)) ((N + 2) * indexWidth w)
      (indexBytes w c) = S3 := by
    rw [hzzz, ← List.append_assoc,
      patch_append_left (s ++ z) (z ++ z) _ _ (by rw [List.length_append, lz, la]; omega),
      ← hS1, ← List.append_assoc,
      patch_append_left (S1 ++ z) z _ _ (by rw [List.length_append, lz, lb, l1]; omega),
      ← hS2]
  rw [hT] at t
  refine ⟨t.trans hseq.symm, fun _ => ⟨(N : Int), ⟨true, S3, w⟩, ?_, t, ?_, ?_, rfl, rfl⟩⟩
  · rw [FRuntimeMeshIndicesAccessor.NumIndices_eq _ rfl, hNdef]
  · rw [FRuntimeMeshIndicesAccessor.NumIndices_eq _ rfl]
    have d3 : S3.length / indexWidth w = N + 3 := by
      rw [l3]
      apply Nat.div_eq_of_lt_le
      · rw [Nat.add_mul]; omega
      · rw [show N + 3 + 1 = N + 4 from rfl, Nat.add_mul]; omega
    simp only [d3]
    push_cast
    rfl
  · rw [FRuntimeMeshIndicesAccessor.GetIndexStride_eq]
    simp only [TArray.Num, l3]
    push_cast
    ring

/-- Witness for C18: a triangle added to the index accessor of a one-vertex mesh. -/
theorem AddTriangle_eq_AddIndexThrice_witness :
    sampleMeshOne.Indices.bIsInitialized = true ∧
    sampleMeshOne.Indices.AddTriangle 0 70000 (-1) =
      sampleMeshOne.Indices.AddIndexThrice 0 70000 (-1) ∧
    ∃ n self1, sampleMeshOne.Indices.NumIndices = some n ∧
      sampleMeshOne.Indices.AddTriangle 0 70000 (-1) = some (n, self1) ∧
      self1.NumIndices = some (n + 3) :=
  ⟨rfl, (AddTriangle_eq_AddIndexThrice sampleMeshOne.Indices 0 70000 (-1)).1,
    ((AddTriangle_eq_AddIndexThrice sampleMeshOne.Indices 0 70000 (-1)).2 rfl).imp
      fun _ h => h.imp fun _ h => ⟨h.1, h.2.1, h.2.2.1⟩⟩

/-! ### Frames of the setters -/

namespace FRuntimeMeshVerticesAccessor

theorem strideOf_create (hi uvhi : Bool) (ch : Int) (P T U C : TArray) (s : VertexStream) :
    (create hi uvhi ch P T U C).StrideOf s =
      match s with
      | .Position => 12
      | .Tangent => ((2 * packedSize hi : Nat) : Int)
      | .UV => ((uvSize uvhi : Nat) : Int) * ch
      | .Color => 4 := by
  cases s
  · rfl
  · cases hi <;> rfl
  · cases uvhi <;> rfl
  · rfl

end FRuntimeMeshVerticesAccessor

/-- C20: for every initialized index accessor, every position `p` with
`0 <= p < NumIndices()` and every `int32` value `v`: `SetIndex(p, v)` succeeds; then
`GetIndex(p)` returns `v` when the accessor uses 32-bit indices and `v mod 2^16`, a value
in `0..65535`, when it uses 16-bit indices; the stream keeps its length, every byte outside
record `p` is unchanged, so `GetIndex(q)` returns what it returned before at every other
position `q`, and `NumIndices()` and the index width are unchanged. -/
theorem SetIndex_width_arithmetic (self : FRuntimeMeshIndicesAccessor) (p v : Int)
    (hinit : self.bIsInitialized = true) (hp : self.InRange p) (hv : IsInt32 v) :
    ∃ self1, self.SetIndex p v = some self1 ∧
      self1.GetIndex p = some (if self.b32BitIndices then v else v % 65536) ∧
      (0 ≤ v % 65536 ∧ v % 65536 ≤ 65535) ∧
      self1.NumIndices = self.NumIndices ∧
      self1.b32BitIndices = self.b32BitIndices ∧ self1.bIsInitialized = true ∧
      self1.IndexStream.length = self.IndexStream.length ∧
      (∀ k : Nat, ((k : Int) < p * self.GetIndexStride ∨
          (p + 1) * self.GetIndexStride ≤ (k : Int)) →
        self1.IndexStream[k]? = self.IndexStream[k]?) ∧
      (∀ q : Int, self.InRange q → q ≠ p → self1.GetIndex q = self.GetIndex q) := by
  obtain ⟨i, s, w⟩ := self
  simp only at hinit
  subst hinit
  have hw : 0 < indexWidth w := by cases w <;> simp [indexWidth]
  have hnum := FRuntimeMeshIndicesAccessor.NumIndices_eq ⟨true, s, w⟩ rfl
  simp only at hnum
  have hN : s.length / indexWidth w * indexWidth w ≤ s.length := Nat.div_mul_le_self _ _
  have inr : ∀ q : Int, (FRuntimeMeshIndicesAccessor.mk true s w).InRange q →
      ∃ j : Nat, q = (j : Int) ∧ (j + 1) * indexWidth w ≤ s.length := by
    intro q hq
    unfold FRuntimeMeshIndicesAccessor.InRange at hq
    rw [hnum] at hq
    simp only at hq
    obtain ⟨j, rfl⟩ := Int.eq_ofNat_of_zero_le hq.1
    have hj : j + 1 ≤ s.length / indexWidth w := by omega
    exact ⟨j, rfl, le_trans (Nat.mul_le_mul_right _ hj) hN⟩
  obtain ⟨j, rfl, hj⟩ := inr p hp
  have hjw : (j + 1) * indexWidth w = j * indexWidth w + indexWidth w := by
    rw [Nat.add_mul, Nat.one_mul]
  have lb : (indexBytes w v).length = indexWidth w := length_indexBytes _ _
  have hfit : j * indexWidth w + (indexBytes w v).length ≤ s.length := by rw [lb]; omega
  have es := FRuntimeMeshIndicesAccessor.SetIndex_eq ⟨true, s, w⟩ j v rfl hj
  simp only at es
  have lp : (patch s (j * indexWidth w) (indexBytes w v)).length = s.length :=
    length_patch _ _ _ hfit
  have hst : (FRuntimeMeshIndicesAccessor.mk true s w).GetIndexStride =
      ((indexWidth w : Nat) : Int) := FRuntimeMeshIndicesAccessor.GetIndexStride_eq _
  refine ⟨_, es, ?_, by omega, ?_, rfl, rfl, lp, ?_, ?_⟩
  · rw [FRuntimeMeshIndicesAccessor.GetIndex_eq ⟨true, _, w⟩ j rfl (by simp only [lp]; exact hj)]
    simp only
    have := slice_patch_same s (j * indexWidth w) (indexBytes w v) hfit
    rw [lb] at this
    rw [this, indexValue_indexBytes w v hv]
    rfl
  · rw [FRuntimeMeshIndicesAccessor.NumIndices_eq ⟨true, _, w⟩ rfl, hnum]
    simp only [lp]
  · intro k hk
    rw [hst] at hk
    show (patch s (j * indexWidth w) (indexBytes w v))[k]? = s[k]?
    rw [getElem?_patch _ _ _ hfit, if_neg]
    rw [lb]
    intro hcon
    have h1 : ((j * indexWidth w : Nat) : Int) = (j : Int) * (indexWidth w : Int) := by
      push_cast; rfl
    have h2 : ((j : Int) + 1) * ((indexWidth w : Nat) : Int) =
        (j : Int) * (indexWidth w : Int) + (indexWidth w : Int) := by ring
    omega
  · intro q hq hne
    obtain ⟨t, rfl, ht⟩ := inr q hq
    have htj : t ≠ j := fun h => hne (by rw [h])
    rw [FRuntimeMeshIndicesAccessor.GetIndex_eq ⟨true, _, w⟩ t rfl (by simp only [lp]; exact ht),
      FRuntimeMeshIndicesAccessor.GetIndex_eq ⟨true, s, w⟩ t rfl ht]
    simp only
    rw [slice_patch_disjoint _ _ _ _ _ hfit]
    rw [lb]
    rcases Nat.lt_or_gt_of_ne htj with h | h
    · left
      have := Nat.mul_le_mul_right (indexWidth w) (show t + 1 ≤ j from h)
      rw [Nat.add_mul, Nat.one_mul] at this
      exact this
    · right
      have := Nat.mul_le_mul_right (indexWidth w) (show j + 1 ≤ t from h)
      rw [Nat.add_mul, Nat.one_mul] at this
      exact this

/-- Witness for C20: the value 70000 stored at position 0 of a 16-bit index stream reads
back as 4464. -/
theorem SetIndex_width_arithmetic_witness :
    sampleMeshOne.Indices.bIsInitialized = true ∧ sampleMeshOne.Indices.InRange 0 ∧
    IsInt32 70000 ∧
    ∃ self1, sampleMeshOne.Indices.SetIndex 0 70000 = some self1 ∧
      self1.GetIndex 0 = some (if sampleMeshOne.Indices.b32BitIndices then 70000 else 4464) :=
  ⟨rfl, by decide, by decide,
    (SetIndex_width_arithmetic sampleMeshOne.Indices 0 70000 rfl (by decide) (by decide)).imp
      fun _ h => ⟨h.1, h.2.1⟩⟩

namespace FRuntimeMeshAccessor

end FRuntimeMeshAccessor

namespace FRuntimeMeshAccessor

end FRuntimeMeshAccessor

end RuntimeMesh
